import Mathlib

/-!
Verification of the Jack-to-VM compiler (nand2tetris-compiler).

Shallow embedding of the source files under src/src/:
  grammar_utility.py, tokenizer.py, symbol_table.py, vm_writer.py,
  compilation_engine.py.

Conventions of the embedding:
* Python strings are Lean `String`; Python `None` is `Option.none` where a
  field can hold it.  Where Python compares values of distinct runtime
  types, a small `PyVal` sum type mirrors Python equality semantics.
* Fallible Python code (raise) is `Except String`.
* Python `while` loops and recursion are modelled with an explicit fuel
  parameter; running out of fuel models divergence, never a result.
* The XML diagnostic output (a parallel parse tree, spec "optional,
  diagnostic") is not modelled: it has no effect on control flow, the
  symbol table, or the primary VM output.  Everything else (token cursor
  movement, validation and errors, symbol tables, VM emission order) is
  translated statement by statement from the Python source.
-/

/-! ## grammar_utility.py -/

namespace GrammarUtility

def KEYWORD_TAG : String := "keyword"
def IDENTIFIER_TAG : String := "identifier"
def SYMBOL_TAG : String := "symbol"
def STRING_CONSTANT_TAG : String := "stringConstant"
def INTEGER_CONSTANT_TAG : String := "integerConstant"

def SUBROUTINE_DEC_SET : List String := ["constructor", "function", "method"]
def SUBROUTINE_OR_CLASS_END : List String := ["constructor", "function", "method", "\x7d"]
def STATEMENT_SET : List String := ["let", "if", "while", "do", "return"]
def STATEMENT_OR_ROUTINE_END : List String :=
  ["let", "if", "while", "do", "return", "\x7d"]
def TERM_OPS : List String :=
  ["+", "-", "*", "/", "&", "|", "<", ">", "=", "&lt;", "&gt;", "&amp;"]
def KEYWORD_CONSTANT : List String := ["true", "false", "null", "this"]
def UNARY_OP : List String := ["-", "~"]

def SYMBOLS : List String :=
  ["\x7b", "\x7d", "(", ")", "[", "]", ".", ",", ";",
   "+", "-", "*", "/", "&", "|", "<", ">", "=", "~"]

def KEYWORDS : List String :=
  ["class", "constructor", "function", "method", "field", "static", "var",
   "int", "char", "boolean", "void", "true", "false", "null", "this",
   "let", "do", "if", "else", "while", "return"]

end GrammarUtility

/-! ## Python runtime helpers -/

deriving instance DecidableEq for Except

/-- Python values as far as this code base compares them: strings, `None`,
and the one `CompilationEngine` object that appears in a comparison in
`_compile_expression` (`self.__tokenizer.current_token() != self`). -/
inductive PyVal where
  | str (s : String)
  | none
  | engineObj
  deriving DecidableEq, Repr

/-- Python `==` on the values of `PyVal`: strings compare by content;
values of different runtime types are unequal (`str.__eq__` returns
`NotImplemented` against a non-string and the fallback is identity). -/
def pyEq : PyVal → PyVal → Bool
  | .str a, .str b => a == b
  | .none, .none => true
  | .engineObj, .engineObj => true
  | _, _ => false

/-- Python `!=`. -/
def pyNe (a b : PyVal) : Bool := !(pyEq a b)

/-- The engine's view of `current_token()` as a Python value
(`None` before the first `next()`, a string afterwards). -/
def pyOfOptStr : Option String → PyVal
  | Option.none => PyVal.none
  | Option.some s => PyVal.str s

/-- Python f-string rendering of a string-or-`None` value
(`str(None)` is the text `None`). -/
def pyStrOf : Option String → String
  | Option.none => "None"
  | Option.some s => s

/-- Python f-string rendering of an int-or-`None` value. -/
def pyNatOf : Option Nat → String
  | Option.none => "None"
  | Option.some n => toString n

/-- Python f-string rendering of the lexer pointer (an int or `None`). -/
def pyIntOf : Option Int → String
  | Option.none => "None"
  | Option.some n => toString n

/-- Python whitespace for `str.split()` and `int()` stripping
(space, tab, newline, carriage return, vertical tab, form feed). -/
def isPySpace (c : Char) : Bool :=
  c == ' ' || c == '\t' || c == '\n' || c == '\x0d' || c == '\x0b' || c == '\x0c'

/-- ASCII decimal digit, as `str.isdigit` behaves on the ASCII range
(the source text is ASCII Jack code; non-ASCII digits are not modelled). -/
def isPyDigit (c : Char) : Bool := '0' ≤ c && c ≤ '9'

/-- Digit run of a Python integer literal after the optional sign: ASCII
digits with single underscores allowed between digits (accumulating the
value). -/
def pyDigitsGo (acc : Nat) : List Char → Option Nat
  | [] => some acc
  | '_' :: c :: cs =>
      if isPyDigit c then pyDigitsGo (acc * 10 + (c.toNat - '0'.toNat)) cs else none
  | '_' :: [] => none
  | c :: cs =>
      if isPyDigit c then pyDigitsGo (acc * 10 + (c.toNat - '0'.toNat)) cs else none

def pyDigits : List Char → Option Nat
  | [] => none
  | '_' :: _ => none
  | c :: cs => if isPyDigit c then pyDigitsGo (c.toNat - '0'.toNat) cs else none

/-- Python `int(s)` on a string: optional surrounding whitespace, optional
sign, then a digit run (underscore separators allowed).  Returns `none`
where Python raises `ValueError`. -/
def pyInt (s : String) : Option Int :=
  let chars := (s.data.dropWhile isPySpace).reverse.dropWhile isPySpace |>.reverse
  match chars with
  | '-' :: rest => (pyDigits rest).map fun n => -(n : Int)
  | '+' :: rest => (pyDigits rest).map fun n => (n : Int)
  | rest => (pyDigits rest).map fun n => (n : Int)

/-! ## tokenizer.py -/

namespace Tokenizer

open GrammarUtility

def STRING_LITERAL_SUB : String := "_STRING_LITERAL_"

/-- The character class of `REGEX_PATTERN` (tokenizer.py line 17).
Inside the class the three characters plus, hyphen, slash form the range
U+002B..U+002F, i.e. `+ , - . /`; the remaining members are written out
one by one in the pattern.  The class therefore holds exactly the
characters below — note that `=` is absent from the pattern. -/
def padChars : List Char :=
  ['*', '+', ',', '-', '.', '/', '&', '|', '<', '>', '~',
   '(', ')', ';', '\x7b', '\x7d', ':', '"', '[', ']']

/-- `_pad_operators`: `re.sub` of `REGEX_PATTERN` with a space on either
side of the captured class character.  A match consumes any whitespace
around one class character, so the rewrite only merges adjacent
whitespace; on the subsequent whitespace-split it is the same as
surrounding every class character with single spaces, which is how it is
rendered here. -/
def padOperators (cs : List Char) : List Char :=
  cs.flatMap fun c => if c ∈ padChars then [' ', c, ' '] else [c]

/-- Body scanner for `REGEX_PATTERN_STRING_LITERAL` (a quote, one or
more non-quote characters, a quote): after an opening quote, returns the
literal body and the input past the closing quote. -/
def scanLiteralBody (cs : List Char) : Option (List Char × List Char) :=
  match cs.takeWhile (fun c => c != '"'), cs.dropWhile (fun c => c != '"') with
  | [], _ => Option.none
  | body, '"' :: rest' => Option.some (body, rest')
  | _, _ => Option.none

/-- `_find_string_literals` worker: `re.findall` of the literal pattern —
left-to-right non-overlapping matches, each returned with its quotes.
The fuel starts at the input length and every step consumes at least one
character, so the zero-fuel branch is never reached from
`findStringLiterals`. -/
def findStringLiteralsGo : Nat → List Char → List String
  | _, [] => []
  | 0, _ => []
  | fuel + 1, c :: cs =>
    if c = '"' then
      match scanLiteralBody cs with
      | Option.some (body, rest) =>
          ("\"" ++ String.mk body ++ "\"") :: findStringLiteralsGo fuel rest
      | Option.none => findStringLiteralsGo fuel cs
    else findStringLiteralsGo fuel cs

def findStringLiterals (cs : List Char) : List String :=
  findStringLiteralsGo cs.length cs

/-- `_replace_string_literals` worker: `re.sub` of the literal pattern
with the sentinel surrounded by spaces.  Fuel as in
`findStringLiteralsGo`. -/
def replaceStringLiteralsGo : Nat → List Char → List Char
  | _, [] => []
  | 0, rest => rest
  | fuel + 1, c :: cs =>
    if c = '"' then
      match scanLiteralBody cs with
      | Option.some (_, rest) =>
          (" " ++ STRING_LITERAL_SUB ++ " ").data ++ replaceStringLiteralsGo fuel rest
      | Option.none => c :: replaceStringLiteralsGo fuel cs
    else c :: replaceStringLiteralsGo fuel cs

def replaceStringLiterals (cs : List Char) : List Char :=
  replaceStringLiteralsGo cs.length cs

/-- Python `str.split()` (no argument) worker: split on runs of
whitespace, discarding empty pieces.  Fuel as in
`findStringLiteralsGo`. -/
def splitWsGo : Nat → List Char → List String
  | _, [] => []
  | 0, _ => []
  | fuel + 1, c :: cs =>
    if isPySpace c then splitWsGo fuel cs
    else
      String.mk (c :: cs.takeWhile (fun d => !isPySpace d)) ::
        splitWsGo fuel (cs.dropWhile (fun d => !isPySpace d))

def splitWs (cs : List Char) : List String :=
  splitWsGo cs.length cs

/-- One classification step of `_tag_tokens` plus the queue of saved
string literals.  Returns the stored `(token, type)` pair — for a `<`,
`>`, `&` symbol the stored token is the XML-escaped form (the local
variable `token` is rebound before being appended), and for a string
constant the stored token is the sentinel itself (the popped literal is
used only for the XML display form, which the tuple keeps, not the
token slot). -/
def tagTokens : List String → List String → Except String (List (String × String))
  | [], _ => .ok []
  | tok :: rest, lits =>
    if tok ∈ KEYWORDS then
      (tagTokens rest lits).map fun l => (tok, KEYWORD_TAG) :: l
    else if tok ∈ SYMBOLS then
      let tok' := if tok = "<" then "&lt;"
        else if tok = ">" then "&gt;"
        else if tok = "&" then "&amp;" else tok
      (tagTokens rest lits).map fun l => (tok', SYMBOL_TAG) :: l
    else if tok = STRING_LITERAL_SUB then
      match lits with
      | lit :: lits' =>
          let _ := lit
          (tagTokens rest lits').map fun l => (tok, STRING_CONSTANT_TAG) :: l
      | [] => .error "pop from empty list"
    else
      match tok.data with
      | [] => .error "IndexError: string index out of range"
      | c :: _ =>
        if isPyDigit c then
          match pyInt tok with
          | Option.some _ =>
              (tagTokens rest lits).map fun l => (tok, INTEGER_CONSTANT_TAG) :: l
          | Option.none => .error ("Invalid identifier: " ++ tok)
        else
          (tagTokens rest lits).map fun l => (tok, IDENTIFIER_TAG) :: l

/-- Cursor state of a constructed `Tokenizer`. -/
structure TokState where
  tokens : List (String × String)
  ptr : Option Int
  cur : Option (String × String)
  deriving Repr, DecidableEq

/-- The `Tokenizer.__init__` pipeline: find string literals, substitute
the sentinel, pad operators, split on whitespace, tag.  The cursor starts
before the first token (`__token_pointer = None`). -/
def init (input : String) : Except String TokState :=
  let lits := findStringLiterals input.data
  let padded := padOperators (replaceStringLiterals input.data)
  let toks := splitWs padded
  (tagTokens toks lits).map fun l =>
    { tokens := l, ptr := Option.none, cur := Option.none }

/-- `Tokenizer.next`: advance the pointer; past the end, move the pointer
back and raise.  The function body has no `return` statement, so its
Python return value is `None`; the tuple also carries the state of the
object after the call (Python objects persist across a raised
exception). -/
def next (st : TokState) : Except String PyVal × TokState :=
  let p : Int := match st.ptr with
    | Option.none => 0
    | Option.some q => q + 1
  if p ≥ (st.tokens.length : Int) then
    (.error "Reached end of token input", { st with ptr := Option.some (p - 1) })
  else
    match st.tokens.get? p.toNat with
    | Option.some entry =>
        (.ok PyVal.none, { st with ptr := Option.some p, cur := Option.some entry })
    | Option.none =>
        (.error "IndexError: list index out of range", st)

/-- `current_token()` (`None` before the first `next`). -/
def currentToken (st : TokState) : Option String := st.cur.map (·.1)

/-- `current_type()`. -/
def currentType (st : TokState) : Option String := st.cur.map (·.2)

/-- Modelled from the spec: `Tokenizer.look_ahead_token` is invoked by
`CompilationEngine._compile_term` (compilation_engine.py line 645) but its
definition is absent from src/src/tokenizer.py.  Per the spec,
`lookahead(1)` returns the lexeme one past the current token without
advancing the cursor; the engine destructures the token and its category
from the result (the XML display form is not modelled).  The function
reads the state and returns no new state, so the cursor cannot move. -/
def lookAheadToken (st : TokState) : Except String (String × String) :=
  match st.ptr with
  | Option.none => .error "look ahead before first token"
  | Option.some p =>
    match st.tokens.get? (p + 1).toNat with
    | Option.some entry => .ok entry
    | Option.none => .error "look ahead past end of token input"

/-- Modelled from the spec: `Tokenizer.get_value_of_pointer` is invoked
by `CompilationEngine._validate_and_advance_helper`
(compilation_engine.py line 706) but its definition is absent from
src/src/tokenizer.py.  Per the spec, the lexer exposes a stable integer
pointer value used only in error messages. -/
def getValueOfPointer (st : TokState) : Option Int := st.ptr

end Tokenizer


/-! ## symbol_table.py -/

namespace SymbolTableMod

def STATIC_KIND : String := "static"
def FIELD_KIND : String := "field"
def ARG_KIND : String := "arg"
def LOCAL_KIND : String := "local"
def FIRST_KIND_INDEX : Nat := 0

def DECLARING : String := "declaring"
def USING : String := "using"

/-- A row of a symbol table.  `name`, `identifierType` and `kind` are
Python strings that can also hold `None` at some call sites (the engine
passes `current_token()` and `self.__current_class`), hence
`Option String`.  `identifierNumber` is `None` until `add_row` assigns
the slot. -/
structure Row where
  name : Option String
  identifierType : Option String
  kind : Option String
  use : String
  identifierNumber : Option Nat
  deriving Repr, DecidableEq

/-- `SingleTable`: an insertion-ordered mapping (Python dict) from name
to row, plus the four per-kind slot counters. -/
structure SingleTable where
  table : List Row
  nextStaticIndex : Nat
  nextFieldIndex : Nat
  nextArgIndex : Nat
  nextVarIndex : Nat
  deriving Repr, DecidableEq

def SingleTable.empty : SingleTable :=
  { table := [], nextStaticIndex := FIRST_KIND_INDEX,
    nextFieldIndex := FIRST_KIND_INDEX, nextArgIndex := FIRST_KIND_INDEX,
    nextVarIndex := FIRST_KIND_INDEX }

/-- Dict access `self.__table[token]` (with `get_row` returning the row
or `None`). -/
def SingleTable.findRow (st : SingleTable) (token : Option String) : Option Row :=
  st.table.find? (fun r => r.name == token)

/-- `token in self.__table`. -/
def SingleTable.contains (st : SingleTable) (token : Option String) : Bool :=
  (st.findRow token).isSome

def SingleTable.get_number_of_field_variables (st : SingleTable) : Nat :=
  st.nextFieldIndex

/-- `SingleTable.add_row`: reject duplicate names, assign the next free
slot index of the row's kind (`set_identifier_number`), append, and
advance that kind's counter; an unknown kind raises. -/
def SingleTable.add_row (st : SingleTable) (newRow : Row) : Except String SingleTable :=
  if st.contains newRow.name then
    .error ("Table already contains " ++ pyStrOf newRow.name)
  else if newRow.kind == some STATIC_KIND then
    .ok { st with
      table := st.table ++ [{ newRow with identifierNumber := some st.nextStaticIndex }],
      nextStaticIndex := st.nextStaticIndex + 1 }
  else if newRow.kind == some FIELD_KIND then
    .ok { st with
      table := st.table ++ [{ newRow with identifierNumber := some st.nextFieldIndex }],
      nextFieldIndex := st.nextFieldIndex + 1 }
  else if newRow.kind == some ARG_KIND then
    .ok { st with
      table := st.table ++ [{ newRow with identifierNumber := some st.nextArgIndex }],
      nextArgIndex := st.nextArgIndex + 1 }
  else if newRow.kind == some LOCAL_KIND then
    .ok { st with
      table := st.table ++ [{ newRow with identifierNumber := some st.nextVarIndex }],
      nextVarIndex := st.nextVarIndex + 1 }
  else
    .error ("Invalid identifier kind: " ++ pyStrOf newRow.kind)

/-- `SymbolTable`: the class scope and the current subroutine scope. -/
structure SymbolTable where
  classTable : SingleTable
  subroutineTable : SingleTable
  deriving Repr, DecidableEq

def SymbolTable.empty : SymbolTable :=
  { classTable := SingleTable.empty, subroutineTable := SingleTable.empty }

/-- `new_subroutine`: overwrite the subroutine table with an empty one. -/
def SymbolTable.new_subroutine (s : SymbolTable) : SymbolTable :=
  { s with subroutineTable := SingleTable.empty }

def SymbolTable.contains (s : SymbolTable) (token : Option String) : Bool :=
  s.classTable.contains token || s.subroutineTable.contains token

/-- `get_kind`: subroutine scope first, then class scope, else raise. -/
def SymbolTable.get_kind (s : SymbolTable) (token : Option String) :
    Except String (Option String) :=
  match s.subroutineTable.findRow token with
  | Option.some r => .ok r.kind
  | Option.none =>
    match s.classTable.findRow token with
    | Option.some r => .ok r.kind
    | Option.none => .error ("Symbol table does not contain " ++ pyStrOf token)

/-- `get_index`. -/
def SymbolTable.get_index (s : SymbolTable) (token : Option String) :
    Except String (Option Nat) :=
  match s.subroutineTable.findRow token with
  | Option.some r => .ok r.identifierNumber
  | Option.none =>
    match s.classTable.findRow token with
    | Option.some r => .ok r.identifierNumber
    | Option.none => .error ("Symbol table does not contain " ++ pyStrOf token)

/-- `get_type`. -/
def SymbolTable.get_type (s : SymbolTable) (token : Option String) :
    Except String (Option String) :=
  match s.subroutineTable.findRow token with
  | Option.some r => .ok r.identifierType
  | Option.none =>
    match s.classTable.findRow token with
    | Option.some r => .ok r.identifierType
    | Option.none => .error ("Symbol table does not contain " ++ pyStrOf token)

def SymbolTable.get_num_class_fields (s : SymbolTable) : Nat :=
  s.classTable.get_number_of_field_variables

end SymbolTableMod

/-! ## vm_writer.py -/

/-- A Python scalar appearing as an argument of a VM-writer method:
an int, a string, or `None`; `pyToStr` is `str(...)` on it. -/
inductive PyScalar where
  | int (n : Int)
  | str (s : String)
  | none
  deriving Repr, DecidableEq

def pyToStr : PyScalar → String
  | .int n => toString n
  | .str s => s
  | .none => "None"

def pyOfOptNat : Option Nat → PyScalar
  | Option.none => PyScalar.none
  | Option.some n => PyScalar.int n

namespace VMWriter

open GrammarUtility

/-- `TOKEN_TO_VM_ARITHMETIC`, as a partial lookup (`none` models a
missing key). -/
def TOKEN_TO_VM_ARITHMETIC (t : String) : Option String :=
  if t = "+" then Option.some "add"
  else if t = "-" then Option.some "sub"
  else if t = "&" then Option.some "and"
  else if t = "&amp;" then Option.some "and"
  else if t = "|" then Option.some "or"
  else if t = "<" then Option.some "lt"
  else if t = "&lt;" then Option.some "lt"
  else if t = ">" then Option.some "gt"
  else if t = "&gt;" then Option.some "gt"
  else if t = "=" then Option.some "eq"
  else Option.none

def ARGUMENT_SEGMENT : String := "argument"
def CONSTANT_SEGMENT : String := "constant"
def POINTER_SEGMENT : String := "pointer"
def TEMP_SEGMENT : String := "temp"
def THAT_SEGMENT : String := "that"

/-- `SYMBOL_TABLE_TO_VM_SEGMENT`, as a partial lookup; the argument is a
string-or-`None` value (the engine passes `get_kind` results), and a
lookup miss is a `KeyError`. -/
def SYMBOL_TABLE_TO_VM_SEGMENT (t : Option String) : Option String :=
  match t with
  | Option.none => Option.none
  | Option.some t =>
    if t = "static" then Option.some "static"
    else if t = "field" then Option.some "this"
    else if t = "arg" then Option.some ARGUMENT_SEGMENT
    else if t = ARGUMENT_SEGMENT then Option.some ARGUMENT_SEGMENT
    else if t = "var" then Option.some "local"
    else if t = "local" then Option.some "local"
    else if t = POINTER_SEGMENT then Option.some POINTER_SEGMENT
    else if t = CONSTANT_SEGMENT then Option.some CONSTANT_SEGMENT
    else if t = TEMP_SEGMENT then Option.some TEMP_SEGMENT
    else if t = THAT_SEGMENT then Option.some THAT_SEGMENT
    else Option.none

/-!
Each writer method appends text to `self.__output`; here each is a
function of the old output string.  Methods that can raise return
`Except`.
-/

/-- `write_push_command`. -/
def write_push_command (segment : Option String) (index : PyScalar)
    (output : String) : Except String String :=
  match SYMBOL_TABLE_TO_VM_SEGMENT segment with
  | Option.some seg => .ok (output ++ "push " ++ seg ++ " " ++ pyToStr index ++ "\n")
  | Option.none => .error ("KeyError: " ++ pyStrOf segment)

/-- `write_pop_command`. -/
def write_pop_command (segment : Option String) (index : PyScalar)
    (output : String) : Except String String :=
  match SYMBOL_TABLE_TO_VM_SEGMENT segment with
  | Option.some seg => .ok (output ++ "pop " ++ seg ++ " " ++ pyToStr index ++ "\n")
  | Option.none => .error ("KeyError: " ++ pyStrOf segment)

/-- `write_arithmetic_command`. -/
def write_arithmetic_command (command : String) (output : String) : String :=
  output ++ command ++ "\n"

/-- `write_label_command`. -/
def write_label_command (label : String) (output : String) : String :=
  output ++ "label " ++ label ++ "\n"

/-- `write_goto_command`. -/
def write_goto_command (label : String) (output : String) : String :=
  output ++ "goto " ++ label ++ "\n"

/-- `write_if_command`. -/
def write_if_command (label : String) (output : String) : String :=
  output ++ "if-goto " ++ label ++ "\n"

/-- `write_call_command`. -/
def write_call_command (name : String) (nArgs : PyScalar) (output : String) : String :=
  output ++ "call " ++ name ++ " " ++ pyToStr nArgs ++ "\n"

/-- `write_function_command`. -/
def write_function_command (name : String) (nLocals : PyScalar) (output : String) : String :=
  output ++ "function " ++ name ++ " " ++ pyToStr nLocals ++ "\n"

/-- `write_return_command`. -/
def write_return_command (output : String) : String :=
  output ++ "return" ++ "\n"

/-- `write_comment`. -/
def write_comment (comment_text : String) (output : String) : String :=
  output ++ "// " ++ comment_text ++ "\n"

/-- `write_void_return`: push `constant 0`, then `return`. -/
def write_void_return (output : String) : Except String String := do
  let o1 ← write_push_command (Option.some CONSTANT_SEGMENT) (.int 0) output
  .ok (write_return_command o1)

/-- `write_op`: `*` and `/` become OS calls; otherwise the arithmetic
table is consulted (a missing key raises).  The operator reaches this
method as `current_token()`, hence string-or-`None`. -/
def write_op (operator : Option String) (output : String) : Except String String :=
  if operator == Option.some "*" then
    .ok (write_call_command "Math.multiply" (.int 2) output)
  else if operator == Option.some "/" then
    .ok (write_call_command "Math.divide" (.int 2) output)
  else
    match operator with
    | Option.some op =>
      match TOKEN_TO_VM_ARITHMETIC op with
      | Option.some a => .ok (write_arithmetic_command a output)
      | Option.none => .error ("Expected operator token, actual: " ++ op)
    | Option.none => .error "Expected operator token, actual: None"

/-- `write_unary_op`: `-` is `neg`, `~` is `not`, anything else raises. -/
def write_unary_op (operator : Option String) (output : String) : Except String String :=
  if operator == Option.some "-" then .ok (write_arithmetic_command "neg" output)
  else if operator == Option.some "~" then .ok (write_arithmetic_command "not" output)
  else .error ("Expecting unary operator, actual " ++ pyStrOf operator)

/-- Loop of the string-constant case of
`write_constant_int_string_keyword`: for each character of the token,
push its code and call `String.appendChar 2`. -/
def write_append_chars (cs : List Char) (output : String) : String :=
  match cs with
  | [] => output
  | c :: rest =>
    let o1 := output ++ "push " ++ CONSTANT_SEGMENT ++ " " ++ toString c.toNat ++ "\n"
    let o2 := write_call_command "String.appendChar" (.int 2) o1
    write_append_chars rest o2

/-- `write_constant_int_string_keyword`.  The engine passes
`current_type()` and `current_token()`.  Note that for a string constant
the token reaching this method is the sentinel lexeme itself
(`_tag_tokens` stores the sentinel, not the literal body, in the token
slot). -/
def write_constant_int_string_keyword (token_type token : Option String)
    (output : String) : Except String String :=
  if token_type == Option.some INTEGER_CONSTANT_TAG then
    write_push_command (Option.some CONSTANT_SEGMENT)
      (match token with | Option.some t => .str t | Option.none => PyScalar.none) output
  else if token_type == Option.some STRING_CONSTANT_TAG then
    match token with
    | Option.some t => do
      let o1 := write_comment ("string constant: " ++ t) output
      let o2 ← write_push_command (Option.some CONSTANT_SEGMENT) (.int t.length) o1
      let o3 := write_call_command "String.new" (.int 1) o2
      .ok (write_append_chars t.data o3)
    | Option.none => .error "TypeError: object of type NoneType has no len()"
  else if (match token with
           | Option.some t => KEYWORD_CONSTANT.contains t
           | Option.none => false) then
    if token == Option.some "this" then
      write_push_command (Option.some POINTER_SEGMENT) (.int 0) output
    else if token == Option.some "true" then do
      let o1 ← write_push_command (Option.some CONSTANT_SEGMENT) (.int 1) output
      .ok (write_arithmetic_command "neg" o1)
    else if token == Option.some "null" || token == Option.some "false" then
      write_push_command (Option.some CONSTANT_SEGMENT) (.int 0) output
    else
      .error ("Invalid keyword " ++ pyStrOf token)
  else
    .error ("Invalid term. Expecting integer, string or keyword constant. Actual: "
      ++ pyStrOf token_type ++ ", " ++ pyStrOf token)

end VMWriter

/-! ## compilation_engine.py -/

namespace CompilationEngine

open GrammarUtility SymbolTableMod VMWriter

/-- The engine's mutable fields (tokenizer cursor, symbol table, the VM
writer's output buffer, label counters, and the per-subroutine
bookkeeping fields of `__init__` lines 39-46). -/
structure EngineState where
  tokenizer : Tokenizer.TokState
  symbolTable : SymbolTable
  output : String
  currentIndexWhile : Nat
  currentIndexIf : Nat
  currentClass : Option String
  currentSubroutineName : Option String
  currentSubroutineType : Option String
  currentSubroutineReturnType : Option String
  currentSubroutineNLocals : Option Nat
  currentSubroutineArgs : Option Nat
  deriving Repr, DecidableEq

/-- Engine computations: state passing with abortive exceptions (any
raise aborts compilation of the unit). -/
def EngM (α : Type) : Type := EngineState → Except String (α × EngineState)

instance : Monad EngM where
  pure a := fun st => .ok (a, st)
  bind m k := fun st =>
    match m st with
    | .ok (a, st') => k a st'
    | .error e => .error e

def throwE {α : Type} (msg : String) : EngM α := fun _ => .error msg

/-- `self.__tokenizer.next()` (the raised error propagates; the engine
aborts, so the post-raise state is irrelevant here). -/
def tokNext : EngM Unit := fun st =>
  match Tokenizer.next st.tokenizer with
  | (.ok _, t) => .ok ((), { st with tokenizer := t })
  | (.error e, _) => .error e

/-- `self.__tokenizer.current_token()`. -/
def curTok : EngM (Option String) := fun st =>
  .ok (Tokenizer.currentToken st.tokenizer, st)

/-- `self.__tokenizer.current_type()`. -/
def curType : EngM (Option String) := fun st =>
  .ok (Tokenizer.currentType st.tokenizer, st)

/-- `self.__tokenizer.look_ahead_token()` (see
`Tokenizer.lookAheadToken`). -/
def lookAhead : EngM (String × String) := fun st =>
  match Tokenizer.lookAheadToken st.tokenizer with
  | .ok e => .ok (e, st)
  | .error e => .error e

/-- Run a writer method on `self.__vm_writer` (fallible form). -/
def liftW (f : String → Except String String) : EngM Unit := fun st =>
  match f st.output with
  | .ok o => .ok ((), { st with output := o })
  | .error e => .error e

/-- Run a writer method on `self.__vm_writer` (infallible form). -/
def emitW (f : String → String) : EngM Unit := fun st =>
  .ok ((), { st with output := f st.output })

/-- Python set membership for an optional current token (`None` is a
member of none of the token sets). -/
def optMem (c : Option String) (l : List String) : Bool :=
  match c with
  | Option.some s => l.contains s
  | Option.none => false

/-- `_validate_and_advance_helper` (the XML return value is dropped). -/
def validateAndAdvanceHelper (source : Option String) (target : List String)
    (errorMessageInput : String) : EngM Unit := fun st =>
  if optMem source target then tokNext st
  else
    .error ("Expecting " ++ errorMessageInput ++ ", actual: ("
      ++ pyStrOf (Tokenizer.currentType st.tokenizer) ++ ") "
      ++ pyStrOf (Tokenizer.currentToken st.tokenizer)
      ++ ". Current pointer value: "
      ++ pyIntOf (Tokenizer.getValueOfPointer st.tokenizer))

/-- `_validate_type_and_advance`. -/
def validateTypeAndAdvance (target : List String) (errorMessageInput : String) :
    EngM Unit := do
  let ty ← curType
  validateAndAdvanceHelper ty target errorMessageInput

/-- `_validate_token_and_advance`. -/
def validateTokenAndAdvance (target : List String) (errorMessageInput : String) :
    EngM Unit := do
  let t ← curTok
  validateAndAdvanceHelper t target errorMessageInput

/-- `_add_var_to_symbol_table`. -/
def addVarToSymbolTable (name identifierType kind : Option String) (use : String)
    (isClassVar : Bool) : EngM Unit := fun st =>
  let newRow : Row :=
    { name := name, identifierType := identifierType, kind := kind, use := use,
      identifierNumber := Option.none }
  if isClassVar then
    match st.symbolTable.classTable.add_row newRow with
    | .ok t =>
        .ok ((), { st with symbolTable := { st.symbolTable with classTable := t } })
    | .error e => .error e
  else
    match st.symbolTable.subroutineTable.add_row newRow with
    | .ok t =>
        .ok ((), { st with symbolTable := { st.symbolTable with subroutineTable := t } })
    | .error e => .error e

/-- `self.__symbol_table.contains(...)`. -/
def symContains (token : Option String) : EngM Bool := fun st =>
  .ok (st.symbolTable.contains token, st)

/-- `self.__symbol_table.get_kind(...)`. -/
def symGetKind (token : Option String) : EngM (Option String) := fun st =>
  match st.symbolTable.get_kind token with
  | .ok k => .ok (k, st)
  | .error e => .error e

/-- `self.__symbol_table.get_index(...)`. -/
def symGetIndex (token : Option String) : EngM (Option Nat) := fun st =>
  match st.symbolTable.get_index token with
  | .ok i => .ok (i, st)
  | .error e => .error e

/-- `self.__symbol_table.get_type(...)`. -/
def symGetType (token : Option String) : EngM (Option String) := fun st =>
  match st.symbolTable.get_type token with
  | .ok t => .ok (t, st)
  | .error e => .error e

/-- `self.__symbol_table.get_num_class_fields()`. -/
def symNumClassFields : EngM Nat := fun st =>
  .ok (st.symbolTable.get_num_class_fields, st)

/-- `self.__current_subroutine_args += 1` (a `TypeError` if the field
still holds `None`). -/
def incArgs : EngM Unit := fun st =>
  match st.currentSubroutineArgs with
  | Option.some n => .ok ((), { st with currentSubroutineArgs := Option.some (n + 1) })
  | Option.none => .error "TypeError: unsupported operand for +=: NoneType and int"

/-- `self.__current_subroutine_args = 0`. -/
def setArgsZero : EngM Unit := fun st =>
  .ok ((), { st with currentSubroutineArgs := Option.some 0 })

/-- `self.__current_subroutine_n_locals += 1`. -/
def incNLocals : EngM Unit := fun st =>
  match st.currentSubroutineNLocals with
  | Option.some n => .ok ((), { st with currentSubroutineNLocals := Option.some (n + 1) })
  | Option.none => .error "TypeError: unsupported operand for +=: NoneType and int"

/-- `_reset_subroutine_properties`: clear the name, kind, return type,
zero the local count, and discard the subroutine scope.  (The label
counters `__current_index_if` / `__current_index_while` are not touched
by this method.) -/
def resetSubroutineProperties : EngM Unit := fun st =>
  .ok ((), { st with
    currentSubroutineName := Option.none,
    currentSubroutineType := Option.none,
    currentSubroutineReturnType := Option.none,
    currentSubroutineNLocals := Option.some 0,
    symbolTable := st.symbolTable.new_subroutine })

/-- `_get_unique_if_label`. -/
def getUniqueIfLabel : EngM String := fun st =>
  .ok (pyStrOf st.currentClass ++ "." ++ pyStrOf st.currentSubroutineName
        ++ "If" ++ toString st.currentIndexIf,
    { st with currentIndexIf := st.currentIndexIf + 1 })

/-- `_get_unique_while_label`. -/
def getUniqueWhileLabel : EngM String := fun st =>
  .ok (pyStrOf st.currentClass ++ "." ++ pyStrOf st.currentSubroutineName
        ++ "While" ++ toString st.currentIndexWhile,
    { st with currentIndexWhile := st.currentIndexWhile + 1 })

/-- `self.__current_class = self.__tokenizer.current_token()`. -/
def setCurrentClass : EngM Unit := fun st =>
  .ok ((), { st with currentClass := Tokenizer.currentToken st.tokenizer })

/-- `self.__current_subroutine_type = ...current_token()`. -/
def setCurrentSubroutineType : EngM Unit := fun st =>
  .ok ((), { st with currentSubroutineType := Tokenizer.currentToken st.tokenizer })

/-- `self.__current_subroutine_return_type = ...current_token()`. -/
def setCurrentSubroutineReturnType : EngM Unit := fun st =>
  .ok ((), { st with currentSubroutineReturnType := Tokenizer.currentToken st.tokenizer })

/-- `self.__current_subroutine_name = ...current_token()`. -/
def setCurrentSubroutineName : EngM Unit := fun st =>
  .ok ((), { st with currentSubroutineName := Tokenizer.currentToken st.tokenizer })

/-- Read an engine field. -/
def getField {α : Type} (f : EngineState → α) : EngM α := fun st => .ok (f st, st)

/-!
The recursive-descent methods.  The Python methods are mutually
recursive and contain `while` loops; both are modelled with one fuel
parameter, decremented at every nested call and at every loop
iteration.  Technically the whole family is written as a single
non-recursive step functional `engineStep` over a sum `EngineCall` of
the methods (so that a run of the compiler reduces linearly), iterated
by `engineRun`; the named wrappers below restore one definition per
Python method.  The in-method `while` loops appear as `...Loop` calls
that re-check their condition before each iteration, exactly as the
Python loops do.  Running out of fuel raises (modelling divergence,
e.g. the spin of `_compile_class` on an unexpected token); the concrete
runs below never reach it.
-/

/-- One constructor per recursive-descent method (and per in-method
`while` loop). -/
inductive EngineCall where
  | classC
  | classVarDecsLoop
  | subroutinesLoop
  | classVarDec
  | subroutine
  | parameterList
  | subroutineBody
  | bodyVarDecsLoop
  | bodyStatementsLoop
  | subroutineVarDec
  | statements
  | doStatement
  | letStatement
  | whileStatement
  | returnStatement
  | ifStatement
  | expressionList
  | expression (stopChars : List String)
  | exprOpsLoop (stopChars : List String)
  | term
  | varList (varKind : Option String) (isClassVar : Bool)
  | varListLoop (varType varKind : Option String) (isClassVar : Bool)
  | subroutineCall
  deriving Repr

/-- The bodies of the recursive-descent methods; `recC` stands for a
recursive call (one fuel step smaller). -/
def engineStep (recC : EngineCall → EngM Unit) : EngineCall → EngM Unit
  /- `_compile_class` (after the `__init__` check): consume
  `class Name`, the opening brace, the class-variable declarations, the
  subroutines, and require the closing brace. -/
  | .classC => do
    validateTokenAndAdvance ["class"] "keyword class"
    setCurrentClass
    validateTypeAndAdvance [IDENTIFIER_TAG] "identifier"
    validateTokenAndAdvance ["\x7b"] "\x7b"
    recC .classVarDecsLoop
    recC .subroutinesLoop
    let c ← curTok
    if c == Option.some "\x7d" then pure ()
    else throwE ("Expecting \x7d, actual " ++ pyStrOf c)
  /- Loop of `_compile_class` lines 95-97: while the token is not in
  `SUBROUTINE_OR_CLASS_END`, compile a class-var declaration when the
  token is `static` or `field` (and otherwise spin). -/
  | .classVarDecsLoop => do
    let c ← curTok
    if optMem c SUBROUTINE_OR_CLASS_END then pure ()
    else do
      let _ ← (if c == Option.some "static" || c == Option.some "field" then
        recC .classVarDec
      else pure ())
      recC .classVarDecsLoop
  /- Loop of `_compile_class` lines 100-102: while the token is not the
  closing brace, compile a subroutine when the token is in
  `SUBROUTINE_DEC_SET` (and otherwise spin). -/
  | .subroutinesLoop => do
    let c ← curTok
    if c == Option.some "\x7d" then pure ()
    else do
      let _ ← (if optMem c SUBROUTINE_DEC_SET then recC .subroutine
      else pure ())
      recC .subroutinesLoop
  /- `_compile_class_var_dec`. -/
  | .classVarDec => do
    let staticOrFieldKind ← curTok
    tokNext
    recC (.varList staticOrFieldKind true)
  /- `_compile_subroutine`. -/
  | .subroutine => do
    resetSubroutineProperties
    setCurrentSubroutineType
    let t ← getField (·.currentSubroutineType)
    let _ ← (if t == Option.some "method" then do
      let cls ← getField (·.currentClass)
      addVarToSymbolTable (Option.some "this") cls (Option.some ARG_KIND) DECLARING false
    else pure ())
    tokNext
    setCurrentSubroutineReturnType
    validateTypeAndAdvance [KEYWORD_TAG, IDENTIFIER_TAG] "keyword or identifier"
    setCurrentSubroutineName
    let n ← getField (·.currentSubroutineName)
    let r ← getField (·.currentSubroutineReturnType)
    emitW (write_comment (pyStrOf n ++ " ; return: " ++ pyStrOf r))
    validateTypeAndAdvance [IDENTIFIER_TAG] "subroutine name"
    validateTokenAndAdvance ["("] "("
    recC .parameterList
    validateTokenAndAdvance [")"] ")"
    let c ← curTok
    if c == Option.some "\x7b" then recC .subroutineBody
    else throwE "Expecting start of subroutine body \x7b"
  /- `_compile_paramater_list` (sic) as its `while` loop: stop at `)`,
  skip commas, otherwise read `type name` and define an `arg`. -/
  | .parameterList => do
    let c ← curTok
    if c == Option.some ")" then pure ()
    else if c == Option.some "," then do
      validateTokenAndAdvance [","] ","
      recC .parameterList
    else do
      let varType ← curTok
      validateTypeAndAdvance [KEYWORD_TAG, IDENTIFIER_TAG] "var type"
      let varName ← curTok
      validateTypeAndAdvance [IDENTIFIER_TAG] "var name"
      addVarToSymbolTable varName varType (Option.some ARG_KIND) DECLARING false
      recC .parameterList
  /- `_compile_subroutine_body`. -/
  | .subroutineBody => do
    tokNext
    recC .bodyVarDecsLoop
    let cls ← getField (·.currentClass)
    let n ← getField (·.currentSubroutineName)
    let locals ← getField (·.currentSubroutineNLocals)
    emitW (write_function_command (pyStrOf cls ++ "." ++ pyStrOf n) (pyOfOptNat locals))
    let t ← getField (·.currentSubroutineType)
    let _ ← (if t == Option.some "method" then do
      liftW (write_push_command (Option.some ARGUMENT_SEGMENT) (.int 0))
      liftW (write_pop_command (Option.some POINTER_SEGMENT) (.int 0))
    else if t == Option.some "constructor" then do
      let k ← symNumClassFields
      liftW (write_push_command (Option.some CONSTANT_SEGMENT) (.int k))
      emitW (write_call_command "Memory.alloc" (.int 1))
      liftW (write_pop_command (Option.some POINTER_SEGMENT) (.int 0))
    else pure ())
    recC .bodyStatementsLoop
    tokNext
  /- Loop of `_compile_subroutine_body` lines 236-237: compile var
  declarations while the token is not in `STATEMENT_OR_ROUTINE_END`. -/
  | .bodyVarDecsLoop => do
    let c ← curTok
    if optMem c STATEMENT_OR_ROUTINE_END then pure ()
    else do
      recC .subroutineVarDec
      recC .bodyVarDecsLoop
  /- Loop of `_compile_subroutine_body` lines 258-259: compile
  statements while the token is not the closing brace. -/
  | .bodyStatementsLoop => do
    let c ← curTok
    if c == Option.some "\x7d" then pure ()
    else do
      recC .statements
      recC .bodyStatementsLoop
  /- `_compile_subroutine_var_dec`. -/
  | .subroutineVarDec => do
    tokNext
    recC (.varList (Option.some LOCAL_KIND) false)
  /- `_compile_statements` as its `while` loop: dispatch one statement
  by its leading keyword until the closing brace; an unknown leading
  token raises. -/
  | .statements => do
    let c ← curTok
    if c == Option.some "\x7d" then pure ()
    else do
      let _ ← (if c == Option.some "do" then recC .doStatement
      else if c == Option.some "let" then recC .letStatement
      else if c == Option.some "while" then recC .whileStatement
      else if c == Option.some "return" then recC .returnStatement
      else if c == Option.some "if" then recC .ifStatement
      else throwE "Expecting do, let, while, return, or if")
      recC .statements
  /- `_compile_do_statement`. -/
  | .doStatement => do
    tokNext
    recC .subroutineCall
    validateTokenAndAdvance [";"] ";"
    liftW (write_pop_command (Option.some TEMP_SEGMENT) (.int 0))
  /- `_compile_let_statement`. -/
  | .letStatement => do
    tokNext
    let targetVar ← curTok
    validateTypeAndAdvance [IDENTIFIER_TAG] "identifier"
    let c ← curTok
    let isArray ← if c == Option.some "[" then do
        tokNext
        recC (.expression ["]"])
        validateTokenAndAdvance ["]"] "]"
        let k ← symGetKind targetVar
        let i ← symGetIndex targetVar
        liftW (write_push_command k (pyOfOptNat i))
        emitW (write_arithmetic_command "add")
        liftW (write_pop_command (Option.some TEMP_SEGMENT) (.int 1))
        pure true
      else pure false
    validateTokenAndAdvance ["="] "="
    recC (.expression [";"])
    validateTokenAndAdvance [";"] ";"
    if isArray then do
      liftW (write_push_command (Option.some TEMP_SEGMENT) (.int 1))
      liftW (write_pop_command (Option.some POINTER_SEGMENT) (.int 1))
      liftW (write_pop_command (Option.some THAT_SEGMENT) (.int 0))
    else do
      let k ← symGetKind targetVar
      let i ← symGetIndex targetVar
      liftW (write_pop_command k (pyOfOptNat i))
  /- `_compile_while_statement`.  (The error description the source
  passes for the opening parenthesis is the text `)`.) -/
  | .whileStatement => do
    let l1 ← getUniqueWhileLabel
    let l2 ← getUniqueWhileLabel
    tokNext
    emitW (write_label_command l1)
    validateTokenAndAdvance ["("] ")"
    recC (.expression [")"])
    validateTokenAndAdvance [")"] ")"
    emitW (write_arithmetic_command "not")
    emitW (write_if_command l2)
    validateTokenAndAdvance ["\x7b"] "\x7b"
    recC .statements
    tokNext
    emitW (write_goto_command l1)
    emitW (write_label_command l2)
  /- `_compile_return_statement`: an expression unless the token is
  `;`; then the void/value alternative of the VM epilogue, chosen on
  the declared return type alone. -/
  | .returnStatement => do
    tokNext
    let c ← curTok
    let _ ← (if c != Option.some ";" then recC (.expression [";"])
    else pure ())
    validateTokenAndAdvance [";"] ";"
    let rt ← getField (·.currentSubroutineReturnType)
    if rt == Option.some "void" then liftW write_void_return
    else emitW write_return_command
  /- `_compile_if_statement`.  (As in the `while` case, the source
  passes `)` as the error description for the opening parenthesis.) -/
  | .ifStatement => do
    let l1 ← getUniqueIfLabel
    let l2 ← getUniqueIfLabel
    tokNext
    validateTokenAndAdvance ["("] ")"
    recC (.expression [")"])
    validateTokenAndAdvance [")"] ")"
    emitW (write_arithmetic_command "not")
    emitW (write_if_command l1)
    validateTokenAndAdvance ["\x7b"] "\x7b"
    recC .statements
    tokNext
    emitW (write_goto_command l2)
    emitW (write_label_command l1)
    let c ← curTok
    let _ ← (if c == Option.some "else" then do
      tokNext
      validateTokenAndAdvance ["\x7b"] "\x7b"
      recC .statements
      tokNext
    else pure ())
    emitW (write_label_command l2)
  /- `_compile_expression_list` as its `while` loop: until `)`, skip
  commas, and otherwise count one argument and compile one expression
  (stop set `,` / `)`). -/
  | .expressionList => do
    let c ← curTok
    if c == Option.some ")" then pure ()
    else if c == Option.some "," then do
      validateTokenAndAdvance [","] ","
      recC .expressionList
    else do
      incArgs
      recC (.expression [",", ")"])
      recC .expressionList
  /- `_compile_expression`: the guard compares `current_token()` (a
  string or `None`) with `self`, the engine object, under Python `!=`;
  when it holds, one term is compiled and `(op term)` suffixes are
  scanned until a stop character. -/
  | .expression stopChars => fun st =>
    if pyNe (pyOfOptStr (Tokenizer.currentToken st.tokenizer)) PyVal.engineObj then
      (do
        recC .term
        recC (.exprOpsLoop stopChars)) st
    else .ok ((), st)
  /- Loop of `_compile_expression` lines 586-593: while the token is
  not a stop character, read an operator, compile the next term, then
  emit the operator. -/
  | .exprOpsLoop stopChars => do
    let c ← curTok
    if optMem c stopChars then pure ()
    else do
      let operator ← curTok
      validateTokenAndAdvance TERM_OPS "operator"
      recC .term
      liftW (write_op operator)
      recC (.exprOpsLoop stopChars)
  /- `_compile_term`. -/
  | .term => do
    let ty ← curType
    let c ← curTok
    if (ty == Option.some INTEGER_CONSTANT_TAG || ty == Option.some STRING_CONSTANT_TAG)
        || optMem c KEYWORD_CONSTANT then do
      liftW (write_constant_int_string_keyword ty c)
      tokNext
    else if optMem c UNARY_OP then do
      tokNext
      recC .term
      liftW (write_unary_op c)
    else if c == Option.some "(" then do
      tokNext
      recC (.expression [")"])
      tokNext
    else do
      let _ ← (if ty != Option.some IDENTIFIER_TAG then
        throwE ("Expecting identifer, actual " ++ pyStrOf ty)
      else pure ())
      let la ← lookAhead
      if la.1 == "(" || la.1 == "." then recC .subroutineCall
      else if la.1 == "[" then do
        let targetVar ← curTok
        validateTypeAndAdvance [IDENTIFIER_TAG] "identifier"
        tokNext
        recC (.expression ["]"])
        tokNext
        let k ← symGetKind targetVar
        let i ← symGetIndex targetVar
        liftW (write_push_command k (pyOfOptNat i))
        emitW (write_arithmetic_command "add")
        liftW (write_pop_command (Option.some POINTER_SEGMENT) (.int 1))
        liftW (write_push_command (Option.some THAT_SEGMENT) (.int 0))
      else do
        let v ← curTok
        let k ← symGetKind v
        let i ← symGetIndex v
        liftW (write_push_command k (pyOfOptNat i))
        validateTypeAndAdvance [IDENTIFIER_TAG] "identifier"
  /- `_compile_var_list` head: `type name`, define, maybe count a
  local, then the comma loop, then step past the `;`. -/
  | .varList varKind isClassVar => do
    let varType ← curTok
    validateTypeAndAdvance [KEYWORD_TAG, IDENTIFIER_TAG] "keyword or identifier"
    let n ← curTok
    addVarToSymbolTable n varType varKind DECLARING isClassVar
    validateTypeAndAdvance [IDENTIFIER_TAG] "variable name"
    let _ ← (if isClassVar then pure () else incNLocals)
    recC (.varListLoop varType varKind isClassVar)
    tokNext
  /- Loop of `_compile_var_list` lines 765-779: until `;`, skip commas
  and define further names of the same type. -/
  | .varListLoop varType varKind isClassVar => do
    let c ← curTok
    if c == Option.some ";" then pure ()
    else if c == Option.some "," then do
      validateTokenAndAdvance [","] ","
      recC (.varListLoop varType varKind isClassVar)
    else do
      let ty ← curType
      if ty == Option.some IDENTIFIER_TAG then do
        let n ← curTok
        addVarToSymbolTable n varType varKind DECLARING isClassVar
        validateTypeAndAdvance [IDENTIFIER_TAG] "variable name"
        let _ ← (if isClassVar then pure () else incNLocals)
        recC (.varListLoop varType varKind isClassVar)
      else throwE ("Expecting variable name, actual: " ++ pyStrOf c)
  /- `_compile_subroutine_call`: zero the argument counter, resolve the
  target by the dotted/undotted shape and a symbol-table lookup of the
  first name, compile the argument expressions, then emit the call with
  whatever the argument counter holds at that point. -/
  | .subroutineCall => do
    setArgsZero
    let name1 ← curTok
    validateTypeAndAdvance [IDENTIFIER_TAG] "identifier"
    let c ← curTok
    let subroutineCallName ←
      if c == Option.some "." then do
        tokNext
        let name2 ← curTok
        let contains ← symContains name1
        let callName ←
          if contains then do
            let k ← symGetKind name1
            let i ← symGetIndex name1
            liftW (write_push_command k (pyOfOptNat i))
            incArgs
            let t ← symGetType name1
            let name2b ← curTok
            pure (pyStrOf t ++ "." ++ pyStrOf name2b)
          else
            pure (pyStrOf name1 ++ "." ++ pyStrOf name2)
        validateTypeAndAdvance [IDENTIFIER_TAG] "identifier"
        pure callName
      else do
        let cls ← getField (·.currentClass)
        liftW (write_push_command (Option.some POINTER_SEGMENT) (.int 0))
        incArgs
        pure (pyStrOf cls ++ "." ++ pyStrOf name1)
    validateTokenAndAdvance ["("] "("
    recC .expressionList
    let args ← getField (·.currentSubroutineArgs)
    emitW (write_call_command subroutineCallName (pyOfOptNat args))
    tokNext

/-- Iterate `engineStep`: fuel zero raises. -/
def engineRun (fuel : Nat) : EngineCall → EngM Unit :=
  Nat.rec (fun _ => throwE "out of fuel") (fun _ ih => engineStep ih) fuel

/-- `_compile_class`. -/
def compileClass (fuel : Nat) : EngM Unit := engineRun fuel .classC

/-- `_compile_class_var_dec`. -/
def compileClassVarDec (fuel : Nat) : EngM Unit := engineRun fuel .classVarDec

/-- `_compile_subroutine`. -/
def compileSubroutine (fuel : Nat) : EngM Unit := engineRun fuel .subroutine

/-- `_compile_paramater_list` (source spelling). -/
def compileParameterList (fuel : Nat) : EngM Unit := engineRun fuel .parameterList

/-- `_compile_subroutine_body`. -/
def compileSubroutineBody (fuel : Nat) : EngM Unit := engineRun fuel .subroutineBody

/-- `_compile_subroutine_var_dec`. -/
def compileSubroutineVarDec (fuel : Nat) : EngM Unit := engineRun fuel .subroutineVarDec

/-- `_compile_statements`. -/
def compileStatements (fuel : Nat) : EngM Unit := engineRun fuel .statements

/-- `_compile_do_statement`. -/
def compileDoStatement (fuel : Nat) : EngM Unit := engineRun fuel .doStatement

/-- `_compile_let_statement`. -/
def compileLetStatement (fuel : Nat) : EngM Unit := engineRun fuel .letStatement

/-- `_compile_while_statement`. -/
def compileWhileStatement (fuel : Nat) : EngM Unit := engineRun fuel .whileStatement

/-- `_compile_return_statement`. -/
def compileReturnStatement (fuel : Nat) : EngM Unit := engineRun fuel .returnStatement

/-- `_compile_if_statement`. -/
def compileIfStatement (fuel : Nat) : EngM Unit := engineRun fuel .ifStatement

/-- `_compile_expression_list`. -/
def compileExpressionList (fuel : Nat) : EngM Unit := engineRun fuel .expressionList

/-- `_compile_expression`. -/
def compileExpression (fuel : Nat) (stopChars : List String) : EngM Unit :=
  engineRun fuel (.expression stopChars)

/-- `_compile_term`. -/
def compileTerm (fuel : Nat) : EngM Unit := engineRun fuel .term

/-- `_compile_var_list`. -/
def compileVarList (fuel : Nat) (varKind : Option String) (isClassVar : Bool) : EngM Unit :=
  engineRun fuel (.varList varKind isClassVar)

/-- `_compile_subroutine_call`. -/
def compileSubroutineCall (fuel : Nat) : EngM Unit := engineRun fuel .subroutineCall

/-- `CompilationEngine.__init__` up to the point where `_compile_class`
starts: build the tokenizer, advance once, require the keyword `class`,
and initialise the engine fields (label counters at 0, everything else
`None`, fresh symbol table, empty writer output). -/
def initEngine (inputStr : String) : Except String EngineState :=
  match Tokenizer.init inputStr with
  | .error e => .error e
  | .ok tk =>
    match Tokenizer.next tk with
    | (.error e, _) => .error e
    | (.ok _, tk1) =>
      if Tokenizer.currentToken tk1 == Option.some "class" then
        .ok { tokenizer := tk1, symbolTable := SymbolTable.empty, output := "",
              currentIndexWhile := 0, currentIndexIf := 0,
              currentClass := Option.none,
              currentSubroutineName := Option.none,
              currentSubroutineType := Option.none,
              currentSubroutineReturnType := Option.none,
              currentSubroutineNLocals := Option.none,
              currentSubroutineArgs := Option.none }
      else
        .error ("Syntax Error: Expecting keyword \"class\", actual token: "
          ++ pyStrOf (Tokenizer.currentToken tk1))

/-- Construct the engine on an input string, run `_compile_class`, and
return `get_vm_command_output()`: the primary VM output of the unit. -/
def compileJack (fuel : Nat) (inputStr : String) : Except String String :=
  match initEngine inputStr with
  | .error e => .error e
  | .ok st0 =>
    match compileClass fuel st0 with
    | .ok (_, st) => .ok st.output
    | .error e => .error e

/-- The physical lines of the writer's output: every write appends
`text ++ "\n"`, so the output splits as newline-terminated lines.
(A final segment with no terminating newline would be kept as a line;
the writer never produces one.)  The fuel starts at the input length
and every step consumes at least one character. -/
def vmLinesGo : Nat → List Char → List String
  | _, [] => []
  | 0, cs => [String.mk cs]
  | fuel + 1, cs =>
    match cs.dropWhile (fun c => c != '\n') with
    | _ :: rest =>
        String.mk (cs.takeWhile (fun c => c != '\n')) :: vmLinesGo fuel rest
    | [] => [String.mk cs]

def vmLines (s : String) : List String :=
  vmLinesGo s.data.length s.data

end CompilationEngine

/-! ## Output line shapes (spec section 4.3) and well-formedness -/

/-- The VM segment names that can appear in emitted `push`/`pop`
instructions (the value set of `SYMBOL_TABLE_TO_VM_SEGMENT`). -/
def isSegmentName (s : String) : Bool :=
  ["static", "this", "argument", "local", "pointer", "constant", "temp", "that"].contains s

/-- The bare arithmetic opcodes. -/
def isArithOpcode (s : String) : Bool :=
  ["add", "sub", "neg", "eq", "gt", "lt", "and", "or", "not"].contains s

/-- A nonempty field of an instruction line (a label, a call target, or
an index as rendered by `str(...)`); it must not span lines. -/
def isArgText (s : String) : Bool :=
  !s.data.isEmpty && s.data.all (fun c => c != '\n')

/-- The instruction forms of spec section 4.3, one per line. -/
inductive InstrLine : String → Prop where
  | push (seg idx : String) : isSegmentName seg → isArgText idx →
      InstrLine ("push " ++ seg ++ " " ++ idx)
  | pop (seg idx : String) : isSegmentName seg → isArgText idx →
      InstrLine ("pop " ++ seg ++ " " ++ idx)
  | arith (op : String) : isArithOpcode op → InstrLine op
  | label (l : String) : isArgText l → InstrLine ("label " ++ l)
  | goto (l : String) : isArgText l → InstrLine ("goto " ++ l)
  | ifgoto (l : String) : isArgText l → InstrLine ("if-goto " ++ l)
  | call (f n : String) : isArgText f → isArgText n →
      InstrLine ("call " ++ f ++ " " ++ n)
  | func (f k : String) : isArgText f → isArgText k →
      InstrLine ("function " ++ f ++ " " ++ k)
  | ret : InstrLine "return"

/-- A comment line: `// ` followed by newline-free text. -/
def CommentLine (l : String) : Prop :=
  (∃ t, l = "// " ++ t) ∧ '\n' ∉ l.data

/-- A line of the primary output: an instruction or a comment. -/
def LineOk (l : String) : Prop := InstrLine l ∨ CommentLine l

/-- A writer buffer is a sequence of newline-terminated `LineOk` lines. -/
def OutOk (s : String) : Prop :=
  ∃ ls : List String, s = String.join (ls.map (fun l => l ++ "\n")) ∧ ∀ l ∈ ls, LineOk l

/-- A stored lexeme: nonempty and free of Python whitespace (every
token of the lexer comes from a whitespace split, or is one of the XML
escapes substituted for `<`, `>`, `&`). -/
def WFtok (t : String) : Prop :=
  t.data ≠ [] ∧ ∀ c ∈ t.data, isPySpace c = false

/-- A string-or-`None` engine value whose string case is a stored
lexeme. -/
def WFopt (o : Option String) : Prop := ∀ s, o = Option.some s → WFtok s

/-- Well-formedness of the lexer state: every token of the produced
list, and the current token, are stored lexemes. -/
def TokensWF (tk : Tokenizer.TokState) : Prop :=
  (∀ p ∈ tk.tokens, WFtok p.1) ∧ (∀ p, tk.cur = Option.some p → WFtok p.1)

/-- Every declared type a symbol table row carries is `None` or a stored
lexeme (types flow into emitted call targets). -/
def RowsWF (t : SymbolTableMod.SingleTable) : Prop :=
  ∀ r ∈ t.table, WFopt r.identifierType

/-- The engine invariant: the output buffer is made of well-shaped
lines, and every string that can flow into an emitted line is a stored
lexeme. -/
def EngineInv (st : CompilationEngine.EngineState) : Prop :=
  OutOk st.output ∧ TokensWF st.tokenizer ∧
  WFopt st.currentClass ∧ WFopt st.currentSubroutineName ∧
  WFopt st.currentSubroutineReturnType ∧
  RowsWF st.symbolTable.classTable ∧ RowsWF st.symbolTable.subroutineTable

/-! ## Slot-index sequences (for the symbol-table invariants) -/

namespace SymbolTableMod

/-- Run a sequence of `add_row` insertions (stopping at the first
error, as the engine aborts). -/
def runAdds : SingleTable → List Row → Except String SingleTable
  | t, [] => .ok t
  | t, r :: rs =>
    match t.add_row r with
    | .ok t2 => runAdds t2 rs
    | .error e => .error e

/-- The slot indices assigned to the rows of one kind, in insertion
order. -/
def kindIndices (t : SingleTable) (k : String) : List (Option Nat) :=
  (t.table.filter (fun r => r.kind == Option.some k)).map (fun r => r.identifierNumber)

/-- How many rows of one kind the table holds. -/
def kindCount (t : SingleTable) (k : String) : Nat :=
  (t.table.filter (fun r => r.kind == Option.some k)).length

/-- The slot-allocation invariant: for each kind, the indices assigned
to that kind's rows, in insertion order, are exactly `0, 1, 2, ...` up
to the kind's counter. -/
def SlotInv (t : SingleTable) : Prop :=
  kindIndices t STATIC_KIND = (List.range t.nextStaticIndex).map Option.some
  ∧ kindIndices t FIELD_KIND = (List.range t.nextFieldIndex).map Option.some
  ∧ kindIndices t ARG_KIND = (List.range t.nextArgIndex).map Option.some
  ∧ kindIndices t LOCAL_KIND = (List.range t.nextVarIndex).map Option.some

end SymbolTableMod

/-- Newline-free text (what a comment line's text and every instruction
field must satisfy). -/
def NoNl (s : String) : Prop := ∀ c ∈ s.data, c ≠ '\n'

/-- What must hold of a `PyScalar` reaching a writer index argument so
that its rendering is a well-formed instruction field: a string value
must be a stored lexeme (ints and `None` render well on their own). -/
def PyScalarOk : PyScalar → Prop
  | .str s => WFtok s
  | .int _ => True
  | .none => True

/-- Preservation triple over the engine monad: from a state satisfying
the engine invariant, a successful run preserves the invariant, the
result satisfies `Q`, and the output buffer only grows. -/
def PresE {α : Type} (m : CompilationEngine.EngM α) (Q : α → Prop) : Prop :=
  ∀ (st : CompilationEngine.EngineState) (a : α)
    (st2 : CompilationEngine.EngineState),
    EngineInv st → m st = .ok (a, st2) →
    EngineInv st2 ∧ Q a ∧ ∃ t, st2.output = st.output ++ t

/-- Precondition of a recursive-descent call: the only method whose
arguments can reach the symbol table is the var-list loop, whose
declared type (re-used for every further name of the list) must be a
stored lexeme. -/
def CallOk : CompilationEngine.EngineCall → Prop
  | .varListLoop varType _ _ => WFopt varType
  | _ => True

/-!
## Strict line shapes

The `InstrLine`/`CommentLine`/`OutOk` layer above records the coarse
shape of the output.  The layer below is the full statement of spec
section 4.3: every field of an instruction is a single token — nonempty
and free of any Python whitespace, so a line carries exactly the
fields of its form, with single spaces between them and no trailing
whitespace — and a comment line's text is nonempty, newline-free and
does not end in whitespace.
-/

/-- A single-token instruction field: nonempty and free of Python
whitespace (in particular it has no internal spaces, cannot end in
whitespace, and cannot span lines). -/
def isFieldText (s : String) : Bool :=
  !s.data.isEmpty && s.data.all (fun c => !isPySpace c)

/-- The instruction forms of spec section 4.3 with single-token
fields. -/
inductive InstrLineS : String → Prop where
  | push (seg idx : String) : isSegmentName seg → isFieldText idx →
      InstrLineS ("push " ++ seg ++ " " ++ idx)
  | pop (seg idx : String) : isSegmentName seg → isFieldText idx →
      InstrLineS ("pop " ++ seg ++ " " ++ idx)
  | arith (op : String) : isArithOpcode op → InstrLineS op
  | label (l : String) : isFieldText l → InstrLineS ("label " ++ l)
  | goto (l : String) : isFieldText l → InstrLineS ("goto " ++ l)
  | ifgoto (l : String) : isFieldText l → InstrLineS ("if-goto " ++ l)
  | call (f n : String) : isFieldText f → isFieldText n →
      InstrLineS ("call " ++ f ++ " " ++ n)
  | func (f k : String) : isFieldText f → isFieldText k →
      InstrLineS ("function " ++ f ++ " " ++ k)
  | ret : InstrLineS "return"

/-- Comment-line text: nonempty, newline-free, and its last character
is not whitespace (so the comment line has no trailing whitespace). -/
def CmtTextOk (t : String) : Prop :=
  t.data ≠ [] ∧ NoNl t ∧
    ∀ c, t.data.getLast? = Option.some c → isPySpace c = false

/-- A comment line with well-behaved text. -/
def CommentLineS (l : String) : Prop := ∃ t, l = "// " ++ t ∧ CmtTextOk t

/-- A line of the primary output, strict form. -/
def LineOkS (l : String) : Prop := InstrLineS l ∨ CommentLineS l

/-- A writer buffer made of newline-terminated strict lines. -/
def OutS (s : String) : Prop :=
  ∃ ls : List String, s = String.join (ls.map (fun l => l ++ "
"))
    ∧ ∀ l ∈ ls, LineOkS l

/-- `true` iff the string does not end in Python whitespace. -/
def noTrailWs (s : String) : Bool :=
  match s.data.getLast? with
  | Option.some c => !isPySpace c
  | Option.none => true

/-- The engine invariant together with strictness of the output
buffer. -/
def EngineInvS (st : CompilationEngine.EngineState) : Prop :=
  EngineInv st ∧ OutS st.output

/-- Preservation triple over the engine monad for the strict
invariant. -/
def PresS {α : Type} (m : CompilationEngine.EngM α) (Q : α → Prop) : Prop :=
  ∀ (st : CompilationEngine.EngineState) (a : α)
    (st2 : CompilationEngine.EngineState),
    EngineInvS st → m st = .ok (a, st2) →
    EngineInvS st2 ∧ Q a ∧ ∃ t, st2.output = st.output ++ t

/-! # Theorems -/

open GrammarUtility

/-- Helper: no instruction line starts with a slash (the opcodes start
with `p`, `a`, `s`, `n`, `e`, `g`, `l`, `o`, `i`, `c`, `f`, `r`). -/
theorem instrLine_head_ne_slash {l : String} (h : InstrLine l) :
    l.data.head? ≠ Option.some '/' := by
  cases h with
  | push seg idx hs hi => simp [String.data_append]
  | pop seg idx hs hi => simp [String.data_append]
  | arith op hop =>
    have hm : l ∈ ["add", "sub", "neg", "eq", "gt", "lt", "and", "or", "not"] := by
      have := List.mem_of_elem_eq_true (α := String) hop
      simpa using this
    simp only [List.mem_cons, List.not_mem_nil, or_false] at hm
    rcases hm with rfl | rfl | rfl | rfl | rfl | rfl | rfl | rfl | rfl <;> decide
  | label lb hl => simp [String.data_append]
  | goto lb hl => simp [String.data_append]
  | ifgoto lb hl => simp [String.data_append]
  | call f n hf hn => simp [String.data_append]
  | func f k hf hk => simp [String.data_append]
  | ret => decide

/-- C6: the symbol set of the grammar contains `=`, but the padding
regex of the lexer does not: `=` is never surrounded with whitespace,
so it fuses with adjacent identifiers and numbers.  `x=5` lexes as the
single identifier token `x=5` instead of the three tokens `x`, `=`,
`5`. -/
theorem c6_equals_sign_never_padded :
    (Tokenizer.init "x=5").map (fun s => s.tokens) =
      .ok [("x=5", IDENTIFIER_TAG)]
    ∧ "=" ∈ SYMBOLS
    ∧ '=' ∉ Tokenizer.padChars :=
  ⟨rfl, by decide, by decide⟩

/-- C5 counterexample: the classifier accepts the out-of-range lexeme
`32768` as an `integerConstant` instead of raising a lex error — there
is no range check in `_tag_tokens`. -/
theorem c5_counterexample_out_of_range_integer_accepted :
    Tokenizer.tagTokens ["32768"] [] = .ok [("32768", INTEGER_CONSTANT_TAG)]
    ∧ (32767 : Nat) < 32768 :=
  ⟨rfl, by decide⟩

/-- C5 amended: a lexeme that is no keyword, no symbol and not the
string sentinel, and whose first character is a decimal digit, is
classified `integerConstant` exactly when Python `int(...)` parses it —
of any magnitude, with no `[0, 32767]` range check; a non-numeric
suffix is an error that aborts lexing. -/
theorem c5_amended_digit_first_classification
    (tok : String) (rest lits : List String)
    (h1 : tok ∉ KEYWORDS) (h2 : tok ∉ SYMBOLS)
    (h3 : tok ≠ Tokenizer.STRING_LITERAL_SUB)
    (c : Char) (cs : List Char) (h4 : tok.data = c :: cs)
    (h5 : isPyDigit c = true) :
    Tokenizer.tagTokens (tok :: rest) lits =
      (match pyInt tok with
       | Option.some _ =>
         (Tokenizer.tagTokens rest lits).map
           (fun l => (tok, INTEGER_CONSTANT_TAG) :: l)
       | Option.none => .error ("Invalid identifier: " ++ tok)) := by
  simp only [Tokenizer.tagTokens, if_neg h1, if_neg h2, if_neg h3, h4, h5, if_true]

/-- C5 amended, witness at the lexeme `32768`. -/
theorem c5_amended_witness :
    Tokenizer.tagTokens ["32768"] [] = .ok [("32768", INTEGER_CONSTANT_TAG)] := by
  have h := c5_amended_digit_first_classification "32768" [] []
    (by decide) (by decide) (by decide) '3' ['2', '7', '6', '8'] rfl (by decide)
  simpa using h

/-- C10 counterexample: `next` does move the cursor to the next token
(the first, here), but its Python return value is `None`, not that
token — the claim's "returns that token" fails on the very first
advance. -/
theorem c10_counterexample_advance_returns_none :
    Tokenizer.init "class" =
      .ok ⟨[("class", KEYWORD_TAG)], Option.none, Option.none⟩
    ∧ (Tokenizer.next ⟨[("class", KEYWORD_TAG)], Option.none, Option.none⟩).1 =
      .ok PyVal.none
    ∧ (Tokenizer.next ⟨[("class", KEYWORD_TAG)], Option.none, Option.none⟩).2.cur =
      Option.some ("class", KEYWORD_TAG)
    ∧ (Tokenizer.next ⟨[("class", KEYWORD_TAG)], Option.none, Option.none⟩).1 ≠
      .ok (PyVal.str "class") :=
  ⟨rfl, rfl, rfl, by decide⟩

/-- C10 amended: `next` moves the cursor to the next token and makes it
current, returning `None`; calling it with the cursor on the last token
raises and leaves the cursor state exactly as it was (the pointer is
moved back before the raise). -/
theorem c10_amended_advance_behavior :
    (∀ (st : Tokenizer.TokState) (p : Int) (entry : String × String),
      (match st.ptr with | Option.none => (0 : Int) | Option.some q => q + 1) = p →
      p < (st.tokens.length : Int) →
      st.tokens.get? p.toNat = Option.some entry →
      Tokenizer.next st =
        (.ok PyVal.none, { st with ptr := Option.some p, cur := Option.some entry }))
    ∧ (∀ (st : Tokenizer.TokState) (i : Int),
      st.ptr = Option.some i → i + 1 = (st.tokens.length : Int) →
      Tokenizer.next st = (.error "Reached end of token input", st)) := by
  constructor
  · intro st p entry hp hlt hget
    simp only [Tokenizer.next, hp, if_neg (not_le.mpr hlt), hget]
  · intro st i hi hlen
    have heq : { st with ptr := Option.some (i + 1 - 1) } = st := by
      cases st with
      | mk tokens ptr cur => simp_all; omega
    simp only [Tokenizer.next, hi, if_pos (le_of_eq hlen.symm), heq]

/-- C10 amended, witness: a one-token lexer state; the first advance
moves to `class` returning `None`, and a second advance raises leaving
the state unchanged. -/
theorem c10_amended_witness :
    Tokenizer.next ⟨[("class", KEYWORD_TAG)], Option.none, Option.none⟩ =
      (.ok PyVal.none,
        ⟨[("class", KEYWORD_TAG)], Option.some 0, Option.some ("class", KEYWORD_TAG)⟩)
    ∧ Tokenizer.next
        ⟨[("class", KEYWORD_TAG)], Option.some 0, Option.some ("class", KEYWORD_TAG)⟩ =
      (.error "Reached end of token input",
        ⟨[("class", KEYWORD_TAG)], Option.some 0, Option.some ("class", KEYWORD_TAG)⟩) :=
  ⟨c10_amended_advance_behavior.1 _ 0 _ rfl (by decide) rfl,
   c10_amended_advance_behavior.2 _ 0 rfl (by decide)⟩

/-- C2: `look_ahead_token` (modelled from the spec; it is called by the
engine but missing from tokenizer.py) returns the entry one past the
current pointer without any state change — it is a pure read, and the
engine's lifted form returns the engine state unchanged, which is what
`_compile_term` relies on for identifier terms; `get_value_of_pointer`
exposes the stable pointer value used in error messages. -/
theorem c2_lookahead_without_advancing :
    (∀ (st : Tokenizer.TokState) (p : Int) (entry : String × String),
      st.ptr = Option.some p →
      st.tokens.get? (p + 1).toNat = Option.some entry →
      Tokenizer.lookAheadToken st = .ok entry
      ∧ Tokenizer.getValueOfPointer st = Option.some p)
    ∧ (∀ (est : CompilationEngine.EngineState) (e : String × String)
        (est2 : CompilationEngine.EngineState),
        CompilationEngine.lookAhead est = .ok (e, est2) → est2 = est) := by
  constructor
  · intro st p entry hp hget
    refine ⟨?_, ?_⟩
    · simp only [Tokenizer.lookAheadToken, hp, hget]
    · simp only [Tokenizer.getValueOfPointer, hp]
  · intro est e est2 h
    simp only [CompilationEngine.lookAhead] at h
    split at h
    · cases h; rfl
    · cases h

/-- C2, witness: looking one past the first of two tokens. -/
theorem c2_witness :
    Tokenizer.lookAheadToken
      ⟨[("a", IDENTIFIER_TAG), ("(", SYMBOL_TAG)], Option.some 0,
        Option.some ("a", IDENTIFIER_TAG)⟩ = .ok ("(", SYMBOL_TAG)
    ∧ Tokenizer.getValueOfPointer
      ⟨[("a", IDENTIFIER_TAG), ("(", SYMBOL_TAG)], Option.some 0,
        Option.some ("a", IDENTIFIER_TAG)⟩ = Option.some 0 :=
  c2_lookahead_without_advancing.1 _ 0 _ rfl rfl

/-- C8: the guard `current_token() != self` of `_compile_expression`
compares a string-or-`None` with the engine object, and under Python
inequality that is always true; consequently the expression compiler
always enters the branch that compiles one term and then scans for
`(op term)` suffixes. -/
theorem c8_expression_guard_always_true :
    (∀ o : Option String, pyNe (pyOfOptStr o) PyVal.engineObj = true)
    ∧ (∀ (fuel : Nat) (stopChars : List String) (st : CompilationEngine.EngineState),
        CompilationEngine.compileExpression (fuel + 1) stopChars st =
          (do CompilationEngine.compileTerm fuel
              CompilationEngine.engineRun fuel (.exprOpsLoop stopChars)) st) := by
  constructor
  · intro o
    cases o <;> rfl
  · intro fuel stopChars st
    have h : pyNe (pyOfOptStr (Tokenizer.currentToken st.tokenizer)) PyVal.engineObj
        = true := by
      cases Tokenizer.currentToken st.tokenizer <;> rfl
    show CompilationEngine.engineStep (CompilationEngine.engineRun fuel)
      (.expression stopChars) st = _
    simp only [CompilationEngine.engineStep, if_pos h]
    rfl

set_option maxHeartbeats 1600000 in
set_option maxRecDepth 4096 in
/-- C1: a nested subroutine call inside an argument expression resets
the engine-level argument counter, so the outer method call
`do f(A.b())` in class `C` is emitted as `call C.f 0` — the target is
still chosen by the three-way rule, but the argument count is not
1 (receiver) + 1 (explicit argument) = 2 as the rule requires, and the
claimed consequence argCount ≥ 1 for method calls fails too (line 6 of
the output holds the call with count 0). -/
theorem c1_nested_call_resets_outer_argument_count : ∃ out,
    CompilationEngine.compileJack 40
      "class C \x7b method void r() \x7b do f(A.b()); return; \x7d \x7d" = .ok out
    ∧ CompilationEngine.vmLines out =
      ["// r ; return: void", "function C.r 0", "push argument 0", "pop pointer 0",
       "push pointer 0", "call A.b 0", "call C.f 0", "pop temp 0",
       "push constant 0", "return"] :=
  ⟨"// r ; return: void\nfunction C.r 0\npush argument 0\npop pointer 0\n"
    ++ "push pointer 0\ncall A.b 0\ncall C.f 0\npop temp 0\npush constant 0\nreturn\n",
   rfl, rfl⟩

set_option maxHeartbeats 1600000 in
set_option maxRecDepth 8192 in
/-- C3 counterexample: in a class with two subroutines that each
contain one `if`, the first `if` of the first subroutine uses label
index 0 (`C.fIf0`), but the first `if` of the second subroutine uses
label index 2 (`C.gIf2`) — the if-label counter is not restarted at 0
on entering a subroutine; no `C.gIf0` label is ever emitted. -/
theorem c3_counterexample_second_subroutine_first_if_index : ∃ out,
    CompilationEngine.compileJack 64
      ("class C \x7b function void f() \x7b if (true) \x7b \x7d return; \x7d "
        ++ "function void g() \x7b if (true) \x7b \x7d return; \x7d \x7d") = .ok out
    ∧ (CompilationEngine.vmLines out).get? 5 = Option.some "if-goto C.fIf0"
    ∧ (CompilationEngine.vmLines out).get? 16 = Option.some "if-goto C.gIf2"
    ∧ ((CompilationEngine.vmLines out).contains "if-goto C.gIf0") = false
    ∧ ((CompilationEngine.vmLines out).contains "label C.gIf0") = false :=
  ⟨"// f ; return: void\nfunction C.f 0\npush constant 1\nneg\nnot\n"
    ++ "if-goto C.fIf0\ngoto C.fIf1\nlabel C.fIf0\nlabel C.fIf1\npush constant 0\nreturn\n"
    ++ "// g ; return: void\nfunction C.g 0\npush constant 1\nneg\nnot\n"
    ++ "if-goto C.gIf2\ngoto C.gIf3\nlabel C.gIf2\nlabel C.gIf3\npush constant 0\nreturn\n",
   rfl, rfl, rfl, rfl, rfl⟩

set_option maxHeartbeats 1600000 in
set_option maxRecDepth 4096 in
/-- C7 counterexample: a `return` that carries an expression inside a
subroutine whose declared return type is `void` compiles the expression
and then still emits `push constant 0` before `return` — the extra push
is keyed on the return type alone, not on the absence of an
expression. -/
theorem c7_counterexample_void_return_with_expression : ∃ out,
    CompilationEngine.compileJack 40
      "class C \x7b function void f() \x7b return 7; \x7d \x7d" = .ok out
    ∧ CompilationEngine.vmLines out =
      ["// f ; return: void", "function C.f 0", "push constant 7",
       "push constant 0", "return"] :=
  ⟨"// f ; return: void\nfunction C.f 0\npush constant 7\npush constant 0\nreturn\n",
   rfl, rfl⟩

set_option maxHeartbeats 1600000 in
set_option maxRecDepth 4096 in
/-- C4 counterexample: the primary VM output of a compiled class starts
with the line `// seven ; return: int`, which is a comment line and not
one of the instruction forms of spec section 4.3 — `_compile_subroutine`
writes a comment into the same output buffer before every subroutine. -/
theorem c4_counterexample_comment_line_in_output : ∃ out,
    CompilationEngine.compileJack 40
      "class A \x7b function int seven() \x7b return 7; \x7d \x7d" = .ok out
    ∧ CompilationEngine.vmLines out =
      ["// seven ; return: int", "function A.seven 0", "push constant 7", "return"]
    ∧ CommentLine "// seven ; return: int"
    ∧ ¬ InstrLine "// seven ; return: int" :=
  ⟨"// seven ; return: int\nfunction A.seven 0\npush constant 7\nreturn\n",
   rfl, rfl, ⟨⟨"seven ; return: int", by decide⟩, by decide⟩,
   fun h => instrLine_head_ne_slash h (by decide)⟩

namespace SymbolTableMod

/-- Helper: one `add_row` preserves the slot-allocation invariant. -/
theorem add_row_slotInv {t : SingleTable} {r : Row} {t' : SingleTable}
    (h : t.add_row r = .ok t') (hi : SlotInv t) : SlotInv t' := by
  obtain ⟨h1, h2, h3, h4⟩ := hi
  unfold SingleTable.add_row at h
  split at h
  · cases h
  · split at h
    · cases h
      rename_i hc hk
      have hk' : r.kind = Option.some STATIC_KIND := by simpa using hk
      refine ⟨?_, ?_, ?_, ?_⟩ <;>
        simp [kindIndices, List.filter_append, hk', STATIC_KIND, FIELD_KIND, ARG_KIND,
          LOCAL_KIND, List.range_succ, h1.symm, h2.symm, h3.symm, h4.symm]
    · split at h
      · cases h
        rename_i hc hk1 hk
        have hk' : r.kind = Option.some FIELD_KIND := by simpa using hk
        refine ⟨?_, ?_, ?_, ?_⟩ <;>
          simp [kindIndices, List.filter_append, hk', STATIC_KIND, FIELD_KIND, ARG_KIND,
            LOCAL_KIND, List.range_succ, h1.symm, h2.symm, h3.symm, h4.symm]
      · split at h
        · cases h
          rename_i hc hk1 hk2 hk
          have hk' : r.kind = Option.some ARG_KIND := by simpa using hk
          refine ⟨?_, ?_, ?_, ?_⟩ <;>
            simp [kindIndices, List.filter_append, hk', STATIC_KIND, FIELD_KIND, ARG_KIND,
              LOCAL_KIND, List.range_succ, h1.symm, h2.symm, h3.symm, h4.symm]
        · split at h
          · cases h
            rename_i hc hk1 hk2 hk3 hk
            have hk' : r.kind = Option.some LOCAL_KIND := by simpa using hk
            refine ⟨?_, ?_, ?_, ?_⟩ <;>
              simp [kindIndices, List.filter_append, hk', STATIC_KIND, FIELD_KIND, ARG_KIND,
                LOCAL_KIND, List.range_succ, h1.symm, h2.symm, h3.symm, h4.symm]
          · cases h

/-- Helper: a run of `add_row` insertions preserves the invariant. -/
theorem runAdds_slotInv :
    ∀ (rows : List Row) (t0 t : SingleTable),
      SlotInv t0 → runAdds t0 rows = .ok t → SlotInv t
  | [], t0, t, hi, h => by
    cases h; exact hi
  | r :: rs, t0, t, hi, h => by
    unfold runAdds at h
    split at h
    · rename_i t2 hadd
      exact runAdds_slotInv rs t2 t (add_row_slotInv hadd hi) h
    · cases h

end SymbolTableMod

/-- C9: starting from an empty scope, after any successful sequence of
`add_row` insertions the slot indices of each kind, in insertion order,
are exactly 0, 1, ..., count-1 (dense, starting at 0, no repeats or
skips), and `field_count` returns exactly the number of field rows (the
value a constructor passes to `Memory.alloc`); moreover a single
`add_row` never decrements any of the four kind counters. -/
theorem c9_slot_indices_dense_per_kind :
    (∀ (rows : List SymbolTableMod.Row) (t : SymbolTableMod.SingleTable),
      SymbolTableMod.runAdds SymbolTableMod.SingleTable.empty rows = .ok t →
      SymbolTableMod.kindIndices t SymbolTableMod.STATIC_KIND =
        (List.range (SymbolTableMod.kindCount t SymbolTableMod.STATIC_KIND)).map Option.some
      ∧ SymbolTableMod.kindIndices t SymbolTableMod.FIELD_KIND =
        (List.range (SymbolTableMod.kindCount t SymbolTableMod.FIELD_KIND)).map Option.some
      ∧ SymbolTableMod.kindIndices t SymbolTableMod.ARG_KIND =
        (List.range (SymbolTableMod.kindCount t SymbolTableMod.ARG_KIND)).map Option.some
      ∧ SymbolTableMod.kindIndices t SymbolTableMod.LOCAL_KIND =
        (List.range (SymbolTableMod.kindCount t SymbolTableMod.LOCAL_KIND)).map Option.some
      ∧ t.get_number_of_field_variables =
        SymbolTableMod.kindCount t SymbolTableMod.FIELD_KIND)
    ∧ (∀ (t0 : SymbolTableMod.SingleTable) (r : SymbolTableMod.Row)
        (t1 : SymbolTableMod.SingleTable),
        t0.add_row r = .ok t1 →
        t0.nextStaticIndex ≤ t1.nextStaticIndex
        ∧ t0.nextFieldIndex ≤ t1.nextFieldIndex
        ∧ t0.nextArgIndex ≤ t1.nextArgIndex
        ∧ t0.nextVarIndex ≤ t1.nextVarIndex) := by
  constructor
  · intro rows t h
    have hi : SymbolTableMod.SlotInv t := by
      refine SymbolTableMod.runAdds_slotInv rows SymbolTableMod.SingleTable.empty t
        ⟨rfl, rfl, rfl, rfl⟩ h
    obtain ⟨h1, h2, h3, h4⟩ := hi
    have len : ∀ k : String, SymbolTableMod.kindCount t k =
        (SymbolTableMod.kindIndices t k).length := by
      intro k
      simp [SymbolTableMod.kindCount, SymbolTableMod.kindIndices]
    have e1 : SymbolTableMod.kindCount t SymbolTableMod.STATIC_KIND = t.nextStaticIndex := by
      rw [len, h1]; simp
    have e2 : SymbolTableMod.kindCount t SymbolTableMod.FIELD_KIND = t.nextFieldIndex := by
      rw [len, h2]; simp
    have e3 : SymbolTableMod.kindCount t SymbolTableMod.ARG_KIND = t.nextArgIndex := by
      rw [len, h3]; simp
    have e4 : SymbolTableMod.kindCount t SymbolTableMod.LOCAL_KIND = t.nextVarIndex := by
      rw [len, h4]; simp
    exact ⟨by rw [e1, h1], by rw [e2, h2], by rw [e3, h3], by rw [e4, h4],
      by rw [e2]; rfl⟩
  · intro t0 r t1 h
    unfold SymbolTableMod.SingleTable.add_row at h
    split at h
    · cases h
    · split at h
      · cases h; simp
      · split at h
        · cases h; simp
        · split at h
          · cases h; simp
          · split at h
            · cases h; simp
            · cases h

/-- C9, witness: two fields then one static in a fresh scope; the field
indices read 0, 1, the static index reads 0, and `field_count` is 2. -/
theorem c9_witness :
    (SymbolTableMod.kindIndices
        ⟨[⟨Option.some "a", Option.some "int", Option.some "field", "declaring", Option.some 0⟩,
          ⟨Option.some "b", Option.some "int", Option.some "field", "declaring", Option.some 1⟩,
          ⟨Option.some "c", Option.some "boolean", Option.some "static", "declaring", Option.some 0⟩],
         1, 2, 0, 0⟩ SymbolTableMod.FIELD_KIND =
      (List.range (SymbolTableMod.kindCount
        ⟨[⟨Option.some "a", Option.some "int", Option.some "field", "declaring", Option.some 0⟩,
          ⟨Option.some "b", Option.some "int", Option.some "field", "declaring", Option.some 1⟩,
          ⟨Option.some "c", Option.some "boolean", Option.some "static", "declaring", Option.some 0⟩],
         1, 2, 0, 0⟩ SymbolTableMod.FIELD_KIND)).map Option.some)
    ∧ SymbolTableMod.SingleTable.get_number_of_field_variables
        ⟨[⟨Option.some "a", Option.some "int", Option.some "field", "declaring", Option.some 0⟩,
          ⟨Option.some "b", Option.some "int", Option.some "field", "declaring", Option.some 1⟩,
          ⟨Option.some "c", Option.some "boolean", Option.some "static", "declaring", Option.some 0⟩],
         1, 2, 0, 0⟩ =
      SymbolTableMod.kindCount
        ⟨[⟨Option.some "a", Option.some "int", Option.some "field", "declaring", Option.some 0⟩,
          ⟨Option.some "b", Option.some "int", Option.some "field", "declaring", Option.some 1⟩,
          ⟨Option.some "c", Option.some "boolean", Option.some "static", "declaring", Option.some 0⟩],
         1, 2, 0, 0⟩ SymbolTableMod.FIELD_KIND := by
  have h := c9_slot_indices_dense_per_kind.1
    [⟨Option.some "a", Option.some "int", Option.some "field", "declaring", Option.none⟩,
     ⟨Option.some "b", Option.some "int", Option.some "field", "declaring", Option.none⟩,
     ⟨Option.some "c", Option.some "boolean", Option.some "static", "declaring", Option.none⟩]
    ⟨[⟨Option.some "a", Option.some "int", Option.some "field", "declaring", Option.some 0⟩,
      ⟨Option.some "b", Option.some "int", Option.some "field", "declaring", Option.some 1⟩,
      ⟨Option.some "c", Option.some "boolean", Option.some "static", "declaring", Option.some 0⟩],
     1, 2, 0, 0⟩ (by rfl)
  exact ⟨h.2.1, h.2.2.2.2⟩

/-- C3 amended: `_reset_subroutine_properties` empties the subroutine
scope and clears the per-subroutine name, kind, return type and local
count, but leaves the if- and while-label counters untouched; the
counters are 0 when the engine is constructed, and each label request
uses the current counter value (embedded after `If`/`While` in the
label) and increments it — so indices continue across subroutines
instead of restarting at 0. -/
theorem c3_amended_reset_preserves_label_counters :
    (∀ (st : CompilationEngine.EngineState) (u : Unit)
        (st2 : CompilationEngine.EngineState),
      CompilationEngine.resetSubroutineProperties st = .ok (u, st2) →
      st2.currentIndexIf = st.currentIndexIf
      ∧ st2.currentIndexWhile = st.currentIndexWhile
      ∧ st2.symbolTable.subroutineTable = SymbolTableMod.SingleTable.empty
      ∧ st2.symbolTable.classTable = st.symbolTable.classTable
      ∧ st2.currentSubroutineName = Option.none
      ∧ st2.currentSubroutineType = Option.none
      ∧ st2.currentSubroutineReturnType = Option.none
      ∧ st2.currentSubroutineNLocals = Option.some 0)
    ∧ (∀ (input : String) (st0 : CompilationEngine.EngineState),
      CompilationEngine.initEngine input = .ok st0 →
      st0.currentIndexIf = 0 ∧ st0.currentIndexWhile = 0)
    ∧ (∀ (st : CompilationEngine.EngineState) (lbl : String)
        (st2 : CompilationEngine.EngineState),
      CompilationEngine.getUniqueIfLabel st = .ok (lbl, st2) →
      lbl = pyStrOf st.currentClass ++ "." ++ pyStrOf st.currentSubroutineName
        ++ "If" ++ toString st.currentIndexIf
      ∧ st2.currentIndexIf = st.currentIndexIf + 1
      ∧ st2.currentIndexWhile = st.currentIndexWhile)
    ∧ (∀ (st : CompilationEngine.EngineState) (lbl : String)
        (st2 : CompilationEngine.EngineState),
      CompilationEngine.getUniqueWhileLabel st = .ok (lbl, st2) →
      lbl = pyStrOf st.currentClass ++ "." ++ pyStrOf st.currentSubroutineName
        ++ "While" ++ toString st.currentIndexWhile
      ∧ st2.currentIndexWhile = st.currentIndexWhile + 1
      ∧ st2.currentIndexIf = st.currentIndexIf) := by
  refine ⟨?_, ?_, ?_, ?_⟩
  · intro st u st2 h
    cases h
    exact ⟨rfl, rfl, rfl, rfl, rfl, rfl, rfl, rfl⟩
  · intro input st0 h
    unfold CompilationEngine.initEngine at h
    split at h
    · cases h
    · split at h
      · cases h
      · split at h
        · cases h
          exact ⟨rfl, rfl⟩
        · cases h
  · intro st lbl st2 h
    cases h
    exact ⟨rfl, rfl, rfl⟩
  · intro st lbl st2 h
    cases h
    exact ⟨rfl, rfl, rfl⟩

/-- C3 amended, witness: a reset at label counters 5 and 7 leaves them
at 5 and 7. -/
theorem c3_amended_witness :
    ∃ st2 : CompilationEngine.EngineState,
      CompilationEngine.resetSubroutineProperties
        ⟨⟨[], Option.none, Option.none⟩, SymbolTableMod.SymbolTable.empty, "", 7, 5,
          Option.some "C", Option.some "g", Option.none, Option.none, Option.some 0,
          Option.none⟩ = .ok ((), st2)
      ∧ st2.currentIndexIf = 5 ∧ st2.currentIndexWhile = 7 := by
  refine ⟨_, rfl, ?_, ?_⟩
  · exact (c3_amended_reset_preserves_label_counters.1 _ () _ rfl).1
  · exact (c3_amended_reset_preserves_label_counters.1 _ () _ rfl).2.1

/-! ### String and digit helper lemmas -/

theorem string_join_append (a b : List String) :
    String.join (a ++ b) = String.join a ++ String.join b := by
  apply String.ext
  rw [String.join_eq, String.join_eq, String.join_eq]
  simp [String.data_append]

theorem outOk_snoc {o line : String} (h : OutOk o) (hl : LineOk line) :
    OutOk (o ++ (line ++ "\n")) := by
  obtain ⟨ls, rfl, hall⟩ := h
  refine ⟨ls ++ [line], ?_, ?_⟩
  · rw [List.map_append, string_join_append]
    simp [String.join]
  · intro l hm
    rcases List.mem_append.mp hm with hm | hm
    · exact hall l hm
    · simp at hm
      subst hm
      exact hl

/-- The characters of a decimal digit run are never Python
whitespace. -/
theorem toDigitsCore_no_space :
    ∀ (f n : Nat) (ds : List Char), (∀ c ∈ ds, isPySpace c = false) →
      ∀ c ∈ Nat.toDigitsCore 10 f n ds, isPySpace c = false
  | 0, n, ds, hds => hds
  | f + 1, n, ds, hds => by
    have hd : isPySpace (Nat.digitChar (n % 10)) = false := by
      have h10 : n % 10 < 10 := Nat.mod_lt _ (by omega)
      interval_cases h : n % 10 <;> decide
    simp only [Nat.toDigitsCore]
    split
    · intro c hc
      rcases List.mem_cons.mp hc with rfl | hc
      · exact hd
      · exact hds c hc
    · refine toDigitsCore_no_space f _ _ ?_
      intro c hc
      rcases List.mem_cons.mp hc with rfl | hc
      · exact hd
      · exact hds c hc

theorem toDigitsCore_ne_nil :
    ∀ (f n : Nat) (d : Char) (ds : List Char),
      Nat.toDigitsCore 10 f n (d :: ds) ≠ []
  | 0, _, _, _ => by simp [Nat.toDigitsCore]
  | f + 1, n, d, ds => by
    simp only [Nat.toDigitsCore]
    split
    · simp
    · exact toDigitsCore_ne_nil f _ _ _

theorem natRepr_wf (n : Nat) : WFtok (Nat.repr n) := by
  constructor
  · show (Nat.toDigits 10 n).asString.data ≠ []
    unfold Nat.toDigits
    simp only [List.asString]
    unfold Nat.toDigitsCore
    dsimp only
    split
    · simp
    · exact toDigitsCore_ne_nil _ _ _ _
  · intro c hc
    refine toDigitsCore_no_space (n + 1) n [] (by simp) c ?_
    simpa [Nat.repr, Nat.toDigits, List.asString] using hc

theorem natToString_wf (n : Nat) : WFtok (toString n) := natRepr_wf n

theorem intToString_wf (n : Int) : WFtok (toString n) := by
  cases n with
  | ofNat m => exact natRepr_wf m
  | negSucc m =>
    obtain ⟨h1, h2⟩ := natRepr_wf (m + 1)
    constructor
    · show ("-" ++ toString (m + 1)).data ≠ []
      simp [String.data_append]
    · intro c hc
      replace hc : c ∈ ("-" ++ toString (m + 1)).data := hc
      simp only [String.data_append] at hc
      rcases List.mem_append.mp hc with hc | hc
      · replace hc : c ∈ ['-'] := hc
        simp at hc
        subst hc
        decide
      · exact h2 c hc

theorem wftok_noNl {s : String} (h : WFtok s) : NoNl s := by
  intro c hc heq
  have := h.2 c hc
  subst heq
  simp [isPySpace] at this

theorem noNl_append {a b : String} (ha : NoNl a) (hb : NoNl b) : NoNl (a ++ b) := by
  intro c hc
  simp only [String.data_append] at hc
  rcases List.mem_append.mp hc with hc | hc
  · exact ha c hc
  · exact hb c hc

theorem pyStrOf_wf {o : Option String} (h : WFopt o) : WFtok (pyStrOf o) := by
  cases o with
  | none => exact ⟨by decide, by decide⟩
  | some s => exact h s rfl

theorem isArgText_of {s : String} (h1 : s.data ≠ []) (h2 : NoNl s) :
    isArgText s = true := by
  simp only [isArgText, Bool.and_eq_true]
  constructor
  · simp [List.isEmpty_iff, h1]
  · rw [List.all_eq_true]
    intro c hc
    simpa using h2 c hc

theorem wftok_isArgText {s : String} (h : WFtok s) : isArgText s = true :=
  isArgText_of h.1 (wftok_noNl h)

theorem pyToStr_isArgText {i : PyScalar} (h : PyScalarOk i) :
    isArgText (pyToStr i) = true := by
  cases i with
  | int n => exact wftok_isArgText (intToString_wf n)
  | str s => exact wftok_isArgText h
  | none => decide

/-! ### Writer output shape lemmas -/

theorem segment_map_isSegmentName {t : Option String} {seg : String}
    (h : VMWriter.SYMBOL_TABLE_TO_VM_SEGMENT t = Option.some seg) :
    isSegmentName seg = true := by
  unfold VMWriter.SYMBOL_TABLE_TO_VM_SEGMENT at h
  split at h
  · cases h
  · split at h
    · cases h; decide
    · split at h
      · cases h; decide
      · split at h
        · cases h; decide
        · split at h
          · cases h; decide
          · split at h
            · cases h; decide
            · split at h
              · cases h; decide
              · split at h
                · cases h; decide
                · split at h
                  · cases h; decide
                  · split at h
                    · cases h; decide
                    · split at h
                      · cases h; decide
                      · cases h

theorem arith_map_isArithOpcode {op a : String}
    (h : VMWriter.TOKEN_TO_VM_ARITHMETIC op = Option.some a) :
    isArithOpcode a = true := by
  unfold VMWriter.TOKEN_TO_VM_ARITHMETIC at h
  split at h
  · cases h; decide
  · split at h
    · cases h; decide
    · split at h
      · cases h; decide
      · split at h
        · cases h; decide
        · split at h
          · cases h; decide
          · split at h
            · cases h; decide
            · split at h
              · cases h; decide
              · split at h
                · cases h; decide
                · split at h
                  · cases h; decide
                  · split at h
                    · cases h; decide
                    · cases h

/-- A `push`/`pop`-style line built by the writer is an instruction
line (stated for `push`). -/
theorem lineOk_push {seg idx : String} (hs : isSegmentName seg = true)
    (hi : isArgText idx = true) : LineOk ("push " ++ seg ++ " " ++ idx) :=
  Or.inl (InstrLine.push seg idx hs hi)

theorem lineOk_pop {seg idx : String} (hs : isSegmentName seg = true)
    (hi : isArgText idx = true) : LineOk ("pop " ++ seg ++ " " ++ idx) :=
  Or.inl (InstrLine.pop seg idx hs hi)

theorem lineOk_comment {t : String} (h : NoNl t) : LineOk ("// " ++ t) := by
  refine Or.inr ⟨⟨t, rfl⟩, ?_⟩
  intro hc
  replace hc : '\n' ∈ "// ".data ++ t.data := by
    simpa [String.data_append] using hc
  rcases List.mem_append.mp hc with hc | hc
  · replace hc : '\n' ∈ ['/', '/', ' '] := hc
    simp at hc
  · exact h _ hc rfl

theorem noNl_of_all {s : String} (h : s.data.all (fun c => c != '\n') = true) :
    NoNl s := by
  intro c hc
  have := List.all_eq_true.mp h c hc
  simpa using this

theorem appendExt_trans {o o1 o2 : String}
    (h1 : ∃ t, o1 = o ++ t) (h2 : ∃ t, o2 = o1 ++ t) : ∃ t, o2 = o ++ t := by
  obtain ⟨t, h1⟩ := h1
  obtain ⟨t2, h2⟩ := h2
  exact ⟨t ++ t2, by rw [h2, h1, String.append_assoc]⟩

theorem outOk_append_line {o o2 line : String} (he : o2 = o ++ (line ++ "\n"))
    (h : OutOk o) (hl : LineOk line) : OutOk o2 ∧ ∃ t, o2 = o ++ t :=
  ⟨he ▸ outOk_snoc h hl, ⟨line ++ "\n", he⟩⟩

theorem wPush_ok {seg : Option String} {idx : PyScalar} {o o2 : String}
    (h : VMWriter.write_push_command seg idx o = .ok o2) (ho : OutOk o)
    (hi : PyScalarOk idx) : OutOk o2 ∧ ∃ t, o2 = o ++ t := by
  unfold VMWriter.write_push_command at h
  split at h
  · rename_i s hs
    cases h
    refine outOk_append_line ?_ ho
      (lineOk_push (segment_map_isSegmentName hs) (pyToStr_isArgText hi))
    simp [String.append_assoc]
  · cases h

theorem wPop_ok {seg : Option String} {idx : PyScalar} {o o2 : String}
    (h : VMWriter.write_pop_command seg idx o = .ok o2) (ho : OutOk o)
    (hi : PyScalarOk idx) : OutOk o2 ∧ ∃ t, o2 = o ++ t := by
  unfold VMWriter.write_pop_command at h
  split at h
  · rename_i s hs
    cases h
    refine outOk_append_line ?_ ho
      (lineOk_pop (segment_map_isSegmentName hs) (pyToStr_isArgText hi))
    simp [String.append_assoc]
  · cases h

theorem wArith_ok {cmd o : String} (ho : OutOk o) (hc : isArithOpcode cmd = true) :
    OutOk (VMWriter.write_arithmetic_command cmd o)
    ∧ ∃ t, VMWriter.write_arithmetic_command cmd o = o ++ t := by
  refine outOk_append_line ?_ ho (Or.inl (InstrLine.arith cmd hc))
  unfold VMWriter.write_arithmetic_command
  simp [String.append_assoc]

theorem wLabel_ok {l o : String} (ho : OutOk o) (hl : isArgText l = true) :
    OutOk (VMWriter.write_label_command l o)
    ∧ ∃ t, VMWriter.write_label_command l o = o ++ t := by
  refine outOk_append_line ?_ ho (Or.inl (InstrLine.label l hl))
  unfold VMWriter.write_label_command
  simp [String.append_assoc]

theorem wGoto_ok {l o : String} (ho : OutOk o) (hl : isArgText l = true) :
    OutOk (VMWriter.write_goto_command l o)
    ∧ ∃ t, VMWriter.write_goto_command l o = o ++ t := by
  refine outOk_append_line ?_ ho (Or.inl (InstrLine.goto l hl))
  unfold VMWriter.write_goto_command
  simp [String.append_assoc]

theorem wIf_ok {l o : String} (ho : OutOk o) (hl : isArgText l = true) :
    OutOk (VMWriter.write_if_command l o)
    ∧ ∃ t, VMWriter.write_if_command l o = o ++ t := by
  refine outOk_append_line ?_ ho (Or.inl (InstrLine.ifgoto l hl))
  unfold VMWriter.write_if_command
  simp [String.append_assoc]

theorem wCall_ok {name o : String} {n : PyScalar} (ho : OutOk o)
    (hn : isArgText name = true) (hi : PyScalarOk n) :
    OutOk (VMWriter.write_call_command name n o)
    ∧ ∃ t, VMWriter.write_call_command name n o = o ++ t := by
  refine outOk_append_line ?_ ho
    (Or.inl (InstrLine.call name (pyToStr n) hn (pyToStr_isArgText hi)))
  unfold VMWriter.write_call_command
  simp [String.append_assoc]

theorem wFunction_ok {name o : String} {n : PyScalar} (ho : OutOk o)
    (hn : isArgText name = true) (hi : PyScalarOk n) :
    OutOk (VMWriter.write_function_command name n o)
    ∧ ∃ t, VMWriter.write_function_command name n o = o ++ t := by
  refine outOk_append_line ?_ ho
    (Or.inl (InstrLine.func name (pyToStr n) hn (pyToStr_isArgText hi)))
  unfold VMWriter.write_function_command
  simp [String.append_assoc]

theorem wReturn_ok {o : String} (ho : OutOk o) :
    OutOk (VMWriter.write_return_command o)
    ∧ ∃ t, VMWriter.write_return_command o = o ++ t := by
  refine outOk_append_line ?_ ho (Or.inl InstrLine.ret)
  unfold VMWriter.write_return_command
  simp [String.append_assoc]

theorem wComment_ok {text o : String} (ho : OutOk o) (ht : NoNl text) :
    OutOk (VMWriter.write_comment text o)
    ∧ ∃ t, VMWriter.write_comment text o = o ++ t := by
  refine outOk_append_line ?_ ho (lineOk_comment ht)
  unfold VMWriter.write_comment
  simp [String.append_assoc]

theorem wVoidReturn_ok {o o2 : String} (h : VMWriter.write_void_return o = .ok o2)
    (ho : OutOk o) : OutOk o2 ∧ ∃ t, o2 = o ++ t := by
  unfold VMWriter.write_void_return at h
  simp only [bind, Except.bind] at h
  split at h
  · cases h
  · rename_i o1 hp
    cases h
    obtain ⟨h1, h2⟩ := wPush_ok hp ho trivial
    obtain ⟨h3, h4⟩ := wReturn_ok h1
    exact ⟨h3, appendExt_trans h2 h4⟩

theorem wOp_ok {op : Option String} {o o2 : String}
    (h : VMWriter.write_op op o = .ok o2) (ho : OutOk o) :
    OutOk o2 ∧ ∃ t, o2 = o ++ t := by
  unfold VMWriter.write_op at h
  split at h
  · cases h
    exact wCall_ok ho (by decide) trivial
  · split at h
    · cases h
      exact wCall_ok ho (by decide) trivial
    · split at h
      · split at h
        · rename_i a ha
          cases h
          exact wArith_ok ho (arith_map_isArithOpcode ha)
        · cases h
      · cases h

theorem wUnary_ok {op : Option String} {o o2 : String}
    (h : VMWriter.write_unary_op op o = .ok o2) (ho : OutOk o) :
    OutOk o2 ∧ ∃ t, o2 = o ++ t := by
  unfold VMWriter.write_unary_op at h
  split at h
  · cases h
    exact wArith_ok ho (by decide)
  · split at h
    · cases h
      exact wArith_ok ho (by decide)
    · cases h

theorem wAppendChars_ok :
    ∀ (cs : List Char) (o : String), OutOk o →
      OutOk (VMWriter.write_append_chars cs o)
      ∧ ∃ t, VMWriter.write_append_chars cs o = o ++ t
  | [], o, ho => ⟨ho, "", by simp [VMWriter.write_append_chars]⟩
  | c :: rest, o, ho => by
    show OutOk (VMWriter.write_append_chars rest _) ∧ _
    have hline : OutOk (o ++ "push " ++ VMWriter.CONSTANT_SEGMENT ++ " "
          ++ toString c.toNat ++ "\n")
        ∧ ∃ t, (o ++ "push " ++ VMWriter.CONSTANT_SEGMENT ++ " "
          ++ toString c.toNat ++ "\n") = o ++ t := by
      refine outOk_append_line ?_ ho
        (@lineOk_push VMWriter.CONSTANT_SEGMENT _ (by decide)
          (wftok_isArgText (natToString_wf c.toNat)))
      simp [String.append_assoc]
    obtain ⟨h1, h2⟩ := hline
    obtain ⟨h3, h4⟩ := @wCall_ok "String.appendChar" _ (.int 2) h1
      (by decide) trivial
    obtain ⟨h5, h6⟩ := wAppendChars_ok rest _ h3
    exact ⟨h5, appendExt_trans (appendExt_trans h2 h4) h6⟩

theorem wConstant_ok {ty tok : Option String} {o o2 : String}
    (h : VMWriter.write_constant_int_string_keyword ty tok o = .ok o2)
    (ho : OutOk o) (htok : WFopt tok) : OutOk o2 ∧ ∃ t, o2 = o ++ t := by
  unfold VMWriter.write_constant_int_string_keyword at h
  split at h
  · refine wPush_ok h ho ?_
    cases tok with
    | none => trivial
    | some t => exact htok t rfl
  · split at h
    · split at h
      · rename_i t
        simp only [bind, Except.bind] at h
        have hwf : WFtok t := htok t rfl
        generalize hc1 : VMWriter.write_comment ("string constant: " ++ t) o = o1 at h
        obtain ⟨g1, g2⟩ : OutOk o1 ∧ ∃ u, o1 = o ++ u := by
          rw [← hc1]
          exact wComment_ok ho (noNl_append (noNl_of_all (by decide)) (wftok_noNl hwf))
        split at h
        · cases h
        · rename_i o3 hp
          cases h
          obtain ⟨g3, g4⟩ := wPush_ok hp g1 trivial
          obtain ⟨g5, g6⟩ := @wCall_ok "String.new" _ (.int 1) g3
            (by decide) trivial
          obtain ⟨g7, g8⟩ := wAppendChars_ok t.data _ g5
          exact ⟨g7, appendExt_trans (appendExt_trans (appendExt_trans g2 g4) g6) g8⟩
      · cases h
    · split at h
      · split at h
        · exact wPush_ok h ho trivial
        · split at h
          · simp only [bind, Except.bind] at h
            split at h
            · cases h
            · rename_i o1 hp
              cases h
              obtain ⟨g1, g2⟩ := wPush_ok hp ho trivial
              obtain ⟨g3, g4⟩ := @wArith_ok "neg" _ g1 (by decide)
              exact ⟨g3, appendExt_trans g2 g4⟩
          · split at h
            · exact wPush_ok h ho trivial
            · cases h
      · cases h

/-! ### Preservation of the engine invariant: monad combinators -/

namespace CompilationEngine

theorem EngM_bind_eq {α β : Type} (m : EngM α) (k : α → EngM β) (st : EngineState) :
    (m >>= k) st =
      match m st with
      | .ok (a, st2) => k a st2
      | .error e => .error e := rfl

end CompilationEngine

theorem presE_bind {α β : Type} {m : CompilationEngine.EngM α}
    {k : α → CompilationEngine.EngM β} {Q : α → Prop} {R : β → Prop}
    (hm : PresE m Q) (hk : ∀ a, Q a → PresE (k a) R) : PresE (m >>= k) R := by
  intro st a st2 hInv h
  rw [CompilationEngine.EngM_bind_eq] at h
  rcases hms : m st with e | ⟨b, st1⟩ <;> rw [hms] at h
  · cases h
  · obtain ⟨h1, h2, h3⟩ := hm st b st1 hInv hms
    obtain ⟨h4, h5, h6⟩ := hk b h2 st1 a st2 h1 h
    exact ⟨h4, h5, appendExt_trans h3 h6⟩

theorem presE_pure {α : Type} {Q : α → Prop} {a : α} (h : Q a) :
    PresE (pure a : CompilationEngine.EngM α) Q := by
  intro st b st2 hInv heq
  cases heq
  exact ⟨hInv, h, "", by simp⟩

theorem presE_pureT {α : Type} (a : α) :
    PresE (pure a : CompilationEngine.EngM α) (fun _ => True) :=
  presE_pure trivial

theorem presE_pureArg (s : String) (h : isArgText s = true) :
    PresE (pure s : CompilationEngine.EngM String)
      (fun r => isArgText r = true) :=
  presE_pure h

theorem presE_throw {α : Type} {Q : α → Prop} {msg : String} :
    PresE (CompilationEngine.throwE msg : CompilationEngine.EngM α) Q := by
  intro st b st2 hInv heq
  cases heq

theorem presE_ite {α : Type} {Q : α → Prop} {c : Prop} [Decidable c]
    {m1 m2 : CompilationEngine.EngM α} (h1 : PresE m1 Q) (h2 : PresE m2 Q) :
    PresE (if c then m1 else m2) Q := by
  split <;> assumption

theorem presE_weaken {α : Type} {Q R : α → Prop} {m : CompilationEngine.EngM α}
    (hm : PresE m Q) (h : ∀ a, Q a → R a) : PresE m R := by
  intro st a st2 hInv heq
  obtain ⟨h1, h2, h3⟩ := hm st a st2 hInv heq
  exact ⟨h1, h a h2, h3⟩

/-! ### Preservation: engine primitives -/

theorem inv_set_output {st : CompilationEngine.EngineState} {o2 : String}
    (h : EngineInv st) (ho : OutOk o2) : EngineInv { st with output := o2 } := by
  obtain ⟨_, h2, h3, h4, h5, h6, h7⟩ := h
  exact ⟨ho, h2, h3, h4, h5, h6, h7⟩

theorem presE_emitW {f : String → String}
    (hf : ∀ o, OutOk o → OutOk (f o) ∧ ∃ t, f o = o ++ t) :
    PresE (CompilationEngine.emitW f) (fun _ => True) := by
  intro st a st2 hInv heq
  cases heq
  obtain ⟨h1, h2⟩ := hf st.output hInv.1
  exact ⟨inv_set_output hInv h1, trivial, h2⟩

theorem presE_liftW {f : String → Except String String}
    (hf : ∀ o o2, f o = .ok o2 → OutOk o → OutOk o2 ∧ ∃ t, o2 = o ++ t) :
    PresE (CompilationEngine.liftW f) (fun _ => True) := by
  intro st a st2 hInv heq
  unfold CompilationEngine.liftW at heq
  split at heq
  · rename_i o2 h2
    cases heq
    obtain ⟨h3, h4⟩ := hf st.output o2 h2 hInv.1
    exact ⟨inv_set_output hInv h3, trivial, h4⟩
  · cases heq

theorem tokenizer_next_wf {tk tk2 : Tokenizer.TokState} {v : Except String PyVal}
    (h : Tokenizer.next tk = (v, tk2)) (hv : ∃ pv, v = .ok pv) (hw : TokensWF tk) :
    TokensWF tk2 := by
  obtain ⟨pv, rfl⟩ := hv
  unfold Tokenizer.next at h
  dsimp only at h
  generalize hgen : (match tk.ptr with
    | Option.none => (0 : Int)
    | Option.some q => q + 1) = p at h
  by_cases hge : p ≥ (tk.tokens.length : Int)
  · rw [if_pos hge] at h
    rw [Prod.ext_iff] at h
    cases h.1
  · rw [if_neg hge] at h
    rcases hget : tk.tokens.get? p.toNat with _ | entry <;> rw [hget] at h
    · rw [Prod.ext_iff] at h
      cases h.1
    · rw [Prod.ext_iff] at h
      obtain ⟨h1, h2⟩ := h
      subst h2
      refine ⟨hw.1, ?_⟩
      intro q hq
      cases hq
      exact hw.1 entry (List.get?_mem hget)

theorem presE_tokNext : PresE CompilationEngine.tokNext (fun _ => True) := by
  intro st a st2 hInv heq
  unfold CompilationEngine.tokNext at heq
  split at heq
  · rename_i t hnext
    cases heq
    obtain ⟨h1, h2, h3, h4, h5, h6, h7⟩ := hInv
    exact ⟨⟨h1, tokenizer_next_wf hnext ⟨_, rfl⟩ h2, h3, h4, h5, h6, h7⟩,
      trivial, "", by simp⟩
  · cases heq

theorem presE_curTok : PresE CompilationEngine.curTok WFopt := by
  intro st a st2 hInv heq
  cases heq
  refine ⟨hInv, ?_, "", by simp⟩
  intro s hs
  unfold Tokenizer.currentToken at hs
  obtain ⟨_, hw, _⟩ := hInv
  rcases hcur : st.tokenizer.cur with _ | p
  · rw [hcur] at hs; cases hs
  · rw [hcur] at hs
    cases hs
    exact hw.2 p hcur

theorem presE_curType : PresE CompilationEngine.curType (fun _ => True) := by
  intro st a st2 hInv heq
  cases heq
  exact ⟨hInv, trivial, "", by simp⟩

theorem presE_lookAhead : PresE CompilationEngine.lookAhead (fun _ => True) := by
  intro st a st2 hInv heq
  unfold CompilationEngine.lookAhead at heq
  split at heq
  · cases heq
    exact ⟨hInv, trivial, "", by simp⟩
  · cases heq

theorem presE_validateHelper (source : Option String) (target : List String)
    (msg : String) :
    PresE (CompilationEngine.validateAndAdvanceHelper source target msg)
      (fun _ => True) := by
  intro st a st2 hInv heq
  unfold CompilationEngine.validateAndAdvanceHelper at heq
  split at heq
  · exact presE_tokNext st a st2 hInv heq
  · cases heq

theorem presE_validateType (target : List String) (msg : String) :
    PresE (CompilationEngine.validateTypeAndAdvance target msg) (fun _ => True) :=
  presE_bind presE_curType (fun ty _ => presE_validateHelper ty target msg)

theorem presE_validateToken (target : List String) (msg : String) :
    PresE (CompilationEngine.validateTokenAndAdvance target msg) (fun _ => True) :=
  presE_bind (presE_weaken presE_curTok (fun _ _ => trivial))
    (fun t _ => presE_validateHelper t target msg)

theorem presE_symContains (tok : Option String) :
    PresE (CompilationEngine.symContains tok) (fun _ => True) := by
  intro st a st2 hInv heq
  cases heq
  exact ⟨hInv, trivial, "", by simp⟩

theorem presE_symGetKind (tok : Option String) :
    PresE (CompilationEngine.symGetKind tok) (fun _ => True) := by
  intro st a st2 hInv heq
  unfold CompilationEngine.symGetKind at heq
  split at heq
  · cases heq
    exact ⟨hInv, trivial, "", by simp⟩
  · cases heq

theorem presE_symGetIndex (tok : Option String) :
    PresE (CompilationEngine.symGetIndex tok) (fun _ => True) := by
  intro st a st2 hInv heq
  unfold CompilationEngine.symGetIndex at heq
  split at heq
  · cases heq
    exact ⟨hInv, trivial, "", by simp⟩
  · cases heq

theorem presE_symGetType (tok : Option String) :
    PresE (CompilationEngine.symGetType tok) WFopt := by
  intro st a st2 hInv heq
  unfold CompilationEngine.symGetType at heq
  obtain ⟨h1, h2, h3, h4, h5, h6, h7⟩ := hInv
  have hof : ∀ r : SymbolTableMod.Row,
      st.symbolTable.get_type tok = .ok r.identifierType →
      True := fun _ _ => trivial
  split at heq
  · cases heq
    refine ⟨⟨h1, h2, h3, h4, h5, h6, h7⟩, ?_, "", by simp⟩
    unfold SymbolTableMod.SymbolTable.get_type at *
    rename_i hfind
    split at hfind
    · rename_i r hr
      cases hfind
      exact h7 r (List.mem_of_find?_eq_some hr)
    · split at hfind
      · rename_i r hr
        cases hfind
        exact h6 r (List.mem_of_find?_eq_some hr)
      · cases hfind
  · cases heq

theorem presE_symNumClassFields :
    PresE CompilationEngine.symNumClassFields (fun _ => True) := by
  intro st a st2 hInv heq
  cases heq
  exact ⟨hInv, trivial, "", by simp⟩

theorem presE_incArgs : PresE CompilationEngine.incArgs (fun _ => True) := by
  intro st a st2 hInv heq
  unfold CompilationEngine.incArgs at heq
  split at heq
  · cases heq
    obtain ⟨h1, h2, h3, h4, h5, h6, h7⟩ := hInv
    exact ⟨⟨h1, h2, h3, h4, h5, h6, h7⟩, trivial, "", by simp⟩
  · cases heq

theorem presE_setArgsZero : PresE CompilationEngine.setArgsZero (fun _ => True) := by
  intro st a st2 hInv heq
  cases heq
  obtain ⟨h1, h2, h3, h4, h5, h6, h7⟩ := hInv
  exact ⟨⟨h1, h2, h3, h4, h5, h6, h7⟩, trivial, "", by simp⟩

theorem presE_incNLocals : PresE CompilationEngine.incNLocals (fun _ => True) := by
  intro st a st2 hInv heq
  unfold CompilationEngine.incNLocals at heq
  split at heq
  · cases heq
    obtain ⟨h1, h2, h3, h4, h5, h6, h7⟩ := hInv
    exact ⟨⟨h1, h2, h3, h4, h5, h6, h7⟩, trivial, "", by simp⟩
  · cases heq

theorem presE_reset :
    PresE CompilationEngine.resetSubroutineProperties (fun _ => True) := by
  intro st a st2 hInv heq
  cases heq
  obtain ⟨h1, h2, h3, h4, h5, h6, h7⟩ := hInv
  refine ⟨⟨h1, h2, h3, ?_, ?_, h6, ?_⟩, trivial, "", by simp⟩
  · intro s hs
    cases hs
  · intro s hs
    cases hs
  · intro r hr
    cases hr

theorem presE_setCurrentClass :
    PresE CompilationEngine.setCurrentClass (fun _ => True) := by
  intro st a st2 hInv heq
  cases heq
  obtain ⟨h1, h2, h3, h4, h5, h6, h7⟩ := hInv
  refine ⟨⟨h1, h2, ?_, h4, h5, h6, h7⟩, trivial, "", by simp⟩
  intro s hs
  unfold Tokenizer.currentToken at hs
  rcases hcur : st.tokenizer.cur with _ | p <;> rw [hcur] at hs
  · cases hs
  · cases hs
    exact h2.2 p hcur

theorem presE_setCurrentSubroutineType :
    PresE CompilationEngine.setCurrentSubroutineType (fun _ => True) := by
  intro st a st2 hInv heq
  cases heq
  obtain ⟨h1, h2, h3, h4, h5, h6, h7⟩ := hInv
  exact ⟨⟨h1, h2, h3, h4, h5, h6, h7⟩, trivial, "", by simp⟩

theorem presE_setCurrentSubroutineReturnType :
    PresE CompilationEngine.setCurrentSubroutineReturnType (fun _ => True) := by
  intro st a st2 hInv heq
  cases heq
  obtain ⟨h1, h2, h3, h4, h5, h6, h7⟩ := hInv
  refine ⟨⟨h1, h2, h3, h4, ?_, h6, h7⟩, trivial, "", by simp⟩
  intro s hs
  unfold Tokenizer.currentToken at hs
  rcases hcur : st.tokenizer.cur with _ | p <;> rw [hcur] at hs
  · cases hs
  · cases hs
    exact h2.2 p hcur

theorem presE_setCurrentSubroutineName :
    PresE CompilationEngine.setCurrentSubroutineName (fun _ => True) := by
  intro st a st2 hInv heq
  cases heq
  obtain ⟨h1, h2, h3, h4, h5, h6, h7⟩ := hInv
  refine ⟨⟨h1, h2, h3, ?_, h5, h6, h7⟩, trivial, "", by simp⟩
  intro s hs
  unfold Tokenizer.currentToken at hs
  rcases hcur : st.tokenizer.cur with _ | p <;> rw [hcur] at hs
  · cases hs
  · cases hs
    exact h2.2 p hcur

theorem wftok_of_check {s : String}
    (h : (!s.data.isEmpty && s.data.all (fun c => !isPySpace c)) = true) :
    WFtok s := by
  rw [Bool.and_eq_true] at h
  obtain ⟨h1, h2⟩ := h
  refine ⟨?_, ?_⟩
  · intro hc
    rw [Bool.not_eq_true'] at h1
    simp [List.isEmpty_iff] at h1
    exact h1 hc
  · intro c hc
    have := List.all_eq_true.mp h2 c hc
    simpa using this

theorem wftok_append {a b : String} (ha : WFtok a) (hb : WFtok b) :
    WFtok (a ++ b) := by
  refine ⟨?_, ?_⟩
  · simp only [String.data_append]
    intro hc
    exact ha.1 (List.append_eq_nil.mp hc).1
  · intro c hc
    simp only [String.data_append] at hc
    rcases List.mem_append.mp hc with hc | hc
    · exact ha.2 c hc
    · exact hb.2 c hc

theorem presE_getUniqueIfLabel :
    PresE CompilationEngine.getUniqueIfLabel (fun l => WFtok l) := by
  intro st a st2 hInv heq
  cases heq
  obtain ⟨h1, h2, h3, h4, h5, h6, h7⟩ := hInv
  refine ⟨⟨h1, h2, h3, h4, h5, h6, h7⟩, ?_, "", by simp⟩
  exact wftok_append (wftok_append (wftok_append (wftok_append
    (pyStrOf_wf h3) (wftok_of_check (by decide))) (pyStrOf_wf h4))
    (wftok_of_check (by decide)))
    (natToString_wf st.currentIndexIf)

theorem presE_getUniqueWhileLabel :
    PresE CompilationEngine.getUniqueWhileLabel (fun l => WFtok l) := by
  intro st a st2 hInv heq
  cases heq
  obtain ⟨h1, h2, h3, h4, h5, h6, h7⟩ := hInv
  refine ⟨⟨h1, h2, h3, h4, h5, h6, h7⟩, ?_, "", by simp⟩
  exact wftok_append (wftok_append (wftok_append (wftok_append
    (pyStrOf_wf h3) (wftok_of_check (by decide))) (pyStrOf_wf h4))
    (wftok_of_check (by decide)))
    (natToString_wf st.currentIndexWhile)

theorem presE_getField_true {α : Type} (f : CompilationEngine.EngineState → α) :
    PresE (CompilationEngine.getField f) (fun _ => True) := by
  intro st a st2 hInv heq
  cases heq
  exact ⟨hInv, trivial, "", by simp⟩

theorem presE_getField_currentClass :
    PresE (CompilationEngine.getField (·.currentClass)) WFopt := by
  intro st a st2 hInv heq
  cases heq
  exact ⟨hInv, hInv.2.2.1, "", by simp⟩

theorem presE_getField_subName :
    PresE (CompilationEngine.getField (·.currentSubroutineName)) WFopt := by
  intro st a st2 hInv heq
  cases heq
  exact ⟨hInv, hInv.2.2.2.1, "", by simp⟩

theorem presE_getField_subReturnType :
    PresE (CompilationEngine.getField (·.currentSubroutineReturnType)) WFopt := by
  intro st a st2 hInv heq
  cases heq
  exact ⟨hInv, hInv.2.2.2.2.1, "", by simp⟩

theorem add_row_rowsWF {t t2 : SymbolTableMod.SingleTable} {r : SymbolTableMod.Row}
    (h : t.add_row r = .ok t2) (hw : RowsWF t) (hr : WFopt r.identifierType) :
    RowsWF t2 := by
  unfold SymbolTableMod.SingleTable.add_row at h
  split at h
  · cases h
  · split at h
    · cases h
      intro q hq
      rcases List.mem_append.mp hq with hq | hq
      · exact hw q hq
      · simp at hq
        subst hq
        exact hr
    · split at h
      · cases h
        intro q hq
        rcases List.mem_append.mp hq with hq | hq
        · exact hw q hq
        · simp at hq
          subst hq
          exact hr
      · split at h
        · cases h
          intro q hq
          rcases List.mem_append.mp hq with hq | hq
          · exact hw q hq
          · simp at hq
            subst hq
            exact hr
        · split at h
          · cases h
            intro q hq
            rcases List.mem_append.mp hq with hq | hq
            · exact hw q hq
            · simp at hq
              subst hq
              exact hr
          · cases h

theorem presE_addVar (n ty k : Option String) (u : String) (b : Bool)
    (hty : WFopt ty) :
    PresE (CompilationEngine.addVarToSymbolTable n ty k u b) (fun _ => True) := by
  intro st a st2 hInv heq
  unfold CompilationEngine.addVarToSymbolTable at heq
  dsimp only at heq
  obtain ⟨h1, h2, h3, h4, h5, h6, h7⟩ := hInv
  split at heq
  · split at heq
    · rename_i t2 hadd
      cases heq
      exact ⟨⟨h1, h2, h3, h4, h5, add_row_rowsWF hadd h6 hty, h7⟩,
        trivial, "", by simp⟩
    · cases heq
  · split at heq
    · rename_i t2 hadd
      cases heq
      exact ⟨⟨h1, h2, h3, h4, h5, h6, add_row_rowsWF hadd h7 hty⟩,
        trivial, "", by simp⟩
    · cases heq

/-! ### Preservation: writer calls as engine actions -/

theorem presE_liftW_push (seg : Option String) (i : PyScalar) (hi : PyScalarOk i) :
    PresE (CompilationEngine.liftW (VMWriter.write_push_command seg i))
      (fun _ => True) :=
  presE_liftW (fun _ _ h ho => wPush_ok h ho hi)

theorem presE_liftW_pop (seg : Option String) (i : PyScalar) (hi : PyScalarOk i) :
    PresE (CompilationEngine.liftW (VMWriter.write_pop_command seg i))
      (fun _ => True) :=
  presE_liftW (fun _ _ h ho => wPop_ok h ho hi)

theorem presE_liftW_writeOp (op : Option String) :
    PresE (CompilationEngine.liftW (VMWriter.write_op op)) (fun _ => True) :=
  presE_liftW (fun _ _ h ho => wOp_ok h ho)

theorem presE_liftW_unary (op : Option String) :
    PresE (CompilationEngine.liftW (VMWriter.write_unary_op op)) (fun _ => True) :=
  presE_liftW (fun _ _ h ho => wUnary_ok h ho)

theorem presE_liftW_voidReturn :
    PresE (CompilationEngine.liftW VMWriter.write_void_return) (fun _ => True) :=
  presE_liftW (fun _ _ h ho => wVoidReturn_ok h ho)

theorem presE_liftW_constant (ty tok : Option String) (htok : WFopt tok) :
    PresE (CompilationEngine.liftW
      (VMWriter.write_constant_int_string_keyword ty tok)) (fun _ => True) :=
  presE_liftW (fun _ _ h ho => wConstant_ok h ho htok)

theorem presE_emit_arith (cmd : String) (hc : isArithOpcode cmd = true) :
    PresE (CompilationEngine.emitW (VMWriter.write_arithmetic_command cmd))
      (fun _ => True) :=
  presE_emitW (fun _ ho => wArith_ok ho hc)

theorem presE_emit_label (l : String) (hl : isArgText l = true) :
    PresE (CompilationEngine.emitW (VMWriter.write_label_command l))
      (fun _ => True) :=
  presE_emitW (fun _ ho => wLabel_ok ho hl)

theorem presE_emit_goto (l : String) (hl : isArgText l = true) :
    PresE (CompilationEngine.emitW (VMWriter.write_goto_command l))
      (fun _ => True) :=
  presE_emitW (fun _ ho => wGoto_ok ho hl)

theorem presE_emit_if (l : String) (hl : isArgText l = true) :
    PresE (CompilationEngine.emitW (VMWriter.write_if_command l))
      (fun _ => True) :=
  presE_emitW (fun _ ho => wIf_ok ho hl)

theorem presE_emit_call (name : String) (i : PyScalar)
    (hn : isArgText name = true) (hi : PyScalarOk i) :
    PresE (CompilationEngine.emitW (VMWriter.write_call_command name i))
      (fun _ => True) :=
  presE_emitW (fun _ ho => wCall_ok ho hn hi)

theorem presE_emit_function (name : String) (i : PyScalar)
    (hn : isArgText name = true) (hi : PyScalarOk i) :
    PresE (CompilationEngine.emitW (VMWriter.write_function_command name i))
      (fun _ => True) :=
  presE_emitW (fun _ ho => wFunction_ok ho hn hi)

theorem presE_emit_comment (text : String) (ht : NoNl text) :
    PresE (CompilationEngine.emitW (VMWriter.write_comment text))
      (fun _ => True) :=
  presE_emitW (fun _ ho => wComment_ok ho ht)

theorem presE_emit_return :
    PresE (CompilationEngine.emitW VMWriter.write_return_command)
      (fun _ => True) :=
  presE_emitW (fun _ ho => wReturn_ok ho)

/-- A dotted target name built from two well-formed optional strings is
a valid instruction field. -/
theorem argOk_dotted {a b : Option String} (ha : WFopt a) (hb : WFopt b) :
    isArgText (pyStrOf a ++ "." ++ pyStrOf b) = true :=
  wftok_isArgText (wftok_append (wftok_append (pyStrOf_wf ha)
    (wftok_of_check (by decide))) (pyStrOf_wf hb))


theorem pyOfOptNat_ok (o : Option Nat) : PyScalarOk (pyOfOptNat o) := by
  cases o <;> trivial

/-- Every recursive-descent method preserves the engine invariant and
only appends to the output, provided the (one fuel step smaller)
recursive calls do. -/
theorem engineStep_pres
    (recC : CompilationEngine.EngineCall → CompilationEngine.EngM Unit)
    (ih : ∀ c, CallOk c → PresE (recC c) (fun _ => True)) :
    ∀ c, CallOk c → PresE (CompilationEngine.engineStep recC c) (fun _ => True) := by
  intro c hok
  cases c with
  | classC =>
    unfold CompilationEngine.engineStep
    refine presE_bind (presE_validateToken _ _) (fun _ _ => ?_)
    refine presE_bind presE_setCurrentClass (fun _ _ => ?_)
    refine presE_bind (presE_validateType _ _) (fun _ _ => ?_)
    refine presE_bind (presE_validateToken _ _) (fun _ _ => ?_)
    refine presE_bind (ih .classVarDecsLoop trivial) (fun _ _ => ?_)
    refine presE_bind (ih .subroutinesLoop trivial) (fun _ _ => ?_)
    refine presE_bind presE_curTok (fun c2 _ => ?_)
    exact presE_ite (presE_pure trivial) presE_throw
  | classVarDecsLoop =>
    unfold CompilationEngine.engineStep
    refine presE_bind presE_curTok (fun c2 _ => ?_)
    refine presE_ite (presE_pure trivial) ?_
    refine presE_bind (presE_ite (ih .classVarDec trivial) (presE_pure trivial))
      (fun _ _ => ?_)
    exact ih .classVarDecsLoop trivial
  | subroutinesLoop =>
    unfold CompilationEngine.engineStep
    refine presE_bind presE_curTok (fun c2 _ => ?_)
    refine presE_ite (presE_pure trivial) ?_
    refine presE_bind (presE_ite (ih .subroutine trivial) (presE_pure trivial))
      (fun _ _ => ?_)
    exact ih .subroutinesLoop trivial
  | classVarDec =>
    unfold CompilationEngine.engineStep
    refine presE_bind presE_curTok (fun k _ => ?_)
    refine presE_bind presE_tokNext (fun _ _ => ?_)
    exact ih (.varList k true) trivial
  | subroutine =>
    unfold CompilationEngine.engineStep
    refine presE_bind presE_reset (fun _ _ => ?_)
    refine presE_bind presE_setCurrentSubroutineType (fun _ _ => ?_)
    refine presE_bind (presE_getField_true _) (fun t _ => ?_)
    refine presE_bind (presE_ite
      (presE_bind presE_getField_currentClass
        (fun cls hcls => presE_addVar _ _ _ _ _ hcls))
      (presE_pure trivial)) (fun _ (_ : True) => ?_)
    refine presE_bind presE_tokNext (fun _ _ => ?_)
    refine presE_bind presE_setCurrentSubroutineReturnType (fun _ _ => ?_)
    refine presE_bind (presE_validateType _ _) (fun _ _ => ?_)
    refine presE_bind presE_setCurrentSubroutineName (fun _ _ => ?_)
    refine presE_bind presE_getField_subName (fun n hn => ?_)
    refine presE_bind presE_getField_subReturnType (fun r hr => ?_)
    refine presE_bind (presE_emit_comment _
      (noNl_append (noNl_append (wftok_noNl (pyStrOf_wf hn))
        (noNl_of_all (by decide))) (wftok_noNl (pyStrOf_wf hr))))
      (fun _ _ => ?_)
    refine presE_bind (presE_validateType _ _) (fun _ _ => ?_)
    refine presE_bind (presE_validateToken _ _) (fun _ _ => ?_)
    refine presE_bind (ih .parameterList trivial) (fun _ _ => ?_)
    refine presE_bind (presE_validateToken _ _) (fun _ _ => ?_)
    refine presE_bind presE_curTok (fun c2 _ => ?_)
    exact presE_ite (ih .subroutineBody trivial) presE_throw
  | parameterList =>
    unfold CompilationEngine.engineStep
    refine presE_bind presE_curTok (fun c2 _ => ?_)
    refine presE_ite (presE_pure trivial) ?_
    refine presE_ite
      (presE_bind (presE_validateToken _ _)
        (fun _ _ => ih .parameterList trivial)) ?_
    refine presE_bind presE_curTok (fun vt hvt => ?_)
    refine presE_bind (presE_validateType _ _) (fun _ _ => ?_)
    refine presE_bind presE_curTok (fun vn _ => ?_)
    refine presE_bind (presE_validateType _ _) (fun _ _ => ?_)
    refine presE_bind (presE_addVar _ _ _ _ _ hvt) (fun _ _ => ?_)
    exact ih .parameterList trivial
  | subroutineBody =>
    unfold CompilationEngine.engineStep
    refine presE_bind presE_tokNext (fun _ _ => ?_)
    refine presE_bind (ih .bodyVarDecsLoop trivial) (fun _ _ => ?_)
    refine presE_bind presE_getField_currentClass (fun cls hcls => ?_)
    refine presE_bind presE_getField_subName (fun n hn => ?_)
    refine presE_bind (presE_getField_true _) (fun locals _ => ?_)
    refine presE_bind (presE_emit_function _ _
      (argOk_dotted hcls hn) (pyOfOptNat_ok _)) (fun _ _ => ?_)
    refine presE_bind (presE_getField_true _) (fun t _ => ?_)
    refine presE_bind (presE_ite
      (presE_bind (presE_liftW_push _ _ trivial)
        (fun _ _ => presE_liftW_pop _ _ trivial))
      (presE_ite
        (presE_bind presE_symNumClassFields (fun k _ =>
          presE_bind (presE_liftW_push _ _ trivial) (fun _ _ =>
            presE_bind (presE_emit_call _ _ (by decide) trivial)
              (fun _ _ => presE_liftW_pop _ _ trivial))))
        (presE_pure trivial))) (fun _ _ => ?_)
    refine presE_bind (ih .bodyStatementsLoop trivial) (fun _ _ => ?_)
    exact presE_tokNext
  | bodyVarDecsLoop =>
    unfold CompilationEngine.engineStep
    refine presE_bind presE_curTok (fun c2 _ => ?_)
    refine presE_ite (presE_pure trivial) ?_
    refine presE_bind (ih .subroutineVarDec trivial) (fun _ _ => ?_)
    exact ih .bodyVarDecsLoop trivial
  | bodyStatementsLoop =>
    unfold CompilationEngine.engineStep
    refine presE_bind presE_curTok (fun c2 _ => ?_)
    refine presE_ite (presE_pure trivial) ?_
    refine presE_bind (ih .statements trivial) (fun _ _ => ?_)
    exact ih .bodyStatementsLoop trivial
  | subroutineVarDec =>
    unfold CompilationEngine.engineStep
    refine presE_bind presE_tokNext (fun _ _ => ?_)
    exact ih (.varList (Option.some SymbolTableMod.LOCAL_KIND) false) trivial
  | statements =>
    unfold CompilationEngine.engineStep
    refine presE_bind presE_curTok (fun c2 _ => ?_)
    refine presE_ite (presE_pure trivial) ?_
    refine presE_bind (presE_ite (ih .doStatement trivial)
      (presE_ite (ih .letStatement trivial)
        (presE_ite (ih .whileStatement trivial)
          (presE_ite (ih .returnStatement trivial)
            (presE_ite (ih .ifStatement trivial) presE_throw)))))
      (fun _ _ => ?_)
    exact ih .statements trivial
  | doStatement =>
    unfold CompilationEngine.engineStep
    refine presE_bind presE_tokNext (fun _ _ => ?_)
    refine presE_bind (ih .subroutineCall trivial) (fun _ _ => ?_)
    refine presE_bind (presE_validateToken _ _) (fun _ _ => ?_)
    exact presE_liftW_pop _ _ trivial
  | letStatement =>
    unfold CompilationEngine.engineStep
    dsimp only
    refine presE_bind presE_tokNext (fun _ _ => ?_)
    refine presE_bind presE_curTok (fun target _ => ?_)
    refine presE_bind (presE_validateType _ _) (fun _ _ => ?_)
    refine presE_bind presE_curTok (fun c2 _ => ?_)
    refine presE_ite ?_ ?_
    · refine presE_bind presE_tokNext (fun _ _ => ?_)
      refine presE_bind (ih (.expression ["]"]) trivial) (fun _ _ => ?_)
      refine presE_bind (presE_validateToken _ _) (fun _ _ => ?_)
      refine presE_bind (presE_symGetKind _) (fun k _ => ?_)
      refine presE_bind (presE_symGetIndex _) (fun i _ => ?_)
      refine presE_bind (presE_liftW_push k (pyOfOptNat i) (pyOfOptNat_ok _))
        (fun _ _ => ?_)
      refine presE_bind (presE_emit_arith "add" (by decide)) (fun _ _ => ?_)
      refine presE_bind (presE_liftW_pop (Option.some VMWriter.TEMP_SEGMENT)
        (.int 1) trivial) (fun _ _ => ?_)
      refine presE_bind (presE_pureT true) (fun isArray _ => ?_)
      refine presE_bind (presE_validateToken _ _) (fun _ _ => ?_)
      refine presE_bind (ih (.expression [";"]) trivial) (fun _ _ => ?_)
      refine presE_bind (presE_validateToken _ _) (fun _ _ => ?_)
      exact presE_ite
        (presE_bind (presE_liftW_push (Option.some VMWriter.TEMP_SEGMENT)
            (.int 1) trivial) (fun _ _ =>
          presE_bind (presE_liftW_pop (Option.some VMWriter.POINTER_SEGMENT)
              (.int 1) trivial) (fun _ _ =>
            presE_liftW_pop (Option.some VMWriter.THAT_SEGMENT)
              (.int 0) trivial)))
        (presE_bind (presE_symGetKind _) (fun k2 _ =>
          presE_bind (presE_symGetIndex _) (fun i2 _ =>
            presE_liftW_pop k2 (pyOfOptNat i2) (pyOfOptNat_ok _))))
    · refine presE_bind (presE_pureT false) (fun isArray _ => ?_)
      refine presE_bind (presE_validateToken _ _) (fun _ _ => ?_)
      refine presE_bind (ih (.expression [";"]) trivial) (fun _ _ => ?_)
      refine presE_bind (presE_validateToken _ _) (fun _ _ => ?_)
      exact presE_ite
        (presE_bind (presE_liftW_push (Option.some VMWriter.TEMP_SEGMENT)
            (.int 1) trivial) (fun _ _ =>
          presE_bind (presE_liftW_pop (Option.some VMWriter.POINTER_SEGMENT)
              (.int 1) trivial) (fun _ _ =>
            presE_liftW_pop (Option.some VMWriter.THAT_SEGMENT)
              (.int 0) trivial)))
        (presE_bind (presE_symGetKind _) (fun k2 _ =>
          presE_bind (presE_symGetIndex _) (fun i2 _ =>
            presE_liftW_pop k2 (pyOfOptNat i2) (pyOfOptNat_ok _))))
  | whileStatement =>
    unfold CompilationEngine.engineStep
    refine presE_bind presE_getUniqueWhileLabel (fun l1 hl1 => ?_)
    refine presE_bind presE_getUniqueWhileLabel (fun l2 hl2 => ?_)
    refine presE_bind presE_tokNext (fun _ _ => ?_)
    refine presE_bind (presE_emit_label _ (wftok_isArgText hl1)) (fun _ _ => ?_)
    refine presE_bind (presE_validateToken _ _) (fun _ _ => ?_)
    refine presE_bind (ih (.expression [")"]) trivial) (fun _ _ => ?_)
    refine presE_bind (presE_validateToken _ _) (fun _ _ => ?_)
    refine presE_bind (presE_emit_arith _ (by decide)) (fun _ _ => ?_)
    refine presE_bind (presE_emit_if _ (wftok_isArgText hl2)) (fun _ _ => ?_)
    refine presE_bind (presE_validateToken _ _) (fun _ _ => ?_)
    refine presE_bind (ih .statements trivial) (fun _ _ => ?_)
    refine presE_bind presE_tokNext (fun _ _ => ?_)
    refine presE_bind (presE_emit_goto _ (wftok_isArgText hl1)) (fun _ _ => ?_)
    exact presE_emit_label _ (wftok_isArgText hl2)
  | returnStatement =>
    unfold CompilationEngine.engineStep
    refine presE_bind presE_tokNext (fun _ _ => ?_)
    refine presE_bind presE_curTok (fun c2 _ => ?_)
    refine presE_bind (presE_ite (ih (.expression [";"]) trivial)
      (presE_pure trivial)) (fun _ _ => ?_)
    refine presE_bind (presE_validateToken _ _) (fun _ _ => ?_)
    refine presE_bind (presE_getField_true _) (fun rt _ => ?_)
    exact presE_ite presE_liftW_voidReturn presE_emit_return
  | ifStatement =>
    unfold CompilationEngine.engineStep
    refine presE_bind presE_getUniqueIfLabel (fun l1 hl1 => ?_)
    refine presE_bind presE_getUniqueIfLabel (fun l2 hl2 => ?_)
    refine presE_bind presE_tokNext (fun _ _ => ?_)
    refine presE_bind (presE_validateToken _ _) (fun _ _ => ?_)
    refine presE_bind (ih (.expression [")"]) trivial) (fun _ _ => ?_)
    refine presE_bind (presE_validateToken _ _) (fun _ _ => ?_)
    refine presE_bind (presE_emit_arith _ (by decide)) (fun _ _ => ?_)
    refine presE_bind (presE_emit_if _ (wftok_isArgText hl1)) (fun _ _ => ?_)
    refine presE_bind (presE_validateToken _ _) (fun _ _ => ?_)
    refine presE_bind (ih .statements trivial) (fun _ _ => ?_)
    refine presE_bind presE_tokNext (fun _ _ => ?_)
    refine presE_bind (presE_emit_goto _ (wftok_isArgText hl2)) (fun _ _ => ?_)
    refine presE_bind (presE_emit_label _ (wftok_isArgText hl1)) (fun _ _ => ?_)
    refine presE_bind presE_curTok (fun c2 _ => ?_)
    refine presE_bind (presE_ite
      (presE_bind presE_tokNext (fun _ _ =>
        presE_bind (presE_validateToken _ _) (fun _ _ =>
          presE_bind (ih .statements trivial) (fun _ _ => presE_tokNext))))
      (presE_pure trivial)) (fun _ _ => ?_)
    exact presE_emit_label _ (wftok_isArgText hl2)
  | expressionList =>
    unfold CompilationEngine.engineStep
    refine presE_bind presE_curTok (fun c2 _ => ?_)
    refine presE_ite (presE_pure trivial) ?_
    refine presE_ite
      (presE_bind (presE_validateToken _ _)
        (fun _ _ => ih .expressionList trivial)) ?_
    refine presE_bind presE_incArgs (fun _ _ => ?_)
    refine presE_bind (ih (.expression [",", ")"]) trivial) (fun _ _ => ?_)
    exact ih .expressionList trivial
  | expression stopChars =>
    unfold CompilationEngine.engineStep
    intro st a st2 hInv heq
    dsimp only at heq
    split at heq
    · exact presE_bind (ih .term trivial)
        (fun _ _ => ih (.exprOpsLoop stopChars) trivial) st a st2 hInv heq
    · cases heq
      exact ⟨hInv, trivial, "", by simp⟩
  | exprOpsLoop stopChars =>
    unfold CompilationEngine.engineStep
    refine presE_bind presE_curTok (fun c2 _ => ?_)
    refine presE_ite (presE_pure trivial) ?_
    refine presE_bind presE_curTok (fun op _ => ?_)
    refine presE_bind (presE_validateToken _ _) (fun _ _ => ?_)
    refine presE_bind (ih .term trivial) (fun _ _ => ?_)
    refine presE_bind (presE_liftW_writeOp _) (fun _ _ => ?_)
    exact ih (.exprOpsLoop stopChars) trivial
  | term =>
    unfold CompilationEngine.engineStep
    refine presE_bind presE_curType (fun ty _ => ?_)
    refine presE_bind presE_curTok (fun c2 hc2 => ?_)
    refine presE_ite
      (presE_bind (presE_liftW_constant _ _ hc2) (fun _ _ => presE_tokNext)) ?_
    refine presE_ite
      (presE_bind presE_tokNext (fun _ _ =>
        presE_bind (ih .term trivial) (fun _ _ => presE_liftW_unary _))) ?_
    refine presE_ite
      (presE_bind presE_tokNext (fun _ _ =>
        presE_bind (ih (.expression [")"]) trivial)
          (fun _ _ => presE_tokNext))) ?_
    refine presE_bind (presE_ite presE_throw (presE_pureT ())) (fun _ _ => ?_)
    refine presE_bind presE_lookAhead (fun la _ => ?_)
    refine presE_ite (ih .subroutineCall trivial) ?_
    refine presE_ite
      (presE_bind presE_curTok (fun target _ =>
        presE_bind (presE_validateType _ _) (fun _ _ =>
          presE_bind presE_tokNext (fun _ _ =>
            presE_bind (ih (.expression ["]"]) trivial) (fun _ _ =>
              presE_bind presE_tokNext (fun _ _ =>
                presE_bind (presE_symGetKind _) (fun k _ =>
                  presE_bind (presE_symGetIndex _) (fun i _ =>
                    presE_bind (presE_liftW_push _ _ (pyOfOptNat_ok _)) (fun _ _ =>
                      presE_bind (presE_emit_arith _ (by decide)) (fun _ _ =>
                        presE_bind (presE_liftW_pop _ _ trivial)
                          (fun _ _ => presE_liftW_push _ _ trivial))))))))))) ?_
    refine presE_bind presE_curTok (fun v _ => ?_)
    refine presE_bind (presE_symGetKind _) (fun k _ => ?_)
    refine presE_bind (presE_symGetIndex _) (fun i _ => ?_)
    refine presE_bind (presE_liftW_push _ _ (pyOfOptNat_ok _)) (fun _ _ => ?_)
    exact presE_validateType _ _
  | varList varKind isClassVar =>
    unfold CompilationEngine.engineStep
    refine presE_bind presE_curTok (fun vt hvt => ?_)
    refine presE_bind (presE_validateType _ _) (fun _ _ => ?_)
    refine presE_bind presE_curTok (fun n _ => ?_)
    refine presE_bind (presE_addVar _ _ _ _ _ hvt) (fun _ _ => ?_)
    refine presE_bind (presE_validateType _ _) (fun _ _ => ?_)
    refine presE_bind (presE_ite (presE_pure trivial) presE_incNLocals)
      (fun _ _ => ?_)
    refine presE_bind (ih (.varListLoop vt varKind isClassVar) hvt)
      (fun _ _ => ?_)
    exact presE_tokNext
  | varListLoop varType varKind isClassVar =>
    unfold CompilationEngine.engineStep
    refine presE_bind presE_curTok (fun c2 _ => ?_)
    refine presE_ite (presE_pure trivial) ?_
    refine presE_ite
      (presE_bind (presE_validateToken _ _)
        (fun _ _ => ih (.varListLoop varType varKind isClassVar) hok)) ?_
    refine presE_bind presE_curType (fun ty _ => ?_)
    refine presE_ite ?_ presE_throw
    refine presE_bind presE_curTok (fun n _ => ?_)
    refine presE_bind (presE_addVar _ _ _ _ _ hok) (fun _ _ => ?_)
    refine presE_bind (presE_validateType _ _) (fun _ _ => ?_)
    refine presE_bind (presE_ite (presE_pure trivial) presE_incNLocals)
      (fun _ _ => ?_)
    exact ih (.varListLoop varType varKind isClassVar) hok
  | subroutineCall =>
    unfold CompilationEngine.engineStep
    dsimp only
    refine presE_bind presE_setArgsZero (fun _ _ => ?_)
    refine presE_bind presE_curTok (fun n1 hn1 => ?_)
    refine presE_bind (presE_validateType _ _) (fun _ _ => ?_)
    refine presE_bind presE_curTok (fun c2 _ => ?_)
    refine presE_ite ?_ ?_
    · refine presE_bind presE_tokNext (fun _ _ => ?_)
      refine presE_bind presE_curTok (fun n2 hn2 => ?_)
      refine presE_bind (presE_symContains _) (fun contains _ => ?_)
      refine presE_ite ?_ ?_
      · refine presE_bind (presE_symGetKind _) (fun k _ => ?_)
        refine presE_bind (presE_symGetIndex _) (fun i _ => ?_)
        refine presE_bind (presE_liftW_push k (pyOfOptNat i)
          (pyOfOptNat_ok _)) (fun _ _ => ?_)
        refine presE_bind presE_incArgs (fun _ _ => ?_)
        refine presE_bind (presE_symGetType _) (fun t ht => ?_)
        refine presE_bind presE_curTok (fun n2b hn2b => ?_)
        refine presE_bind (presE_pureArg _ (argOk_dotted ht hn2b))
          (fun y hy => ?_)
        refine presE_bind (presE_validateType _ _) (fun _ _ => ?_)
        refine presE_bind (presE_pureArg _ hy) (fun nm hnm => ?_)
        refine presE_bind (presE_validateToken _ _) (fun _ _ => ?_)
        refine presE_bind (ih .expressionList trivial) (fun _ _ => ?_)
        refine presE_bind (presE_getField_true _) (fun args _ => ?_)
        refine presE_bind (presE_emit_call _ _ hnm (pyOfOptNat_ok _))
          (fun _ _ => ?_)
        exact presE_tokNext
      · refine presE_bind (presE_pureArg _ (argOk_dotted hn1 hn2))
          (fun y hy => ?_)
        refine presE_bind (presE_validateType _ _) (fun _ _ => ?_)
        refine presE_bind (presE_pureArg _ hy) (fun nm hnm => ?_)
        refine presE_bind (presE_validateToken _ _) (fun _ _ => ?_)
        refine presE_bind (ih .expressionList trivial) (fun _ _ => ?_)
        refine presE_bind (presE_getField_true _) (fun args _ => ?_)
        refine presE_bind (presE_emit_call _ _ hnm (pyOfOptNat_ok _))
          (fun _ _ => ?_)
        exact presE_tokNext
    · refine presE_bind presE_getField_currentClass (fun cls hcls => ?_)
      refine presE_bind (presE_liftW_push
        (Option.some VMWriter.POINTER_SEGMENT) (.int 0) trivial)
        (fun _ _ => ?_)
      refine presE_bind presE_incArgs (fun _ _ => ?_)
      refine presE_bind (presE_pureArg _ (argOk_dotted hcls hn1))
        (fun nm hnm => ?_)
      refine presE_bind (presE_validateToken _ _) (fun _ _ => ?_)
      refine presE_bind (ih .expressionList trivial) (fun _ _ => ?_)
      refine presE_bind (presE_getField_true _) (fun args _ => ?_)
      refine presE_bind (presE_emit_call _ _ hnm (pyOfOptNat_ok _))
        (fun _ _ => ?_)
      exact presE_tokNext

/-- Iterating the step functional preserves the engine invariant, by
induction on the fuel (zero fuel raises, vacuously preserving). -/
theorem engineRun_pres (fuel : Nat) :
    ∀ c, CallOk c → PresE (CompilationEngine.engineRun fuel c) (fun _ => True) := by
  induction fuel with
  | zero => intro c _; exact presE_throw
  | succ n ihn => exact engineStep_pres (CompilationEngine.engineRun n) ihn

/-! ### Well-formedness of the lexer pipeline -/

theorem wftok_mk {l : List Char} (hne : l ≠ [])
    (h : ∀ c ∈ l, isPySpace c = false) : WFtok (String.mk l) := ⟨hne, h⟩

/-- Every word of the whitespace split is nonempty and whitespace-free. -/
theorem splitWsGo_wf : ∀ (fuel : Nat) (cs : List Char),
    ∀ w ∈ Tokenizer.splitWsGo fuel cs, WFtok w := by
  intro fuel
  induction fuel with
  | zero => intro cs w hw; cases cs <;> simp [Tokenizer.splitWsGo] at hw
  | succ n ihn =>
    intro cs w hw
    cases cs with
    | nil => simp [Tokenizer.splitWsGo] at hw
    | cons c cs =>
      unfold Tokenizer.splitWsGo at hw
      by_cases hc : isPySpace c = true
      · rw [if_pos hc] at hw
        exact ihn _ w hw
      · rw [if_neg hc] at hw
        rcases List.mem_cons.mp hw with rfl | hmem
        · refine wftok_mk (by simp) ?_
          intro d hd
          rcases List.mem_cons.mp hd with rfl | hd2
          · exact Bool.not_eq_true _ ▸ hc
          · have := List.mem_takeWhile_imp hd2
            simpa using this
        · exact ihn _ w hmem

/-- Every `(token, type)` pair stored by `_tag_tokens` carries a
well-formed lexeme, provided the input words are well-formed (the only
tokens stored that are not input words are the XML escapes). -/
theorem tagTokens_wf : ∀ (toks lits : List String) (l : List (String × String)),
    (∀ w ∈ toks, WFtok w) → Tokenizer.tagTokens toks lits = Except.ok l →
    ∀ p ∈ l, WFtok p.1 := by
  intro toks
  induction toks with
  | nil =>
    intro lits l _ h p hp
    unfold Tokenizer.tagTokens at h
    cases h
    simp at hp
  | cons tok rest ih =>
    intro lits l hw h p hp
    have hwtok : WFtok tok := hw tok (by simp)
    have hwrest : ∀ w ∈ rest, WFtok w := fun w hm => hw w (by simp [hm])
    have step : ∀ (lits' : List String) (hd : String × String), WFtok hd.1 →
        (Tokenizer.tagTokens rest lits').map (fun l2 => hd :: l2) = Except.ok l →
        WFtok p.1 := by
      intro lits' hd hhd hmap
      rcases he : Tokenizer.tagTokens rest lits' with e | l2 <;> rw [he] at hmap
      · cases hmap
      · simp only [Except.map] at hmap
        cases hmap
        rcases List.mem_cons.mp hp with rfl | hm
        · exact hhd
        · exact ih lits' l2 hwrest he p hm
    unfold Tokenizer.tagTokens at h
    by_cases h1 : tok ∈ GrammarUtility.KEYWORDS
    · rw [if_pos h1] at h
      exact step lits _ hwtok h
    · rw [if_neg h1] at h
      by_cases h2 : tok ∈ GrammarUtility.SYMBOLS
      · rw [if_pos h2] at h
        dsimp only at h
        refine step lits _ ?_ h
        dsimp only
        split
        · exact wftok_of_check (by decide)
        · split
          · exact wftok_of_check (by decide)
          · split
            · exact wftok_of_check (by decide)
            · exact hwtok
      · rw [if_neg h2] at h
        by_cases h3 : tok = Tokenizer.STRING_LITERAL_SUB
        · rw [if_pos h3] at h
          rcases lits with _ | ⟨lit, lits2⟩
          · cases h
          · dsimp only at h
            exact step lits2 _ hwtok h
        · rw [if_neg h3] at h
          rcases hdata : tok.data with _ | ⟨c0, cs0⟩ <;> rw [hdata] at h <;>
            dsimp only at h
          · cases h
          · by_cases h4 : isPyDigit c0 = true
            · rw [if_pos h4] at h
              rcases h5 : pyInt tok with _ | v <;> rw [h5] at h
              · cases h
              · exact step lits _ hwtok h
            · rw [if_neg h4] at h
              exact step lits _ hwtok h

/-- A freshly constructed tokenizer is well-formed: every stored token
is a whitespace-split word (or an XML escape), and no token is current
yet. -/
theorem tokenizer_init_wf {input : String} {tk : Tokenizer.TokState}
    (h : Tokenizer.init input = Except.ok tk) : TokensWF tk := by
  unfold Tokenizer.init at h
  dsimp only at h
  rcases he : Tokenizer.tagTokens
      (Tokenizer.splitWs (Tokenizer.padOperators
        (Tokenizer.replaceStringLiterals input.data)))
      (Tokenizer.findStringLiterals input.data) with e | l <;> rw [he] at h
  · cases h
  · simp only [Except.map] at h
    cases h
    constructor
    · intro p hp
      exact tagTokens_wf _ _ l (fun w hw => splitWsGo_wf _ _ w hw) he p hp
    · intro p hp
      cases hp

/-- The engine state built by the constructor satisfies the engine
invariant: the output buffer is empty, the tokenizer is fresh (one
`next()` performed), and all other string fields are `None` with empty
symbol tables. -/
theorem initEngine_inv {input : String} {st0 : CompilationEngine.EngineState}
    (h : CompilationEngine.initEngine input = Except.ok st0) : EngineInv st0 := by
  unfold CompilationEngine.initEngine at h
  rcases hi : Tokenizer.init input with e | tk <;> rw [hi] at h
  · cases h
  · dsimp only at h
    rcases hn : Tokenizer.next tk with ⟨v, tk1⟩
    rw [hn] at h
    rcases v with e | pv <;> dsimp only at h
    · cases h
    · split at h
      · cases h
        refine ⟨⟨[], rfl, by simp⟩, ?_, ?_, ?_, ?_, ?_, ?_⟩
        · exact tokenizer_next_wf hn ⟨pv, rfl⟩ (tokenizer_init_wf hi)
        · intro s hs; cases hs
        · intro s hs; cases hs
        · intro s hs; cases hs
        · intro r hr; cases hr
        · intro r hr; cases hr
      · cases h

theorem isSegmentName_noNl {s : String} (h : isSegmentName s = true) : NoNl s := by
  have hm := List.mem_of_elem_eq_true (α := String) h
  simp only [List.mem_cons, List.not_mem_nil, or_false] at hm
  rcases hm with rfl | rfl | rfl | rfl | rfl | rfl | rfl | rfl <;>
    exact noNl_of_all (by decide)

theorem isArgText_noNl {s : String} (h : isArgText s = true) : NoNl s := by
  unfold isArgText at h
  rw [Bool.and_eq_true] at h
  exact noNl_of_all h.2

/-- No well-shaped output line contains a newline (so the writer's
newline-terminated rendering puts exactly one line per physical line). -/
theorem lineOk_noNl {l : String} (h : LineOk l) : ∀ c ∈ l.data, c ≠ '\n' := by
  rcases h with h | h
  · cases h with
    | push seg idx hs hi =>
      exact noNl_append (noNl_append (noNl_append (noNl_of_all (by decide))
        (isSegmentName_noNl hs)) (noNl_of_all (by decide))) (isArgText_noNl hi)
    | pop seg idx hs hi =>
      exact noNl_append (noNl_append (noNl_append (noNl_of_all (by decide))
        (isSegmentName_noNl hs)) (noNl_of_all (by decide))) (isArgText_noNl hi)
    | arith op hop =>
      have hm := List.mem_of_elem_eq_true (α := String) hop
      simp only [List.mem_cons, List.not_mem_nil, or_false] at hm
      rcases hm with rfl | rfl | rfl | rfl | rfl | rfl | rfl | rfl | rfl <;>
        exact noNl_of_all (by decide)
    | label lb hl =>
      exact noNl_append (noNl_of_all (by decide)) (isArgText_noNl hl)
    | goto lb hl =>
      exact noNl_append (noNl_of_all (by decide)) (isArgText_noNl hl)
    | ifgoto lb hl =>
      exact noNl_append (noNl_of_all (by decide)) (isArgText_noNl hl)
    | call f n hf hn =>
      exact noNl_append (noNl_append (noNl_append (noNl_of_all (by decide))
        (isArgText_noNl hf)) (noNl_of_all (by decide))) (isArgText_noNl hn)
    | func f k hf hk =>
      exact noNl_append (noNl_append (noNl_append (noNl_of_all (by decide))
        (isArgText_noNl hf)) (noNl_of_all (by decide))) (isArgText_noNl hk)
    | ret => exact noNl_of_all (by decide)
  · intro c hc heq
    exact h.2 (heq ▸ hc)

theorem string_append_assoc (a b c : String) : a ++ b ++ c = a ++ (b ++ c) :=
  congrArg String.mk (List.append_assoc a.data b.data c.data)

theorem liftW_voidReturn_eq (st : CompilationEngine.EngineState) :
    CompilationEngine.liftW VMWriter.write_void_return st =
      Except.ok ((), { st with output :=
        st.output ++ "push " ++ "constant" ++ " " ++ pyToStr (PyScalar.int 0)
          ++ "\n" ++ "return" ++ "\n" }) := rfl

theorem emitW_return_eq (st : CompilationEngine.EngineState) :
    CompilationEngine.emitW VMWriter.write_return_command st =
      Except.ok ((), { st with output := st.output ++ "return" ++ "\n" }) := rfl

/-- C7 (amended): a successfully compiled return statement appends some
intermediate output (the compiled expression, if one is present) and
then exactly `push constant 0` + `return` when the enclosing
subroutine's declared return type is `void`, and exactly `return`
otherwise — the choice depends only on the declared return type, not on
whether the return carried an expression. -/
theorem c7_amended_push_zero_iff_void (fuel : Nat)
    (st st2 : CompilationEngine.EngineState) (hInv : EngineInv st)
    (h : CompilationEngine.compileReturnStatement fuel st = Except.ok ((), st2)) :
    ∃ mid : String, (∃ t, mid = st.output ++ t) ∧
      st2.output = mid ++
        (if st2.currentSubroutineReturnType == Option.some "void"
          then "push constant 0\nreturn\n" else "return\n") := by
  cases fuel with
  | zero => exact Except.noConfusion h
  | succ n =>
    replace h : CompilationEngine.engineStep (CompilationEngine.engineRun n)
        CompilationEngine.EngineCall.returnStatement st = Except.ok ((), st2) := h
    unfold CompilationEngine.engineStep at h
    dsimp only at h
    rw [CompilationEngine.EngM_bind_eq] at h
    rcases h1 : CompilationEngine.tokNext st with e | ⟨a1, s1⟩ <;> rw [h1] at h <;> dsimp only at h
    · cases h
    obtain ⟨hInv1, -, hx1⟩ := presE_tokNext st a1 s1 hInv h1
    rw [CompilationEngine.EngM_bind_eq] at h
    rcases h2 : CompilationEngine.curTok s1 with e | ⟨c, s2⟩ <;> rw [h2] at h <;> dsimp only at h
    · cases h
    obtain ⟨hInv2, -, hx2⟩ := presE_curTok s1 c s2 hInv1 h2
    rw [CompilationEngine.EngM_bind_eq] at h
    rcases h3 : (if c != Option.some ";"
        then CompilationEngine.engineRun n (.expression [";"])
        else (pure () : CompilationEngine.EngM Unit)) s2
      with e | ⟨a3, s3⟩ <;> rw [h3] at h <;> dsimp only at h
    · cases h
    obtain ⟨hInv3, -, hx3⟩ :=
      presE_ite (engineRun_pres n (.expression [";"]) trivial) (presE_pureT ())
        s2 a3 s3 hInv2 h3
    rw [CompilationEngine.EngM_bind_eq] at h
    rcases h4 : CompilationEngine.validateTokenAndAdvance [";"] ";" s3
      with e | ⟨a4, s4⟩ <;> rw [h4] at h <;> dsimp only at h
    · cases h
    obtain ⟨hInv4, -, hx4⟩ := presE_validateToken [";"] ";" s3 a4 s4 hInv3 h4
    rw [CompilationEngine.EngM_bind_eq] at h
    dsimp only [CompilationEngine.getField] at h
    have hext : ∃ t, s4.output = st.output ++ t :=
      appendExt_trans (appendExt_trans (appendExt_trans hx1 hx2) hx3) hx4
    by_cases hb : (s4.currentSubroutineReturnType == Option.some "void") = true
    · rw [if_pos hb] at h
      rw [liftW_voidReturn_eq] at h
      cases h
      refine ⟨s4.output, hext, ?_⟩
      rw [if_pos hb]
      show s4.output ++ "push " ++ "constant" ++ " " ++ pyToStr (PyScalar.int 0)
        ++ "\n" ++ "return" ++ "\n" = s4.output ++ "push constant 0\nreturn\n"
      simp only [string_append_assoc]
      rfl
    · rw [if_neg hb] at h
      rw [emitW_return_eq] at h
      cases h
      refine ⟨s4.output, hext, ?_⟩
      rw [if_neg hb]
      show s4.output ++ "return" ++ "\n" = s4.output ++ "return\n"
      simp only [string_append_assoc]
      rfl

/-- Witness for C7: a void subroutine context positioned on `return ;`,
run with fuel 1; the appended epilogue is `push constant 0` then
`return`. -/
theorem c7_amended_witness :
    ∃ mid : String, (∃ t, mid = "" ++ t) ∧
      "push constant 0\nreturn\n" = mid ++
        (if (Option.some "void" : Option String) == Option.some "void"
          then "push constant 0\nreturn\n" else "return\n") := by
  refine c7_amended_push_zero_iff_void 1
    (CompilationEngine.EngineState.mk
      (Tokenizer.TokState.mk
        [("return", KEYWORD_TAG), (";", SYMBOL_TAG), ("\x7d", SYMBOL_TAG)]
        (Option.some 0) (Option.some ("return", KEYWORD_TAG)))
      SymbolTableMod.SymbolTable.empty "" 0 0 Option.none Option.none
      Option.none (Option.some "void") Option.none Option.none)
    (CompilationEngine.EngineState.mk
      (Tokenizer.TokState.mk
        [("return", KEYWORD_TAG), (";", SYMBOL_TAG), ("\x7d", SYMBOL_TAG)]
        (Option.some 2) (Option.some ("\x7d", SYMBOL_TAG)))
      SymbolTableMod.SymbolTable.empty "push constant 0\nreturn\n" 0 0
      Option.none Option.none Option.none (Option.some "void") Option.none
      Option.none)
    ?_ (by rfl)
  refine ⟨⟨[], rfl, by simp⟩, ⟨?_, ?_⟩, ?_, ?_, ?_, ?_, ?_⟩
  · intro p hp
    simp only [List.mem_cons, List.not_mem_nil, or_false] at hp
    rcases hp with rfl | rfl | rfl <;> exact wftok_of_check (by decide)
  · intro p hp
    cases hp
    exact wftok_of_check (by decide)
  · intro s hs; cases hs
  · intro s hs; cases hs
  · intro s hs
    cases hs
    exact wftok_of_check (by decide)
  · intro r hr; cases hr
  · intro r hr; cases hr

/-! ### Strict field and line lemmas -/

theorem wftok_isFieldText {s : String} (h : WFtok s) : isFieldText s = true := by
  simp only [isFieldText, Bool.and_eq_true]
  constructor
  · simp [List.isEmpty_iff, h.1]
  · rw [List.all_eq_true]
    intro c hc
    simpa using h.2 c hc

theorem pyToStr_isFieldText {i : PyScalar} (h : PyScalarOk i) :
    isFieldText (pyToStr i) = true := by
  cases i with
  | int n => exact wftok_isFieldText (intToString_wf n)
  | str s => exact wftok_isFieldText h
  | none => decide

theorem isFieldText_wftok {s : String} (h : isFieldText s = true) : WFtok s := by
  simp only [isFieldText, Bool.and_eq_true] at h
  refine ⟨?_, ?_⟩
  · intro hc
    rw [Bool.not_eq_true'] at h
    simp [List.isEmpty_iff] at h
    exact h.1 hc
  · intro c hc
    have := List.all_eq_true.mp h.2 c hc
    simpa using this

theorem argOkS_dotted {a b : Option String} (ha : WFopt a) (hb : WFopt b) :
    isFieldText (pyStrOf a ++ "." ++ pyStrOf b) = true :=
  wftok_isFieldText (wftok_append (wftok_append (pyStrOf_wf ha)
    (wftok_of_check (by decide))) (pyStrOf_wf hb))

theorem cmtTextOk_wftok {t : String} (h : WFtok t) : CmtTextOk t :=
  ⟨h.1, wftok_noNl h, fun c hc => h.2 c (List.mem_of_mem_getLast? hc)⟩

theorem cmtTextOk_append {a b : String} (ha : NoNl a) (hb : CmtTextOk b) :
    CmtTextOk (a ++ b) := by
  obtain ⟨h1, h2, h3⟩ := hb
  refine ⟨?_, noNl_append ha h2, ?_⟩
  · simp only [String.data_append]
    intro hc
    exact h1 (List.append_eq_nil.mp hc).2
  · intro c hc
    rw [String.data_append, List.getLast?_append_of_ne_nil _ h1] at hc
    exact h3 c hc

theorem cmtTextOk_pyStrOf {o : Option String} (h : WFopt o) :
    CmtTextOk (pyStrOf o) := cmtTextOk_wftok (pyStrOf_wf h)

theorem outS_snoc {o line : String} (h : OutS o) (hl : LineOkS line) :
    OutS (o ++ (line ++ "\n")) := by
  obtain ⟨ls, rfl, hall⟩ := h
  refine ⟨ls ++ [line], ?_, ?_⟩
  · rw [List.map_append, string_join_append]
    simp [String.join]
  · intro l hm
    rcases List.mem_append.mp hm with hm | hm
    · exact hall l hm
    · simp at hm
      subst hm
      exact hl

theorem outS_append_line {o o2 line : String} (he : o2 = o ++ (line ++ "\n"))
    (h : OutS o) (hl : LineOkS line) : OutS o2 ∧ ∃ t, o2 = o ++ t :=
  ⟨he ▸ outS_snoc h hl, ⟨line ++ "\n", he⟩⟩

theorem lineOkS_push {seg idx : String} (hs : isSegmentName seg = true)
    (hi : isFieldText idx = true) : LineOkS ("push " ++ seg ++ " " ++ idx) :=
  Or.inl (InstrLineS.push seg idx hs hi)

theorem lineOkS_pop {seg idx : String} (hs : isSegmentName seg = true)
    (hi : isFieldText idx = true) : LineOkS ("pop " ++ seg ++ " " ++ idx) :=
  Or.inl (InstrLineS.pop seg idx hs hi)

theorem lineOkS_comment {t : String} (h : CmtTextOk t) :
    LineOkS ("// " ++ t) := Or.inr ⟨t, rfl, h⟩

/-! ### Strict output preservation of the writer methods -/

theorem wSPush_ok {seg : Option String} {idx : PyScalar} {o o2 : String}
    (h : VMWriter.write_push_command seg idx o = .ok o2) (ho : OutS o)
    (hi : PyScalarOk idx) : OutS o2 ∧ ∃ t, o2 = o ++ t := by
  unfold VMWriter.write_push_command at h
  split at h
  · rename_i s hs
    cases h
    refine outS_append_line ?_ ho
      (lineOkS_push (segment_map_isSegmentName hs) (pyToStr_isFieldText hi))
    simp [String.append_assoc]
  · cases h

theorem wSPop_ok {seg : Option String} {idx : PyScalar} {o o2 : String}
    (h : VMWriter.write_pop_command seg idx o = .ok o2) (ho : OutS o)
    (hi : PyScalarOk idx) : OutS o2 ∧ ∃ t, o2 = o ++ t := by
  unfold VMWriter.write_pop_command at h
  split at h
  · rename_i s hs
    cases h
    refine outS_append_line ?_ ho
      (lineOkS_pop (segment_map_isSegmentName hs) (pyToStr_isFieldText hi))
    simp [String.append_assoc]
  · cases h

theorem wSArith_ok {cmd o : String} (ho : OutS o) (hc : isArithOpcode cmd = true) :
    OutS (VMWriter.write_arithmetic_command cmd o)
    ∧ ∃ t, VMWriter.write_arithmetic_command cmd o = o ++ t := by
  refine outS_append_line ?_ ho (Or.inl (InstrLineS.arith cmd hc))
  unfold VMWriter.write_arithmetic_command
  simp [String.append_assoc]

theorem wSLabel_ok {l o : String} (ho : OutS o) (hl : isFieldText l = true) :
    OutS (VMWriter.write_label_command l o)
    ∧ ∃ t, VMWriter.write_label_command l o = o ++ t := by
  refine outS_append_line ?_ ho (Or.inl (InstrLineS.label l hl))
  unfold VMWriter.write_label_command
  simp [String.append_assoc]

theorem wSGoto_ok {l o : String} (ho : OutS o) (hl : isFieldText l = true) :
    OutS (VMWriter.write_goto_command l o)
    ∧ ∃ t, VMWriter.write_goto_command l o = o ++ t := by
  refine outS_append_line ?_ ho (Or.inl (InstrLineS.goto l hl))
  unfold VMWriter.write_goto_command
  simp [String.append_assoc]

theorem wSIf_ok {l o : String} (ho : OutS o) (hl : isFieldText l = true) :
    OutS (VMWriter.write_if_command l o)
    ∧ ∃ t, VMWriter.write_if_command l o = o ++ t := by
  refine outS_append_line ?_ ho (Or.inl (InstrLineS.ifgoto l hl))
  unfold VMWriter.write_if_command
  simp [String.append_assoc]

theorem wSCall_ok {name o : String} {n : PyScalar} (ho : OutS o)
    (hn : isFieldText name = true) (hi : PyScalarOk n) :
    OutS (VMWriter.write_call_command name n o)
    ∧ ∃ t, VMWriter.write_call_command name n o = o ++ t := by
  refine outS_append_line ?_ ho
    (Or.inl (InstrLineS.call name (pyToStr n) hn (pyToStr_isFieldText hi)))
  unfold VMWriter.write_call_command
  simp [String.append_assoc]

theorem wSFunction_ok {name o : String} {n : PyScalar} (ho : OutS o)
    (hn : isFieldText name = true) (hi : PyScalarOk n) :
    OutS (VMWriter.write_function_command name n o)
    ∧ ∃ t, VMWriter.write_function_command name n o = o ++ t := by
  refine outS_append_line ?_ ho
    (Or.inl (InstrLineS.func name (pyToStr n) hn (pyToStr_isFieldText hi)))
  unfold VMWriter.write_function_command
  simp [String.append_assoc]

theorem wSReturn_ok {o : String} (ho : OutS o) :
    OutS (VMWriter.write_return_command o)
    ∧ ∃ t, VMWriter.write_return_command o = o ++ t := by
  refine outS_append_line ?_ ho (Or.inl InstrLineS.ret)
  unfold VMWriter.write_return_command
  simp [String.append_assoc]

theorem wSComment_ok {text o : String} (ho : OutS o) (ht : CmtTextOk text) :
    OutS (VMWriter.write_comment text o)
    ∧ ∃ t, VMWriter.write_comment text o = o ++ t := by
  refine outS_append_line ?_ ho (lineOkS_comment ht)
  unfold VMWriter.write_comment
  simp [String.append_assoc]

theorem wSVoidReturn_ok {o o2 : String} (h : VMWriter.write_void_return o = .ok o2)
    (ho : OutS o) : OutS o2 ∧ ∃ t, o2 = o ++ t := by
  unfold VMWriter.write_void_return at h
  simp only [bind, Except.bind] at h
  split at h
  · cases h
  · rename_i o1 hp
    cases h
    obtain ⟨h1, h2⟩ := wSPush_ok hp ho trivial
    obtain ⟨h3, h4⟩ := wSReturn_ok h1
    exact ⟨h3, appendExt_trans h2 h4⟩

theorem wSOp_ok {op : Option String} {o o2 : String}
    (h : VMWriter.write_op op o = .ok o2) (ho : OutS o) :
    OutS o2 ∧ ∃ t, o2 = o ++ t := by
  unfold VMWriter.write_op at h
  split at h
  · cases h
    exact wSCall_ok ho (by decide) trivial
  · split at h
    · cases h
      exact wSCall_ok ho (by decide) trivial
    · split at h
      · split at h
        · rename_i a ha
          cases h
          exact wSArith_ok ho (arith_map_isArithOpcode ha)
        · cases h
      · cases h

theorem wSUnary_ok {op : Option String} {o o2 : String}
    (h : VMWriter.write_unary_op op o = .ok o2) (ho : OutS o) :
    OutS o2 ∧ ∃ t, o2 = o ++ t := by
  unfold VMWriter.write_unary_op at h
  split at h
  · cases h
    exact wSArith_ok ho (by decide)
  · split at h
    · cases h
      exact wSArith_ok ho (by decide)
    · cases h

theorem wSAppendChars_ok :
    ∀ (cs : List Char) (o : String), OutS o →
      OutS (VMWriter.write_append_chars cs o)
      ∧ ∃ t, VMWriter.write_append_chars cs o = o ++ t
  | [], o, ho => ⟨ho, "", by simp [VMWriter.write_append_chars]⟩
  | c :: rest, o, ho => by
    show OutS (VMWriter.write_append_chars rest _) ∧ _
    have hline : OutS (o ++ "push " ++ VMWriter.CONSTANT_SEGMENT ++ " "
          ++ toString c.toNat ++ "\n")
        ∧ ∃ t, (o ++ "push " ++ VMWriter.CONSTANT_SEGMENT ++ " "
          ++ toString c.toNat ++ "\n") = o ++ t := by
      refine outS_append_line ?_ ho
        (@lineOkS_push VMWriter.CONSTANT_SEGMENT _ (by decide)
          (wftok_isFieldText (natToString_wf c.toNat)))
      simp [String.append_assoc]
    obtain ⟨h1, h2⟩ := hline
    obtain ⟨h3, h4⟩ := @wSCall_ok "String.appendChar" _ (.int 2) h1
      (by decide) trivial
    obtain ⟨h5, h6⟩ := wSAppendChars_ok rest _ h3
    exact ⟨h5, appendExt_trans (appendExt_trans h2 h4) h6⟩

theorem wSConstant_ok {ty tok : Option String} {o o2 : String}
    (h : VMWriter.write_constant_int_string_keyword ty tok o = .ok o2)
    (ho : OutS o) (htok : WFopt tok) : OutS o2 ∧ ∃ t, o2 = o ++ t := by
  unfold VMWriter.write_constant_int_string_keyword at h
  split at h
  · refine wSPush_ok h ho ?_
    cases tok with
    | none => trivial
    | some t => exact htok t rfl
  · split at h
    · split at h
      · rename_i t
        simp only [bind, Except.bind] at h
        have hwf : WFtok t := htok t rfl
        generalize hc1 : VMWriter.write_comment ("string constant: " ++ t) o = o1 at h
        obtain ⟨g1, g2⟩ : OutS o1 ∧ ∃ u, o1 = o ++ u := by
          rw [← hc1]
          exact wSComment_ok ho (cmtTextOk_append (noNl_of_all (by decide)) (cmtTextOk_wftok hwf))
        split at h
        · cases h
        · rename_i o3 hp
          cases h
          obtain ⟨g3, g4⟩ := wSPush_ok hp g1 trivial
          obtain ⟨g5, g6⟩ := @wSCall_ok "String.new" _ (.int 1) g3
            (by decide) trivial
          obtain ⟨g7, g8⟩ := wSAppendChars_ok t.data _ g5
          exact ⟨g7, appendExt_trans (appendExt_trans (appendExt_trans g2 g4) g6) g8⟩
      · cases h
    · split at h
      · split at h
        · exact wSPush_ok h ho trivial
        · split at h
          · simp only [bind, Except.bind] at h
            split at h
            · cases h
            · rename_i o1 hp
              cases h
              obtain ⟨g1, g2⟩ := wSPush_ok hp ho trivial
              obtain ⟨g3, g4⟩ := @wSArith_ok "neg" _ g1 (by decide)
              exact ⟨g3, appendExt_trans g2 g4⟩
          · split at h
            · exact wSPush_ok h ho trivial
            · cases h
      · cases h


/-! ### Strict preservation: combinators and primitives -/

theorem presS_bind {α β : Type} {m : CompilationEngine.EngM α}
    {k : α → CompilationEngine.EngM β} {Q : α → Prop} {R : β → Prop}
    (hm : PresS m Q) (hk : ∀ a, Q a → PresS (k a) R) : PresS (m >>= k) R := by
  intro st a st2 hInv h
  rw [CompilationEngine.EngM_bind_eq] at h
  rcases hms : m st with e | ⟨b, st1⟩ <;> rw [hms] at h
  · cases h
  · obtain ⟨h1, h2, h3⟩ := hm st b st1 hInv hms
    obtain ⟨h4, h5, h6⟩ := hk b h2 st1 a st2 h1 h
    exact ⟨h4, h5, appendExt_trans h3 h6⟩

theorem presS_pure {α : Type} {Q : α → Prop} {a : α} (h : Q a) :
    PresS (pure a : CompilationEngine.EngM α) Q := by
  intro st b st2 hInv heq
  cases heq
  exact ⟨hInv, h, "", by simp⟩

theorem presS_pureT {α : Type} (a : α) :
    PresS (pure a : CompilationEngine.EngM α) (fun _ => True) :=
  presS_pure trivial

theorem presS_pureArg (s : String) (h : isFieldText s = true) :
    PresS (pure s : CompilationEngine.EngM String)
      (fun r => isFieldText r = true) :=
  presS_pure h

theorem presS_throw {α : Type} {Q : α → Prop} {msg : String} :
    PresS (CompilationEngine.throwE msg : CompilationEngine.EngM α) Q := by
  intro st b st2 hInv heq
  cases heq

theorem presS_ite {α : Type} {Q : α → Prop} {c : Prop} [Decidable c]
    {m1 m2 : CompilationEngine.EngM α} (h1 : PresS m1 Q) (h2 : PresS m2 Q) :
    PresS (if c then m1 else m2) Q := by
  split <;> assumption

theorem presS_weaken {α : Type} {Q R : α → Prop} {m : CompilationEngine.EngM α}
    (h : PresS m Q) (hqr : ∀ a, Q a → R a) : PresS m R := by
  intro st a st2 hInv heq
  obtain ⟨h1, h2, h3⟩ := h st a st2 hInv heq
  exact ⟨h1, hqr a h2, h3⟩

theorem presS_of_outEq {α : Type} {Q : α → Prop} {m : CompilationEngine.EngM α}
    (hP : PresE m Q)
    (hout : ∀ st a st2, m st = Except.ok (a, st2) → st2.output = st.output) :
    PresS m Q := by
  intro st a st2 hInv heq
  obtain ⟨hI2, hq, hext⟩ := hP st a st2 hInv.1 heq
  refine ⟨⟨hI2, ?_⟩, hq, hext⟩
  rw [hout st a st2 heq]
  exact hInv.2

theorem outEq_bind {α β : Type} {m : CompilationEngine.EngM α}
    {k : α → CompilationEngine.EngM β}
    (hm : ∀ st a st2, m st = Except.ok (a, st2) → st2.output = st.output)
    (hk : ∀ a st b st2, k a st = Except.ok (b, st2) → st2.output = st.output) :
    ∀ st b st2, (m >>= k) st = Except.ok (b, st2) → st2.output = st.output := by
  intro st b st2 h
  rw [CompilationEngine.EngM_bind_eq] at h
  rcases hm2 : m st with e | ⟨a, st1⟩ <;> rw [hm2] at h
  · cases h
  · rw [hk a st1 b st2 h, hm st a st1 hm2]

theorem outEq_tokNext : ∀ st a st2,
    CompilationEngine.tokNext st = Except.ok (a, st2) →
    st2.output = st.output := by
  intro st a st2 h
  unfold CompilationEngine.tokNext at h
  split at h
  · cases h; rfl
  · cases h

theorem outEq_curTok : ∀ st a st2,
    CompilationEngine.curTok st = Except.ok (a, st2) →
    st2.output = st.output := by
  intro st a st2 h; cases h; rfl

theorem outEq_curType : ∀ st a st2,
    CompilationEngine.curType st = Except.ok (a, st2) →
    st2.output = st.output := by
  intro st a st2 h; cases h; rfl

theorem outEq_lookAhead : ∀ st a st2,
    CompilationEngine.lookAhead st = Except.ok (a, st2) →
    st2.output = st.output := by
  intro st a st2 h
  unfold CompilationEngine.lookAhead at h
  split at h
  · cases h; rfl
  · cases h

theorem outEq_validateHelper (source : Option String) (target : List String)
    (msg : String) : ∀ st a st2,
    CompilationEngine.validateAndAdvanceHelper source target msg st
        = Except.ok (a, st2) →
    st2.output = st.output := by
  intro st a st2 h
  unfold CompilationEngine.validateAndAdvanceHelper at h
  split at h
  · exact outEq_tokNext st a st2 h
  · cases h

theorem outEq_validateType (target : List String) (msg : String) :
    ∀ st a st2,
    CompilationEngine.validateTypeAndAdvance target msg st = Except.ok (a, st2) →
    st2.output = st.output :=
  outEq_bind outEq_curType (fun ty => outEq_validateHelper ty target msg)

theorem outEq_validateToken (target : List String) (msg : String) :
    ∀ st a st2,
    CompilationEngine.validateTokenAndAdvance target msg st = Except.ok (a, st2) →
    st2.output = st.output :=
  outEq_bind outEq_curTok (fun t => outEq_validateHelper t target msg)

theorem outEq_addVar (n ty k : Option String) (u : String) (b : Bool) :
    ∀ st a st2,
    CompilationEngine.addVarToSymbolTable n ty k u b st = Except.ok (a, st2) →
    st2.output = st.output := by
  intro st a st2 h
  unfold CompilationEngine.addVarToSymbolTable at h
  dsimp only at h
  split at h
  · split at h
    · cases h; rfl
    · cases h
  · split at h
    · cases h; rfl
    · cases h

theorem outEq_symContains (tok : Option String) : ∀ st a st2,
    CompilationEngine.symContains tok st = Except.ok (a, st2) →
    st2.output = st.output := by
  intro st a st2 h; cases h; rfl

theorem outEq_symGetKind (tok : Option String) : ∀ st a st2,
    CompilationEngine.symGetKind tok st = Except.ok (a, st2) →
    st2.output = st.output := by
  intro st a st2 h
  unfold CompilationEngine.symGetKind at h
  split at h
  · cases h; rfl
  · cases h

theorem outEq_symGetIndex (tok : Option String) : ∀ st a st2,
    CompilationEngine.symGetIndex tok st = Except.ok (a, st2) →
    st2.output = st.output := by
  intro st a st2 h
  unfold CompilationEngine.symGetIndex at h
  split at h
  · cases h; rfl
  · cases h

theorem outEq_symGetType (tok : Option String) : ∀ st a st2,
    CompilationEngine.symGetType tok st = Except.ok (a, st2) →
    st2.output = st.output := by
  intro st a st2 h
  unfold CompilationEngine.symGetType at h
  split at h
  · cases h; rfl
  · cases h

theorem outEq_symNumClassFields : ∀ st a st2,
    CompilationEngine.symNumClassFields st = Except.ok (a, st2) →
    st2.output = st.output := by
  intro st a st2 h; cases h; rfl

theorem outEq_incArgs : ∀ st a st2,
    CompilationEngine.incArgs st = Except.ok (a, st2) →
    st2.output = st.output := by
  intro st a st2 h
  unfold CompilationEngine.incArgs at h
  split at h
  · cases h; rfl
  · cases h

theorem outEq_setArgsZero : ∀ st a st2,
    CompilationEngine.setArgsZero st = Except.ok (a, st2) →
    st2.output = st.output := by
  intro st a st2 h; cases h; rfl

theorem outEq_incNLocals : ∀ st a st2,
    CompilationEngine.incNLocals st = Except.ok (a, st2) →
    st2.output = st.output := by
  intro st a st2 h
  unfold CompilationEngine.incNLocals at h
  split at h
  · cases h; rfl
  · cases h

theorem outEq_reset : ∀ st a st2,
    CompilationEngine.resetSubroutineProperties st = Except.ok (a, st2) →
    st2.output = st.output := by
  intro st a st2 h; cases h; rfl

theorem outEq_setCurrentClass : ∀ st a st2,
    CompilationEngine.setCurrentClass st = Except.ok (a, st2) →
    st2.output = st.output := by
  intro st a st2 h; cases h; rfl

theorem outEq_setCurrentSubroutineType : ∀ st a st2,
    CompilationEngine.setCurrentSubroutineType st = Except.ok (a, st2) →
    st2.output = st.output := by
  intro st a st2 h; cases h; rfl

theorem outEq_setCurrentSubroutineReturnType : ∀ st a st2,
    CompilationEngine.setCurrentSubroutineReturnType st = Except.ok (a, st2) →
    st2.output = st.output := by
  intro st a st2 h; cases h; rfl

theorem outEq_setCurrentSubroutineName : ∀ st a st2,
    CompilationEngine.setCurrentSubroutineName st = Except.ok (a, st2) →
    st2.output = st.output := by
  intro st a st2 h; cases h; rfl

theorem outEq_getUniqueIfLabel : ∀ st a st2,
    CompilationEngine.getUniqueIfLabel st = Except.ok (a, st2) →
    st2.output = st.output := by
  intro st a st2 h; cases h; rfl

theorem outEq_getUniqueWhileLabel : ∀ st a st2,
    CompilationEngine.getUniqueWhileLabel st = Except.ok (a, st2) →
    st2.output = st.output := by
  intro st a st2 h; cases h; rfl

theorem outEq_getField {α : Type} (f : CompilationEngine.EngineState → α) :
    ∀ st a st2,
    CompilationEngine.getField f st = Except.ok (a, st2) →
    st2.output = st.output := by
  intro st a st2 h; cases h; rfl

theorem presS_tokNext : PresS CompilationEngine.tokNext (fun _ => True) :=
  presS_of_outEq presE_tokNext outEq_tokNext

theorem presS_curTok : PresS CompilationEngine.curTok WFopt :=
  presS_of_outEq presE_curTok outEq_curTok

theorem presS_curType : PresS CompilationEngine.curType (fun _ => True) :=
  presS_of_outEq presE_curType outEq_curType

theorem presS_lookAhead : PresS CompilationEngine.lookAhead (fun _ => True) :=
  presS_of_outEq presE_lookAhead outEq_lookAhead

theorem presS_validateType (target : List String) (msg : String) :
    PresS (CompilationEngine.validateTypeAndAdvance target msg) (fun _ => True) :=
  presS_of_outEq (presE_validateType target msg) (outEq_validateType target msg)

theorem presS_validateToken (target : List String) (msg : String) :
    PresS (CompilationEngine.validateTokenAndAdvance target msg) (fun _ => True) :=
  presS_of_outEq (presE_validateToken target msg) (outEq_validateToken target msg)

theorem presS_addVar (n ty k : Option String) (u : String) (b : Bool)
    (hty : WFopt ty) :
    PresS (CompilationEngine.addVarToSymbolTable n ty k u b) (fun _ => True) :=
  presS_of_outEq (presE_addVar n ty k u b hty) (outEq_addVar n ty k u b)

theorem presS_symContains (tok : Option String) :
    PresS (CompilationEngine.symContains tok) (fun _ => True) :=
  presS_of_outEq (presE_symContains tok) (outEq_symContains tok)

theorem presS_symGetKind (tok : Option String) :
    PresS (CompilationEngine.symGetKind tok) (fun _ => True) :=
  presS_of_outEq (presE_symGetKind tok) (outEq_symGetKind tok)

theorem presS_symGetIndex (tok : Option String) :
    PresS (CompilationEngine.symGetIndex tok) (fun _ => True) :=
  presS_of_outEq (presE_symGetIndex tok) (outEq_symGetIndex tok)

theorem presS_symGetType (tok : Option String) :
    PresS (CompilationEngine.symGetType tok) WFopt :=
  presS_of_outEq (presE_symGetType tok) (outEq_symGetType tok)

theorem presS_symNumClassFields :
    PresS CompilationEngine.symNumClassFields (fun _ => True) :=
  presS_of_outEq presE_symNumClassFields outEq_symNumClassFields

theorem presS_incArgs : PresS CompilationEngine.incArgs (fun _ => True) :=
  presS_of_outEq presE_incArgs outEq_incArgs

theorem presS_setArgsZero : PresS CompilationEngine.setArgsZero (fun _ => True) :=
  presS_of_outEq presE_setArgsZero outEq_setArgsZero

theorem presS_incNLocals : PresS CompilationEngine.incNLocals (fun _ => True) :=
  presS_of_outEq presE_incNLocals outEq_incNLocals

theorem presS_reset :
    PresS CompilationEngine.resetSubroutineProperties (fun _ => True) :=
  presS_of_outEq presE_reset outEq_reset

theorem presS_setCurrentClass :
    PresS CompilationEngine.setCurrentClass (fun _ => True) :=
  presS_of_outEq presE_setCurrentClass outEq_setCurrentClass

theorem presS_setCurrentSubroutineType :
    PresS CompilationEngine.setCurrentSubroutineType (fun _ => True) :=
  presS_of_outEq presE_setCurrentSubroutineType outEq_setCurrentSubroutineType

theorem presS_setCurrentSubroutineReturnType :
    PresS CompilationEngine.setCurrentSubroutineReturnType (fun _ => True) :=
  presS_of_outEq presE_setCurrentSubroutineReturnType
    outEq_setCurrentSubroutineReturnType

theorem presS_setCurrentSubroutineName :
    PresS CompilationEngine.setCurrentSubroutineName (fun _ => True) :=
  presS_of_outEq presE_setCurrentSubroutineName outEq_setCurrentSubroutineName

theorem presS_getUniqueIfLabel :
    PresS CompilationEngine.getUniqueIfLabel (fun l => WFtok l) :=
  presS_of_outEq presE_getUniqueIfLabel outEq_getUniqueIfLabel

theorem presS_getUniqueWhileLabel :
    PresS CompilationEngine.getUniqueWhileLabel (fun l => WFtok l) :=
  presS_of_outEq presE_getUniqueWhileLabel outEq_getUniqueWhileLabel

theorem presS_getField_true {α : Type} (f : CompilationEngine.EngineState → α) :
    PresS (CompilationEngine.getField f) (fun _ => True) :=
  presS_of_outEq (presE_getField_true f) (outEq_getField f)

theorem presS_getField_currentClass :
    PresS (CompilationEngine.getField (·.currentClass)) WFopt :=
  presS_of_outEq presE_getField_currentClass (outEq_getField _)

theorem presS_getField_subName :
    PresS (CompilationEngine.getField (·.currentSubroutineName)) WFopt :=
  presS_of_outEq presE_getField_subName (outEq_getField _)

theorem presS_getField_subReturnType :
    PresS (CompilationEngine.getField (·.currentSubroutineReturnType)) WFopt :=
  presS_of_outEq presE_getField_subReturnType (outEq_getField _)

/-! ### Strict preservation: writer calls as engine actions -/

theorem invS_set_output {st : CompilationEngine.EngineState} {o2 : String}
    (h : EngineInvS st) (ho : OutOk o2) (hs : OutS o2) :
    EngineInvS { st with output := o2 } := ⟨inv_set_output h.1 ho, hs⟩

theorem presS_emitW {f : String → String}
    (hf : ∀ o, OutOk o → OutOk (f o) ∧ ∃ t, f o = o ++ t)
    (hfS : ∀ o, OutS o → OutS (f o) ∧ ∃ t, f o = o ++ t) :
    PresS (CompilationEngine.emitW f) (fun _ => True) := by
  intro st a st2 hInv heq
  cases heq
  obtain ⟨h1, h2⟩ := hf st.output hInv.1.1
  obtain ⟨h3, -⟩ := hfS st.output hInv.2
  exact ⟨invS_set_output hInv h1 h3, trivial, h2⟩

theorem presS_liftW {f : String → Except String String}
    (hf : ∀ o o2, f o = .ok o2 → OutOk o → OutOk o2 ∧ ∃ t, o2 = o ++ t)
    (hfS : ∀ o o2, f o = .ok o2 → OutS o → OutS o2 ∧ ∃ t, o2 = o ++ t) :
    PresS (CompilationEngine.liftW f) (fun _ => True) := by
  intro st a st2 hInv heq
  unfold CompilationEngine.liftW at heq
  split at heq
  · rename_i o2 h2
    cases heq
    obtain ⟨h3, h4⟩ := hf st.output o2 h2 hInv.1.1
    obtain ⟨h5, -⟩ := hfS st.output o2 h2 hInv.2
    exact ⟨invS_set_output hInv h3 h5, trivial, h4⟩
  · cases heq

theorem presS_liftW_push (seg : Option String) (i : PyScalar) (hi : PyScalarOk i) :
    PresS (CompilationEngine.liftW (VMWriter.write_push_command seg i))
      (fun _ => True) :=
  presS_liftW (fun _ _ h ho => wPush_ok h ho hi)
    (fun _ _ h ho => wSPush_ok h ho hi)

theorem presS_liftW_pop (seg : Option String) (i : PyScalar) (hi : PyScalarOk i) :
    PresS (CompilationEngine.liftW (VMWriter.write_pop_command seg i))
      (fun _ => True) :=
  presS_liftW (fun _ _ h ho => wPop_ok h ho hi)
    (fun _ _ h ho => wSPop_ok h ho hi)

theorem presS_liftW_writeOp (op : Option String) :
    PresS (CompilationEngine.liftW (VMWriter.write_op op)) (fun _ => True) :=
  presS_liftW (fun _ _ h ho => wOp_ok h ho) (fun _ _ h ho => wSOp_ok h ho)

theorem presS_liftW_unary (op : Option String) :
    PresS (CompilationEngine.liftW (VMWriter.write_unary_op op)) (fun _ => True) :=
  presS_liftW (fun _ _ h ho => wUnary_ok h ho) (fun _ _ h ho => wSUnary_ok h ho)

theorem presS_liftW_voidReturn :
    PresS (CompilationEngine.liftW VMWriter.write_void_return) (fun _ => True) :=
  presS_liftW (fun _ _ h ho => wVoidReturn_ok h ho)
    (fun _ _ h ho => wSVoidReturn_ok h ho)

theorem presS_liftW_constant (ty tok : Option String) (htok : WFopt tok) :
    PresS (CompilationEngine.liftW
      (VMWriter.write_constant_int_string_keyword ty tok)) (fun _ => True) :=
  presS_liftW (fun _ _ h ho => wConstant_ok h ho htok)
    (fun _ _ h ho => wSConstant_ok h ho htok)

theorem presS_emit_arith (cmd : String) (hc : isArithOpcode cmd = true) :
    PresS (CompilationEngine.emitW (VMWriter.write_arithmetic_command cmd))
      (fun _ => True) :=
  presS_emitW (fun _ ho => wArith_ok ho hc) (fun _ ho => wSArith_ok ho hc)

theorem presS_emit_label (l : String) (hl : isFieldText l = true) :
    PresS (CompilationEngine.emitW (VMWriter.write_label_command l))
      (fun _ => True) :=
  presS_emitW (fun _ ho => wLabel_ok ho (wftok_isArgText (isFieldText_wftok hl)))
    (fun _ ho => wSLabel_ok ho hl)

theorem presS_emit_goto (l : String) (hl : isFieldText l = true) :
    PresS (CompilationEngine.emitW (VMWriter.write_goto_command l))
      (fun _ => True) :=
  presS_emitW (fun _ ho => wGoto_ok ho (wftok_isArgText (isFieldText_wftok hl)))
    (fun _ ho => wSGoto_ok ho hl)

theorem presS_emit_if (l : String) (hl : isFieldText l = true) :
    PresS (CompilationEngine.emitW (VMWriter.write_if_command l))
      (fun _ => True) :=
  presS_emitW (fun _ ho => wIf_ok ho (wftok_isArgText (isFieldText_wftok hl)))
    (fun _ ho => wSIf_ok ho hl)

theorem presS_emit_call (name : String) (i : PyScalar)
    (hn : isFieldText name = true) (hi : PyScalarOk i) :
    PresS (CompilationEngine.emitW (VMWriter.write_call_command name i))
      (fun _ => True) :=
  presS_emitW
    (fun _ ho => wCall_ok ho (wftok_isArgText (isFieldText_wftok hn)) hi)
    (fun _ ho => wSCall_ok ho hn hi)

theorem presS_emit_function (name : String) (i : PyScalar)
    (hn : isFieldText name = true) (hi : PyScalarOk i) :
    PresS (CompilationEngine.emitW (VMWriter.write_function_command name i))
      (fun _ => True) :=
  presS_emitW
    (fun _ ho => wFunction_ok ho (wftok_isArgText (isFieldText_wftok hn)) hi)
    (fun _ ho => wSFunction_ok ho hn hi)

theorem presS_emit_comment (text : String) (ht : CmtTextOk text) :
    PresS (CompilationEngine.emitW (VMWriter.write_comment text))
      (fun _ => True) :=
  presS_emitW (fun _ ho => wComment_ok ho ht.2.1) (fun _ ho => wSComment_ok ho ht)

theorem presS_emit_return :
    PresS (CompilationEngine.emitW VMWriter.write_return_command)
      (fun _ => True) :=
  presS_emitW (fun _ ho => wReturn_ok ho) (fun _ ho => wSReturn_ok ho)

/-- Every recursive-descent method preserves the strict engine
invariant (well-shaped strict lines, single-token fields) and only
appends to the output, provided the (one fuel step smaller) recursive
calls do. -/
theorem engineStepS_pres
    (recC : CompilationEngine.EngineCall → CompilationEngine.EngM Unit)
    (ih : ∀ c, CallOk c → PresS (recC c) (fun _ => True)) :
    ∀ c, CallOk c → PresS (CompilationEngine.engineStep recC c) (fun _ => True) := by
  intro c hok
  cases c with
  | classC =>
    unfold CompilationEngine.engineStep
    refine presS_bind (presS_validateToken _ _) (fun _ _ => ?_)
    refine presS_bind presS_setCurrentClass (fun _ _ => ?_)
    refine presS_bind (presS_validateType _ _) (fun _ _ => ?_)
    refine presS_bind (presS_validateToken _ _) (fun _ _ => ?_)
    refine presS_bind (ih .classVarDecsLoop trivial) (fun _ _ => ?_)
    refine presS_bind (ih .subroutinesLoop trivial) (fun _ _ => ?_)
    refine presS_bind presS_curTok (fun c2 _ => ?_)
    exact presS_ite (presS_pure trivial) presS_throw
  | classVarDecsLoop =>
    unfold CompilationEngine.engineStep
    refine presS_bind presS_curTok (fun c2 _ => ?_)
    refine presS_ite (presS_pure trivial) ?_
    refine presS_bind (presS_ite (ih .classVarDec trivial) (presS_pure trivial))
      (fun _ _ => ?_)
    exact ih .classVarDecsLoop trivial
  | subroutinesLoop =>
    unfold CompilationEngine.engineStep
    refine presS_bind presS_curTok (fun c2 _ => ?_)
    refine presS_ite (presS_pure trivial) ?_
    refine presS_bind (presS_ite (ih .subroutine trivial) (presS_pure trivial))
      (fun _ _ => ?_)
    exact ih .subroutinesLoop trivial
  | classVarDec =>
    unfold CompilationEngine.engineStep
    refine presS_bind presS_curTok (fun k _ => ?_)
    refine presS_bind presS_tokNext (fun _ _ => ?_)
    exact ih (.varList k true) trivial
  | subroutine =>
    unfold CompilationEngine.engineStep
    refine presS_bind presS_reset (fun _ _ => ?_)
    refine presS_bind presS_setCurrentSubroutineType (fun _ _ => ?_)
    refine presS_bind (presS_getField_true _) (fun t _ => ?_)
    refine presS_bind (presS_ite
      (presS_bind presS_getField_currentClass
        (fun cls hcls => presS_addVar _ _ _ _ _ hcls))
      (presS_pure trivial)) (fun _ (_ : True) => ?_)
    refine presS_bind presS_tokNext (fun _ _ => ?_)
    refine presS_bind presS_setCurrentSubroutineReturnType (fun _ _ => ?_)
    refine presS_bind (presS_validateType _ _) (fun _ _ => ?_)
    refine presS_bind presS_setCurrentSubroutineName (fun _ _ => ?_)
    refine presS_bind presS_getField_subName (fun n hn => ?_)
    refine presS_bind presS_getField_subReturnType (fun r hr => ?_)
    refine presS_bind (presS_emit_comment _
      (cmtTextOk_append (noNl_append (wftok_noNl (pyStrOf_wf hn))
        (noNl_of_all (by decide))) (cmtTextOk_pyStrOf hr)))
      (fun _ _ => ?_)
    refine presS_bind (presS_validateType _ _) (fun _ _ => ?_)
    refine presS_bind (presS_validateToken _ _) (fun _ _ => ?_)
    refine presS_bind (ih .parameterList trivial) (fun _ _ => ?_)
    refine presS_bind (presS_validateToken _ _) (fun _ _ => ?_)
    refine presS_bind presS_curTok (fun c2 _ => ?_)
    exact presS_ite (ih .subroutineBody trivial) presS_throw
  | parameterList =>
    unfold CompilationEngine.engineStep
    refine presS_bind presS_curTok (fun c2 _ => ?_)
    refine presS_ite (presS_pure trivial) ?_
    refine presS_ite
      (presS_bind (presS_validateToken _ _)
        (fun _ _ => ih .parameterList trivial)) ?_
    refine presS_bind presS_curTok (fun vt hvt => ?_)
    refine presS_bind (presS_validateType _ _) (fun _ _ => ?_)
    refine presS_bind presS_curTok (fun vn _ => ?_)
    refine presS_bind (presS_validateType _ _) (fun _ _ => ?_)
    refine presS_bind (presS_addVar _ _ _ _ _ hvt) (fun _ _ => ?_)
    exact ih .parameterList trivial
  | subroutineBody =>
    unfold CompilationEngine.engineStep
    refine presS_bind presS_tokNext (fun _ _ => ?_)
    refine presS_bind (ih .bodyVarDecsLoop trivial) (fun _ _ => ?_)
    refine presS_bind presS_getField_currentClass (fun cls hcls => ?_)
    refine presS_bind presS_getField_subName (fun n hn => ?_)
    refine presS_bind (presS_getField_true _) (fun locals _ => ?_)
    refine presS_bind (presS_emit_function _ _
      (argOkS_dotted hcls hn) (pyOfOptNat_ok _)) (fun _ _ => ?_)
    refine presS_bind (presS_getField_true _) (fun t _ => ?_)
    refine presS_bind (presS_ite
      (presS_bind (presS_liftW_push _ _ trivial)
        (fun _ _ => presS_liftW_pop _ _ trivial))
      (presS_ite
        (presS_bind presS_symNumClassFields (fun k _ =>
          presS_bind (presS_liftW_push _ _ trivial) (fun _ _ =>
            presS_bind (presS_emit_call _ _ (by decide) trivial)
              (fun _ _ => presS_liftW_pop _ _ trivial))))
        (presS_pure trivial))) (fun _ _ => ?_)
    refine presS_bind (ih .bodyStatementsLoop trivial) (fun _ _ => ?_)
    exact presS_tokNext
  | bodyVarDecsLoop =>
    unfold CompilationEngine.engineStep
    refine presS_bind presS_curTok (fun c2 _ => ?_)
    refine presS_ite (presS_pure trivial) ?_
    refine presS_bind (ih .subroutineVarDec trivial) (fun _ _ => ?_)
    exact ih .bodyVarDecsLoop trivial
  | bodyStatementsLoop =>
    unfold CompilationEngine.engineStep
    refine presS_bind presS_curTok (fun c2 _ => ?_)
    refine presS_ite (presS_pure trivial) ?_
    refine presS_bind (ih .statements trivial) (fun _ _ => ?_)
    exact ih .bodyStatementsLoop trivial
  | subroutineVarDec =>
    unfold CompilationEngine.engineStep
    refine presS_bind presS_tokNext (fun _ _ => ?_)
    exact ih (.varList (Option.some SymbolTableMod.LOCAL_KIND) false) trivial
  | statements =>
    unfold CompilationEngine.engineStep
    refine presS_bind presS_curTok (fun c2 _ => ?_)
    refine presS_ite (presS_pure trivial) ?_
    refine presS_bind (presS_ite (ih .doStatement trivial)
      (presS_ite (ih .letStatement trivial)
        (presS_ite (ih .whileStatement trivial)
          (presS_ite (ih .returnStatement trivial)
            (presS_ite (ih .ifStatement trivial) presS_throw)))))
      (fun _ _ => ?_)
    exact ih .statements trivial
  | doStatement =>
    unfold CompilationEngine.engineStep
    refine presS_bind presS_tokNext (fun _ _ => ?_)
    refine presS_bind (ih .subroutineCall trivial) (fun _ _ => ?_)
    refine presS_bind (presS_validateToken _ _) (fun _ _ => ?_)
    exact presS_liftW_pop _ _ trivial
  | letStatement =>
    unfold CompilationEngine.engineStep
    dsimp only
    refine presS_bind presS_tokNext (fun _ _ => ?_)
    refine presS_bind presS_curTok (fun target _ => ?_)
    refine presS_bind (presS_validateType _ _) (fun _ _ => ?_)
    refine presS_bind presS_curTok (fun c2 _ => ?_)
    refine presS_ite ?_ ?_
    · refine presS_bind presS_tokNext (fun _ _ => ?_)
      refine presS_bind (ih (.expression ["]"]) trivial) (fun _ _ => ?_)
      refine presS_bind (presS_validateToken _ _) (fun _ _ => ?_)
      refine presS_bind (presS_symGetKind _) (fun k _ => ?_)
      refine presS_bind (presS_symGetIndex _) (fun i _ => ?_)
      refine presS_bind (presS_liftW_push k (pyOfOptNat i) (pyOfOptNat_ok _))
        (fun _ _ => ?_)
      refine presS_bind (presS_emit_arith "add" (by decide)) (fun _ _ => ?_)
      refine presS_bind (presS_liftW_pop (Option.some VMWriter.TEMP_SEGMENT)
        (.int 1) trivial) (fun _ _ => ?_)
      refine presS_bind (presS_pureT true) (fun isArray _ => ?_)
      refine presS_bind (presS_validateToken _ _) (fun _ _ => ?_)
      refine presS_bind (ih (.expression [";"]) trivial) (fun _ _ => ?_)
      refine presS_bind (presS_validateToken _ _) (fun _ _ => ?_)
      exact presS_ite
        (presS_bind (presS_liftW_push (Option.some VMWriter.TEMP_SEGMENT)
            (.int 1) trivial) (fun _ _ =>
          presS_bind (presS_liftW_pop (Option.some VMWriter.POINTER_SEGMENT)
              (.int 1) trivial) (fun _ _ =>
            presS_liftW_pop (Option.some VMWriter.THAT_SEGMENT)
              (.int 0) trivial)))
        (presS_bind (presS_symGetKind _) (fun k2 _ =>
          presS_bind (presS_symGetIndex _) (fun i2 _ =>
            presS_liftW_pop k2 (pyOfOptNat i2) (pyOfOptNat_ok _))))
    · refine presS_bind (presS_pureT false) (fun isArray _ => ?_)
      refine presS_bind (presS_validateToken _ _) (fun _ _ => ?_)
      refine presS_bind (ih (.expression [";"]) trivial) (fun _ _ => ?_)
      refine presS_bind (presS_validateToken _ _) (fun _ _ => ?_)
      exact presS_ite
        (presS_bind (presS_liftW_push (Option.some VMWriter.TEMP_SEGMENT)
            (.int 1) trivial) (fun _ _ =>
          presS_bind (presS_liftW_pop (Option.some VMWriter.POINTER_SEGMENT)
              (.int 1) trivial) (fun _ _ =>
            presS_liftW_pop (Option.some VMWriter.THAT_SEGMENT)
              (.int 0) trivial)))
        (presS_bind (presS_symGetKind _) (fun k2 _ =>
          presS_bind (presS_symGetIndex _) (fun i2 _ =>
            presS_liftW_pop k2 (pyOfOptNat i2) (pyOfOptNat_ok _))))
  | whileStatement =>
    unfold CompilationEngine.engineStep
    refine presS_bind presS_getUniqueWhileLabel (fun l1 hl1 => ?_)
    refine presS_bind presS_getUniqueWhileLabel (fun l2 hl2 => ?_)
    refine presS_bind presS_tokNext (fun _ _ => ?_)
    refine presS_bind (presS_emit_label _ (wftok_isFieldText hl1)) (fun _ _ => ?_)
    refine presS_bind (presS_validateToken _ _) (fun _ _ => ?_)
    refine presS_bind (ih (.expression [")"]) trivial) (fun _ _ => ?_)
    refine presS_bind (presS_validateToken _ _) (fun _ _ => ?_)
    refine presS_bind (presS_emit_arith _ (by decide)) (fun _ _ => ?_)
    refine presS_bind (presS_emit_if _ (wftok_isFieldText hl2)) (fun _ _ => ?_)
    refine presS_bind (presS_validateToken _ _) (fun _ _ => ?_)
    refine presS_bind (ih .statements trivial) (fun _ _ => ?_)
    refine presS_bind presS_tokNext (fun _ _ => ?_)
    refine presS_bind (presS_emit_goto _ (wftok_isFieldText hl1)) (fun _ _ => ?_)
    exact presS_emit_label _ (wftok_isFieldText hl2)
  | returnStatement =>
    unfold CompilationEngine.engineStep
    refine presS_bind presS_tokNext (fun _ _ => ?_)
    refine presS_bind presS_curTok (fun c2 _ => ?_)
    refine presS_bind (presS_ite (ih (.expression [";"]) trivial)
      (presS_pure trivial)) (fun _ _ => ?_)
    refine presS_bind (presS_validateToken _ _) (fun _ _ => ?_)
    refine presS_bind (presS_getField_true _) (fun rt _ => ?_)
    exact presS_ite presS_liftW_voidReturn presS_emit_return
  | ifStatement =>
    unfold CompilationEngine.engineStep
    refine presS_bind presS_getUniqueIfLabel (fun l1 hl1 => ?_)
    refine presS_bind presS_getUniqueIfLabel (fun l2 hl2 => ?_)
    refine presS_bind presS_tokNext (fun _ _ => ?_)
    refine presS_bind (presS_validateToken _ _) (fun _ _ => ?_)
    refine presS_bind (ih (.expression [")"]) trivial) (fun _ _ => ?_)
    refine presS_bind (presS_validateToken _ _) (fun _ _ => ?_)
    refine presS_bind (presS_emit_arith _ (by decide)) (fun _ _ => ?_)
    refine presS_bind (presS_emit_if _ (wftok_isFieldText hl1)) (fun _ _ => ?_)
    refine presS_bind (presS_validateToken _ _) (fun _ _ => ?_)
    refine presS_bind (ih .statements trivial) (fun _ _ => ?_)
    refine presS_bind presS_tokNext (fun _ _ => ?_)
    refine presS_bind (presS_emit_goto _ (wftok_isFieldText hl2)) (fun _ _ => ?_)
    refine presS_bind (presS_emit_label _ (wftok_isFieldText hl1)) (fun _ _ => ?_)
    refine presS_bind presS_curTok (fun c2 _ => ?_)
    refine presS_bind (presS_ite
      (presS_bind presS_tokNext (fun _ _ =>
        presS_bind (presS_validateToken _ _) (fun _ _ =>
          presS_bind (ih .statements trivial) (fun _ _ => presS_tokNext))))
      (presS_pure trivial)) (fun _ _ => ?_)
    exact presS_emit_label _ (wftok_isFieldText hl2)
  | expressionList =>
    unfold CompilationEngine.engineStep
    refine presS_bind presS_curTok (fun c2 _ => ?_)
    refine presS_ite (presS_pure trivial) ?_
    refine presS_ite
      (presS_bind (presS_validateToken _ _)
        (fun _ _ => ih .expressionList trivial)) ?_
    refine presS_bind presS_incArgs (fun _ _ => ?_)
    refine presS_bind (ih (.expression [",", ")"]) trivial) (fun _ _ => ?_)
    exact ih .expressionList trivial
  | expression stopChars =>
    unfold CompilationEngine.engineStep
    intro st a st2 hInv heq
    dsimp only at heq
    split at heq
    · exact presS_bind (ih .term trivial)
        (fun _ _ => ih (.exprOpsLoop stopChars) trivial) st a st2 hInv heq
    · cases heq
      exact ⟨hInv, trivial, "", by simp⟩
  | exprOpsLoop stopChars =>
    unfold CompilationEngine.engineStep
    refine presS_bind presS_curTok (fun c2 _ => ?_)
    refine presS_ite (presS_pure trivial) ?_
    refine presS_bind presS_curTok (fun op _ => ?_)
    refine presS_bind (presS_validateToken _ _) (fun _ _ => ?_)
    refine presS_bind (ih .term trivial) (fun _ _ => ?_)
    refine presS_bind (presS_liftW_writeOp _) (fun _ _ => ?_)
    exact ih (.exprOpsLoop stopChars) trivial
  | term =>
    unfold CompilationEngine.engineStep
    refine presS_bind presS_curType (fun ty _ => ?_)
    refine presS_bind presS_curTok (fun c2 hc2 => ?_)
    refine presS_ite
      (presS_bind (presS_liftW_constant _ _ hc2) (fun _ _ => presS_tokNext)) ?_
    refine presS_ite
      (presS_bind presS_tokNext (fun _ _ =>
        presS_bind (ih .term trivial) (fun _ _ => presS_liftW_unary _))) ?_
    refine presS_ite
      (presS_bind presS_tokNext (fun _ _ =>
        presS_bind (ih (.expression [")"]) trivial)
          (fun _ _ => presS_tokNext))) ?_
    refine presS_bind (presS_ite presS_throw (presS_pureT ())) (fun _ _ => ?_)
    refine presS_bind presS_lookAhead (fun la _ => ?_)
    refine presS_ite (ih .subroutineCall trivial) ?_
    refine presS_ite
      (presS_bind presS_curTok (fun target _ =>
        presS_bind (presS_validateType _ _) (fun _ _ =>
          presS_bind presS_tokNext (fun _ _ =>
            presS_bind (ih (.expression ["]"]) trivial) (fun _ _ =>
              presS_bind presS_tokNext (fun _ _ =>
                presS_bind (presS_symGetKind _) (fun k _ =>
                  presS_bind (presS_symGetIndex _) (fun i _ =>
                    presS_bind (presS_liftW_push _ _ (pyOfOptNat_ok _)) (fun _ _ =>
                      presS_bind (presS_emit_arith _ (by decide)) (fun _ _ =>
                        presS_bind (presS_liftW_pop _ _ trivial)
                          (fun _ _ => presS_liftW_push _ _ trivial))))))))))) ?_
    refine presS_bind presS_curTok (fun v _ => ?_)
    refine presS_bind (presS_symGetKind _) (fun k _ => ?_)
    refine presS_bind (presS_symGetIndex _) (fun i _ => ?_)
    refine presS_bind (presS_liftW_push _ _ (pyOfOptNat_ok _)) (fun _ _ => ?_)
    exact presS_validateType _ _
  | varList varKind isClassVar =>
    unfold CompilationEngine.engineStep
    refine presS_bind presS_curTok (fun vt hvt => ?_)
    refine presS_bind (presS_validateType _ _) (fun _ _ => ?_)
    refine presS_bind presS_curTok (fun n _ => ?_)
    refine presS_bind (presS_addVar _ _ _ _ _ hvt) (fun _ _ => ?_)
    refine presS_bind (presS_validateType _ _) (fun _ _ => ?_)
    refine presS_bind (presS_ite (presS_pure trivial) presS_incNLocals)
      (fun _ _ => ?_)
    refine presS_bind (ih (.varListLoop vt varKind isClassVar) hvt)
      (fun _ _ => ?_)
    exact presS_tokNext
  | varListLoop varType varKind isClassVar =>
    unfold CompilationEngine.engineStep
    refine presS_bind presS_curTok (fun c2 _ => ?_)
    refine presS_ite (presS_pure trivial) ?_
    refine presS_ite
      (presS_bind (presS_validateToken _ _)
        (fun _ _ => ih (.varListLoop varType varKind isClassVar) hok)) ?_
    refine presS_bind presS_curType (fun ty _ => ?_)
    refine presS_ite ?_ presS_throw
    refine presS_bind presS_curTok (fun n _ => ?_)
    refine presS_bind (presS_addVar _ _ _ _ _ hok) (fun _ _ => ?_)
    refine presS_bind (presS_validateType _ _) (fun _ _ => ?_)
    refine presS_bind (presS_ite (presS_pure trivial) presS_incNLocals)
      (fun _ _ => ?_)
    exact ih (.varListLoop varType varKind isClassVar) hok
  | subroutineCall =>
    unfold CompilationEngine.engineStep
    dsimp only
    refine presS_bind presS_setArgsZero (fun _ _ => ?_)
    refine presS_bind presS_curTok (fun n1 hn1 => ?_)
    refine presS_bind (presS_validateType _ _) (fun _ _ => ?_)
    refine presS_bind presS_curTok (fun c2 _ => ?_)
    refine presS_ite ?_ ?_
    · refine presS_bind presS_tokNext (fun _ _ => ?_)
      refine presS_bind presS_curTok (fun n2 hn2 => ?_)
      refine presS_bind (presS_symContains _) (fun contains _ => ?_)
      refine presS_ite ?_ ?_
      · refine presS_bind (presS_symGetKind _) (fun k _ => ?_)
        refine presS_bind (presS_symGetIndex _) (fun i _ => ?_)
        refine presS_bind (presS_liftW_push k (pyOfOptNat i)
          (pyOfOptNat_ok _)) (fun _ _ => ?_)
        refine presS_bind presS_incArgs (fun _ _ => ?_)
        refine presS_bind (presS_symGetType _) (fun t ht => ?_)
        refine presS_bind presS_curTok (fun n2b hn2b => ?_)
        refine presS_bind (presS_pureArg _ (argOkS_dotted ht hn2b))
          (fun y hy => ?_)
        refine presS_bind (presS_validateType _ _) (fun _ _ => ?_)
        refine presS_bind (presS_pureArg _ hy) (fun nm hnm => ?_)
        refine presS_bind (presS_validateToken _ _) (fun _ _ => ?_)
        refine presS_bind (ih .expressionList trivial) (fun _ _ => ?_)
        refine presS_bind (presS_getField_true _) (fun args _ => ?_)
        refine presS_bind (presS_emit_call _ _ hnm (pyOfOptNat_ok _))
          (fun _ _ => ?_)
        exact presS_tokNext
      · refine presS_bind (presS_pureArg _ (argOkS_dotted hn1 hn2))
          (fun y hy => ?_)
        refine presS_bind (presS_validateType _ _) (fun _ _ => ?_)
        refine presS_bind (presS_pureArg _ hy) (fun nm hnm => ?_)
        refine presS_bind (presS_validateToken _ _) (fun _ _ => ?_)
        refine presS_bind (ih .expressionList trivial) (fun _ _ => ?_)
        refine presS_bind (presS_getField_true _) (fun args _ => ?_)
        refine presS_bind (presS_emit_call _ _ hnm (pyOfOptNat_ok _))
          (fun _ _ => ?_)
        exact presS_tokNext
    · refine presS_bind presS_getField_currentClass (fun cls hcls => ?_)
      refine presS_bind (presS_liftW_push
        (Option.some VMWriter.POINTER_SEGMENT) (.int 0) trivial)
        (fun _ _ => ?_)
      refine presS_bind presS_incArgs (fun _ _ => ?_)
      refine presS_bind (presS_pureArg _ (argOkS_dotted hcls hn1))
        (fun nm hnm => ?_)
      refine presS_bind (presS_validateToken _ _) (fun _ _ => ?_)
      refine presS_bind (ih .expressionList trivial) (fun _ _ => ?_)
      refine presS_bind (presS_getField_true _) (fun args _ => ?_)
      refine presS_bind (presS_emit_call _ _ hnm (pyOfOptNat_ok _))
        (fun _ _ => ?_)
      exact presS_tokNext


/-- Iterating the step functional preserves the strict invariant. -/
theorem engineRunS_pres (fuel : Nat) :
    ∀ c, CallOk c → PresS (CompilationEngine.engineRun fuel c) (fun _ => True) := by
  induction fuel with
  | zero => intro c _; exact presS_throw
  | succ n ihn => exact engineStepS_pres (CompilationEngine.engineRun n) ihn

/-- The engine constructor leaves the writer's buffer empty. -/
theorem initEngine_out {input : String} {st0 : CompilationEngine.EngineState}
    (h : CompilationEngine.initEngine input = Except.ok st0) : st0.output = "" := by
  unfold CompilationEngine.initEngine at h
  rcases hi : Tokenizer.init input with e | tk <;> rw [hi] at h
  · cases h
  · dsimp only at h
    rcases hn : Tokenizer.next tk with ⟨v, tk1⟩
    rw [hn] at h
    rcases v with e | pv <;> dsimp only at h
    · cases h
    · split at h
      · cases h; rfl
      · cases h

theorem isFieldText_noNl {s : String} (h : isFieldText s = true) : NoNl s :=
  wftok_noNl (isFieldText_wftok h)

/-- No strict output line contains a newline. -/
theorem lineOkS_noNl {l : String} (h : LineOkS l) : ∀ c ∈ l.data, c ≠ '\n' := by
  rcases h with h | h
  · cases h with
    | push seg idx hs hi =>
      exact noNl_append (noNl_append (noNl_append (noNl_of_all (by decide))
        (isSegmentName_noNl hs)) (noNl_of_all (by decide))) (isFieldText_noNl hi)
    | pop seg idx hs hi =>
      exact noNl_append (noNl_append (noNl_append (noNl_of_all (by decide))
        (isSegmentName_noNl hs)) (noNl_of_all (by decide))) (isFieldText_noNl hi)
    | arith op hop =>
      have hm := List.mem_of_elem_eq_true (α := String) hop
      simp only [List.mem_cons, List.not_mem_nil, or_false] at hm
      rcases hm with rfl | rfl | rfl | rfl | rfl | rfl | rfl | rfl | rfl <;>
        exact noNl_of_all (by decide)
    | label lb hl =>
      exact noNl_append (noNl_of_all (by decide)) (isFieldText_noNl hl)
    | goto lb hl =>
      exact noNl_append (noNl_of_all (by decide)) (isFieldText_noNl hl)
    | ifgoto lb hl =>
      exact noNl_append (noNl_of_all (by decide)) (isFieldText_noNl hl)
    | call f n hf hn =>
      exact noNl_append (noNl_append (noNl_append (noNl_of_all (by decide))
        (isFieldText_noNl hf)) (noNl_of_all (by decide))) (isFieldText_noNl hn)
    | func f k hf hk =>
      exact noNl_append (noNl_append (noNl_append (noNl_of_all (by decide))
        (isFieldText_noNl hf)) (noNl_of_all (by decide))) (isFieldText_noNl hk)
    | ret => exact noNl_of_all (by decide)
  · obtain ⟨t, rfl, ht⟩ := h
    exact noNl_append (noNl_of_all (by decide)) ht.2.1

theorem noTrailWs_append {a b : String} (hb : b.data ≠ [])
    (h : ∀ c, b.data.getLast? = Option.some c → isPySpace c = false) :
    noTrailWs (a ++ b) = true := by
  unfold noTrailWs
  rw [String.data_append, List.getLast?_append_of_ne_nil _ hb]
  cases hgl : b.data.getLast? with
  | none => rfl
  | some c => simp [h c hgl]

theorem noTrailWs_of_fieldSuffix {a b : String} (hb : isFieldText b = true) :
    noTrailWs (a ++ b) = true :=
  noTrailWs_append (isFieldText_wftok hb).1
    (fun c hc => (isFieldText_wftok hb).2 c (List.mem_of_mem_getLast? hc))

/-- No strict output line ends in whitespace. -/
theorem lineOkS_noTrailWs {l : String} (h : LineOkS l) : noTrailWs l = true := by
  rcases h with h | h
  · cases h with
    | push seg idx hs hi => exact noTrailWs_of_fieldSuffix hi
    | pop seg idx hs hi => exact noTrailWs_of_fieldSuffix hi
    | arith op hop =>
      have hm := List.mem_of_elem_eq_true (α := String) hop
      simp only [List.mem_cons, List.not_mem_nil, or_false] at hm
      rcases hm with rfl | rfl | rfl | rfl | rfl | rfl | rfl | rfl | rfl <;> decide
    | label lb hl => exact noTrailWs_of_fieldSuffix hl
    | goto lb hl => exact noTrailWs_of_fieldSuffix hl
    | ifgoto lb hl => exact noTrailWs_of_fieldSuffix hl
    | call f n hf hn => exact noTrailWs_of_fieldSuffix hn
    | func f k hf hk => exact noTrailWs_of_fieldSuffix hk
    | ret => decide
  · obtain ⟨t, rfl, ht⟩ := h
    exact noTrailWs_append ht.1 ht.2.2

/-- C4 (amended): every successful run of the compiler produces a
primary VM output that is a sequence of newline-terminated lines (one
instruction per line, Unix newlines); each line is either one of the
instruction forms of spec section 4.3 with single-token fields —
`push <seg> <i>`, `pop <seg> <i>`, a bare arithmetic opcode, `label L`,
`goto L`, `if-goto L`, `call F n`, `function F k`, `return`, where
`<seg>` is one of the eight VM segment names and every other field is a
nonempty whitespace-free token — or a comment line `// text` whose text
is nonempty and newline-free; no line contains a newline of its own and
no line ends in trailing whitespace. -/
theorem c4_amended_lines_are_instructions_or_comments (fuel : Nat)
    (input out : String)
    (h : CompilationEngine.compileJack fuel input = Except.ok out) :
    ∃ ls : List String, out = String.join (ls.map (fun l => l ++ "\n")) ∧
      (∀ l ∈ ls, InstrLineS l ∨ CommentLineS l) ∧
      (∀ l ∈ ls, ∀ c ∈ l.data, c ≠ '\n') ∧
      (∀ l ∈ ls, noTrailWs l = true) := by
  unfold CompilationEngine.compileJack at h
  rcases hi : CompilationEngine.initEngine input with e | st0 <;> rw [hi] at h
  · cases h
  · dsimp only at h
    rcases hc : CompilationEngine.compileClass fuel st0 with e | ⟨u, st⟩ <;>
      rw [hc] at h
    · cases h
    · cases h
      have hS0 : OutS st0.output := by
        rw [initEngine_out hi]
        exact ⟨[], rfl, fun l hl => absurd hl (List.not_mem_nil l)⟩
      obtain ⟨⟨-, ⟨ls, hjoin, hok⟩⟩, -, -⟩ :=
        engineRunS_pres fuel .classC trivial st0 u st
          ⟨initEngine_inv hi, hS0⟩ hc
      exact ⟨ls, hjoin, hok, fun l hl => lineOkS_noNl (hok l hl),
        fun l hl => lineOkS_noTrailWs (hok l hl)⟩

set_option maxHeartbeats 1600000 in
set_option maxRecDepth 4096 in
/-- Witness for C4: the compiled class of the counterexample run, with
its hypothesis discharged by computation. -/
theorem c4_amended_witness :
    ∃ ls : List String,
      "// seven ; return: int\nfunction A.seven 0\npush constant 7\nreturn\n" =
        String.join (ls.map (fun l => l ++ "\n")) ∧
      (∀ l ∈ ls, InstrLineS l ∨ CommentLineS l) ∧
      (∀ l ∈ ls, ∀ c ∈ l.data, c ≠ '\n') ∧
      (∀ l ∈ ls, noTrailWs l = true) :=
  c4_amended_lines_are_instructions_or_comments 40
    "class A \x7b function int seven() \x7b return 7; \x7d \x7d"
    "// seven ; return: int\nfunction A.seven 0\npush constant 7\nreturn\n"
    (by rfl)
